import Mathlib

/-!
# c2compiler: the AST visitor and the C code generator

A shallow embedding of two parts of the c2 compiler and a verification of
their specification.

* `C2.Algo` embeds `c2c/Algo/ASTVisitor.cpp`: the structural walk that reports
  every identifier of a declaration to the `visitIdentifierExpr` hook.
* `C2.CGen` embeds `c2c/CCodeGenerator.cpp`: the generator that lowers the
  declarations of a target to a header buffer and a source buffer.

The tree classes themselves (`AST/Type.h`, `AST/Decl.h`, `AST/Stmt.h`,
`AST/Expr.h` and the older `Decl.h`, `Expr.h`, `Type.h`) are not part of the
sources; every tree type below has exactly the children that the embedded code
reaches through accessors. A null pointer is `none`; a child that the code
dereferences without a test is a plain field.
-/

set_option autoImplicit false

namespace C2.Algo

/-! ## The tree walked by the visitor -/

/-- An `IdentifierExpr` node. `node` is the identity of the node, the address
that the hook receives; `name` is the spelling. -/
structure IdentifierExpr where
  name : String
  node : Nat
deriving DecidableEq, Repr

mutual
/-- A `QualType`: a type pointer (`getTypePtr`) and qualifier bits. -/
inductive QualType where
  | mk (typePtr : TypeNode) (qualifiers : Nat)
/-- A `Type`, by type class (`getTypeClass`). -/
inductive TypeNode where
  | TC_BUILTIN (kind : Nat)
  | TC_POINTER (pointeeType : QualType)
  | TC_ARRAY (elementType : QualType) (sizeExpr : Option Expr)
  | TC_REF (moduleName : Option IdentifierExpr) (typeName : IdentifierExpr)
  | TC_ALIAS
  | TC_STRUCT
  | TC_ENUM
  | TC_FUNCTION
  | TC_MODULE
/-- An `Expr`, by kind (`getKind`). -/
inductive Expr where
  | EXPR_INTEGER_LITERAL (value : Int)
  | EXPR_FLOAT_LITERAL (text : String)
  | EXPR_BOOL_LITERAL (value : Bool)
  | EXPR_CHAR_LITERAL (value : Nat)
  | EXPR_STRING_LITERAL (value : String)
  | EXPR_NIL
  | EXPR_IDENTIFIER (I : IdentifierExpr)
  | EXPR_TYPE (type : QualType)
  | EXPR_CALL (fn : Expr) (args : List Expr)
  | EXPR_INITLIST (values : List Expr)
  | EXPR_DESIGNATOR_INIT_ARRAY (designator : Expr) (initValue : Expr)
  | EXPR_DESIGNATOR_INIT_FIELD (field : Expr) (initValue : Expr)
  | EXPR_BINOP (lhs : Expr) (rhs : Expr)
  | EXPR_CONDOP (cond : Expr) (lhs : Expr) (rhs : Expr)
  | EXPR_UNARYOP (expr : Expr)
  | EXPR_BUILTIN (expr : Expr) (member : Option Expr) (pointer : Option Expr)
  | EXPR_ARRAYSUBSCRIPT (base : Expr) (index : Expr)
  | EXPR_MEMBER (base : Expr) (member : IdentifierExpr)
  | EXPR_PAREN (expr : Expr)
  | EXPR_BITOFFSET (lhs : Expr) (rhs : Expr)
  | EXPR_CAST (inner : Expr) (destType : QualType)
end

/-- A `VarDecl`: the type as written (`getOrigType`) and the optional
initialiser (`getInitValue`). -/
structure VarDecl where
  name : String
  origType : QualType
  initValue : Option Expr

/-- An `AsmStmt`: output and input operand expressions. -/
structure AsmStmt where
  outputs : List Expr
  inputs : List Expr

mutual
/-- A `Stmt`, by kind (`getKind`). An expression used as a statement is
`STMT_EXPR`. -/
inductive Stmt where
  | STMT_RETURN (expr : Option Expr)
  | STMT_EXPR (E : Expr)
  | STMT_IF (cond : Stmt) (thenStmt : Stmt) (elseStmt : Option Stmt)
  | STMT_WHILE (cond : Stmt) (body : Stmt)
  | STMT_DO (cond : Stmt) (body : Stmt)
  | STMT_FOR (init : Option Stmt) (cond : Option Expr) (incr : Option Expr) (body : Stmt)
  | STMT_SWITCH (cond : Stmt) (cases : List Stmt)
  | STMT_CASE (cond : Expr) (stmts : List Stmt)
  | STMT_DEFAULT (stmts : List Stmt)
  | STMT_BREAK
  | STMT_CONTINUE
  | STMT_LABEL (name : String) (subStmt : Stmt)
  | STMT_GOTO (name : String)
  | STMT_COMPOUND (C : CompoundStmt)
  | STMT_DECL (decl : VarDecl)
  | STMT_ASM (A : AsmStmt)
/-- A `CompoundStmt`: its statement list. -/
inductive CompoundStmt where
  | mk (stmts : List Stmt)
end

/-- A `FunctionDecl`: return type as written, the receiver identifier of a
struct function, the parameters and the body. -/
structure FunctionDecl where
  name : String
  origReturnType : QualType
  structName : Option IdentifierExpr
  args : List VarDecl
  body : Option CompoundStmt

/-- An `EnumConstantDecl` with its optional initialiser. -/
structure EnumConstantDecl where
  name : String
  initValue : Option Expr

/-- A `Decl`, by kind (`getKind`). -/
inductive Decl where
  | DECL_FUNC (F : FunctionDecl)
  | DECL_VAR (V : VarDecl)
  | DECL_ENUMVALUE (E : EnumConstantDecl)
  | DECL_ALIASTYPE (name : String) (refType : QualType)
  | DECL_STRUCTTYPE (name : String) (members : List Decl)
  | DECL_ENUMTYPE (name : String) (constants : List EnumConstantDecl)
  | DECL_FUNCTIONTYPE (name : String) (decl : FunctionDecl)
  | DECL_ARRAYVALUE (name : String) (expr : Expr)
  | DECL_IMPORT (name : String)
  | DECL_LABEL (name : String)

/-! ## The visitor -/

/-- The ways a walk stops early. Modelled from the spec: the macros `TODO` and
`FATAL_ERROR` come from `Utils/Errors.h`, which is not part of the sources; the
specification makes a `Module`-kind type a fatal invariant violation and lists
the `TODO` paths as aborting, so both end the walk. -/
inductive VisitError where
  | todo
  | fatal (msg : String)
deriving DecidableEq, Repr

/-- The calls of `visitIdentifierExpr` made so far, oldest first. -/
abbrev Callbacks := List IdentifierExpr

/-- Modelled from the spec: `TODO` of `Utils/Errors.h`. -/
def TODO : Except VisitError Callbacks := .error .todo

/-- Modelled from the spec: `FATAL_ERROR(msg)` of `Utils/Errors.h`. -/
def FATAL_ERROR (msg : String) : Except VisitError Callbacks := .error (.fatal msg)

namespace ASTVisitor

/-- The hook `visitIdentifierExpr`. It is pure virtual in the visitor; the
embedding records the call. -/
def visitIdentifierExpr (I : IdentifierExpr) (log : Callbacks) : Except VisitError Callbacks :=
  .ok (log ++ [I])

mutual
/-- `ASTVisitor::checkType`. -/
def checkType : QualType → Bool → Callbacks → Except VisitError Callbacks
  | .mk (.TC_BUILTIN _) _, _, log => .ok log
  | .mk (.TC_POINTER pointee) _, _, log => checkType pointee false log
  | .mk (.TC_ARRAY elem none) _, isFull, log => checkType elem isFull log
  | .mk (.TC_ARRAY elem (some size)) _, isFull, log => do
      let log ← checkType elem isFull log
      checkExpr size log
  | .mk (.TC_REF none typeName) _, _, log => visitIdentifierExpr typeName log
  | .mk (.TC_REF (some moduleName) typeName) _, _, log => do
      let log ← visitIdentifierExpr moduleName log
      visitIdentifierExpr typeName log
  | .mk .TC_ALIAS _, _, log => .ok log
  | .mk .TC_STRUCT _, _, log => .ok log
  | .mk .TC_ENUM _, _, log => .ok log
  | .mk .TC_FUNCTION _, _, log => .ok log
  | .mk .TC_MODULE _, _, _ => FATAL_ERROR "Unexpected type"
/-- `ASTVisitor::checkExpr`. -/
def checkExpr : Expr → Callbacks → Except VisitError Callbacks
  | .EXPR_INTEGER_LITERAL _, log => .ok log
  | .EXPR_FLOAT_LITERAL _, log => .ok log
  | .EXPR_BOOL_LITERAL _, log => .ok log
  | .EXPR_CHAR_LITERAL _, log => .ok log
  | .EXPR_STRING_LITERAL _, log => .ok log
  | .EXPR_NIL, log => .ok log
  | .EXPR_IDENTIFIER I, log => visitIdentifierExpr I log
  | .EXPR_TYPE _, log => .ok log
  | .EXPR_CALL fn args, log => do
      let log ← checkExpr fn log
      checkExprs args log
  | .EXPR_INITLIST values, log => checkExprs values log
  | .EXPR_DESIGNATOR_INIT_ARRAY designator initValue, log => do
      let log ← checkExpr designator log
      checkExpr initValue log
  | .EXPR_DESIGNATOR_INIT_FIELD field initValue, log => do
      let log ← checkExpr field log
      checkExpr initValue log
  | .EXPR_BINOP lhs rhs, log => do
      let log ← checkExpr lhs log
      checkExpr rhs log
  | .EXPR_CONDOP cond lhs rhs, log => do
      let log ← checkExpr cond log
      let log ← checkExpr lhs log
      checkExpr rhs log
  | .EXPR_UNARYOP e, log => checkExpr e log
  | .EXPR_BUILTIN e member pointer, log => do
      let log ← checkExpr e log
      let log ← checkOptExpr member log
      checkOptExpr pointer log
  | .EXPR_ARRAYSUBSCRIPT base index, log => do
      let log ← checkExpr base log
      checkExpr index log
  | .EXPR_MEMBER base member, log => do
      let log ← checkExpr base log
      visitIdentifierExpr member log
  | .EXPR_PAREN e, log => checkExpr e log
  | .EXPR_BITOFFSET lhs rhs, log => do
      let log ← checkExpr lhs log
      checkExpr rhs log
  | .EXPR_CAST inner destType, log => do
      let log ← checkExpr inner log
      checkType destType true log
/-- The loops `for (i...) checkExpr(x[i])` of the visitor. -/
def checkExprs : List Expr → Callbacks → Except VisitError Callbacks
  | [], log => .ok log
  | e :: es, log => do
      let log ← checkExpr e log
      checkExprs es log
/-- The guarded call `if (x) checkExpr(x)`. -/
def checkOptExpr : Option Expr → Callbacks → Except VisitError Callbacks
  | none, log => .ok log
  | some e, log => checkExpr e log
end

/-- `ASTVisitor::checkVarDecl`. -/
def checkVarDecl (V : VarDecl) (log : Callbacks) : Except VisitError Callbacks := do
  let log ← checkType V.origType true log
  checkOptExpr V.initValue log

/-- `ASTVisitor::checkAsmStmt`. -/
def checkAsmStmt (A : AsmStmt) (log : Callbacks) : Except VisitError Callbacks := do
  let log ← checkExprs A.outputs log
  checkExprs A.inputs log

mutual
/-- `ASTVisitor::checkStmt`. -/
def checkStmt : Stmt → Callbacks → Except VisitError Callbacks
  | .STMT_RETURN e, log => checkOptExpr e log
  | .STMT_EXPR E, log => checkExpr E log
  | .STMT_IF cond thenStmt elseStmt, log => do
      let log ← checkStmt cond log
      let log ← checkStmt thenStmt log
      checkOptStmt elseStmt log
  | .STMT_WHILE cond body, log => do
      let log ← checkStmt cond log
      checkStmt body log
  | .STMT_DO cond body, log => do
      let log ← checkStmt cond log
      checkStmt body log
  | .STMT_FOR init cond incr body, log => do
      let log ← checkOptStmt init log
      let log ← checkOptExpr cond log
      let log ← checkOptExpr incr log
      checkStmt body log
  | .STMT_SWITCH cond cases, log => do
      let log ← checkStmt cond log
      checkStmts cases log
  | .STMT_CASE cond stmts, log => do
      let log ← checkExpr cond log
      checkStmts stmts log
  | .STMT_DEFAULT stmts, log => checkStmts stmts log
  | .STMT_BREAK, log => .ok log
  | .STMT_CONTINUE, log => .ok log
  | .STMT_LABEL _ _, log => .ok log
  | .STMT_GOTO _, log => .ok log
  | .STMT_COMPOUND C, log => checkCompoundStmt C log
  | .STMT_DECL decl, log => checkVarDecl decl log
  | .STMT_ASM A, log => checkAsmStmt A log
/-- `ASTVisitor::checkCompoundStmt`. -/
def checkCompoundStmt : CompoundStmt → Callbacks → Except VisitError Callbacks
  | .mk stmts, log => checkStmts stmts log
/-- The loops `for (i...) checkStmt(stmts[i])` of the visitor. -/
def checkStmts : List Stmt → Callbacks → Except VisitError Callbacks
  | [], log => .ok log
  | s :: ss, log => do
      let log ← checkStmt s log
      checkStmts ss log
/-- The guarded call `if (x) checkStmt(x)`. -/
def checkOptStmt : Option Stmt → Callbacks → Except VisitError Callbacks
  | none, log => .ok log
  | some s, log => checkStmt s log
end

/-- The parameter loop of `checkFunctionDecl`. -/
def checkArgs : List VarDecl → Callbacks → Except VisitError Callbacks
  | [], log => .ok log
  | a :: as, log => do
      let log ← checkVarDecl a log
      checkArgs as log

/-- `ASTVisitor::checkFunctionDecl`. -/
def checkFunctionDecl (F : FunctionDecl) (log : Callbacks) : Except VisitError Callbacks := do
  let log ← checkType F.origReturnType true log
  let log ← match F.structName with
    | some structName => visitIdentifierExpr structName log
    | none => pure log
  let log ← checkArgs F.args log
  match F.body with
  | some body => checkCompoundStmt body log
  | none => pure log

/-- The constant loop of `checkDecl` for an enum type. -/
def checkConstants : List EnumConstantDecl → Callbacks → Except VisitError Callbacks
  | [], log => .ok log
  | ECD :: rest, log => do
      let log ← checkOptExpr ECD.initValue log
      checkConstants rest log

mutual
/-- `ASTVisitor::checkDecl`. -/
def checkDecl : Decl → Callbacks → Except VisitError Callbacks
  | .DECL_FUNC F, log => checkFunctionDecl F log
  | .DECL_VAR V, log => checkVarDecl V log
  | .DECL_ENUMVALUE _, _ => TODO
  | .DECL_ALIASTYPE _ refType, log => checkType refType true log
  | .DECL_STRUCTTYPE _ members, log => checkMembers members log
  | .DECL_ENUMTYPE _ constants, log => checkConstants constants log
  | .DECL_FUNCTIONTYPE _ decl, log => checkFunctionDecl decl log
  | .DECL_ARRAYVALUE _ _, _ => TODO
  | .DECL_IMPORT _, log => .ok log
  | .DECL_LABEL _, log => .ok log
/-- The member loop of `checkDecl` for a struct type. -/
def checkMembers : List Decl → Callbacks → Except VisitError Callbacks
  | [], log => .ok log
  | D :: rest, log => do
      let log ← checkDecl D log
      checkMembers rest log
end

end ASTVisitor

/-- An `ASTVisitor` object: the declaration it was constructed for and the
record of hook calls. -/
structure ASTVisitor where
  decl : Decl
  log : Callbacks

/-- `ASTVisitor::run`. -/
def ASTVisitor.run (v : ASTVisitor) : Except VisitError ASTVisitor := do
  let log ← ASTVisitor.checkDecl v.decl v.log
  pure { v with log := log }

/-! ## Reachability, following the words of the specification

The identifier nodes reachable from a node through the accessors of the tree.
The flag `viaTypeExpr` says whether the type carried by a `TypeExpr` counts as
a child of that expression. -/

mutual
/-- Identifier nodes reachable from a type. -/
def reachType (viaTypeExpr : Bool) : QualType → List IdentifierExpr
  | .mk (.TC_BUILTIN _) _ => []
  | .mk (.TC_POINTER pointee) _ => reachType viaTypeExpr pointee
  | .mk (.TC_ARRAY elem none) _ => reachType viaTypeExpr elem
  | .mk (.TC_ARRAY elem (some size)) _ => reachType viaTypeExpr elem ++ reachExpr viaTypeExpr size
  | .mk (.TC_REF none typeName) _ => [typeName]
  | .mk (.TC_REF (some moduleName) typeName) _ => [moduleName, typeName]
  | .mk .TC_ALIAS _ => []
  | .mk .TC_STRUCT _ => []
  | .mk .TC_ENUM _ => []
  | .mk .TC_FUNCTION _ => []
  | .mk .TC_MODULE _ => []
/-- Identifier nodes reachable from an expression. -/
def reachExpr (viaTypeExpr : Bool) : Expr → List IdentifierExpr
  | .EXPR_INTEGER_LITERAL _ => []
  | .EXPR_FLOAT_LITERAL _ => []
  | .EXPR_BOOL_LITERAL _ => []
  | .EXPR_CHAR_LITERAL _ => []
  | .EXPR_STRING_LITERAL _ => []
  | .EXPR_NIL => []
  | .EXPR_IDENTIFIER I => [I]
  | .EXPR_TYPE type => if viaTypeExpr then reachType viaTypeExpr type else []
  | .EXPR_CALL fn args => reachExpr viaTypeExpr fn ++ reachExprs viaTypeExpr args
  | .EXPR_INITLIST values => reachExprs viaTypeExpr values
  | .EXPR_DESIGNATOR_INIT_ARRAY designator initValue =>
      reachExpr viaTypeExpr designator ++ reachExpr viaTypeExpr initValue
  | .EXPR_DESIGNATOR_INIT_FIELD field initValue =>
      reachExpr viaTypeExpr field ++ reachExpr viaTypeExpr initValue
  | .EXPR_BINOP lhs rhs => reachExpr viaTypeExpr lhs ++ reachExpr viaTypeExpr rhs
  | .EXPR_CONDOP cond lhs rhs =>
      reachExpr viaTypeExpr cond ++ (reachExpr viaTypeExpr lhs ++ reachExpr viaTypeExpr rhs)
  | .EXPR_UNARYOP e => reachExpr viaTypeExpr e
  | .EXPR_BUILTIN e member pointer =>
      reachExpr viaTypeExpr e ++
        (reachOptExpr viaTypeExpr member ++ reachOptExpr viaTypeExpr pointer)
  | .EXPR_ARRAYSUBSCRIPT base index => reachExpr viaTypeExpr base ++ reachExpr viaTypeExpr index
  | .EXPR_MEMBER base member => reachExpr viaTypeExpr base ++ [member]
  | .EXPR_PAREN e => reachExpr viaTypeExpr e
  | .EXPR_BITOFFSET lhs rhs => reachExpr viaTypeExpr lhs ++ reachExpr viaTypeExpr rhs
  | .EXPR_CAST inner destType => reachExpr viaTypeExpr inner ++ reachType viaTypeExpr destType
/-- Identifier nodes reachable from a list of expressions. -/
def reachExprs (viaTypeExpr : Bool) : List Expr → List IdentifierExpr
  | [] => []
  | e :: es => reachExpr viaTypeExpr e ++ reachExprs viaTypeExpr es
/-- Identifier nodes reachable from an optional expression. -/
def reachOptExpr (viaTypeExpr : Bool) : Option Expr → List IdentifierExpr
  | none => []
  | some e => reachExpr viaTypeExpr e
end

/-- Identifier nodes reachable from a variable declaration. -/
def reachVarDecl (viaTypeExpr : Bool) (V : VarDecl) : List IdentifierExpr :=
  reachType viaTypeExpr V.origType ++ reachOptExpr viaTypeExpr V.initValue

/-- Identifier nodes reachable from an asm statement. -/
def reachAsmStmt (viaTypeExpr : Bool) (A : AsmStmt) : List IdentifierExpr :=
  reachExprs viaTypeExpr A.outputs ++ reachExprs viaTypeExpr A.inputs

mutual
/-- Identifier nodes reachable from a statement; the sub-statement of a label
statement is a child of the label statement. -/
def reachStmt (viaTypeExpr : Bool) : Stmt → List IdentifierExpr
  | .STMT_RETURN e => reachOptExpr viaTypeExpr e
  | .STMT_EXPR E => reachExpr viaTypeExpr E
  | .STMT_IF cond thenStmt elseStmt =>
      reachStmt viaTypeExpr cond ++
        (reachStmt viaTypeExpr thenStmt ++ reachOptStmt viaTypeExpr elseStmt)
  | .STMT_WHILE cond body => reachStmt viaTypeExpr cond ++ reachStmt viaTypeExpr body
  | .STMT_DO cond body => reachStmt viaTypeExpr cond ++ reachStmt viaTypeExpr body
  | .STMT_FOR init cond incr body =>
      reachOptStmt viaTypeExpr init ++
        (reachOptExpr viaTypeExpr cond ++
          (reachOptExpr viaTypeExpr incr ++ reachStmt viaTypeExpr body))
  | .STMT_SWITCH cond cases => reachStmt viaTypeExpr cond ++ reachStmts viaTypeExpr cases
  | .STMT_CASE cond stmts => reachExpr viaTypeExpr cond ++ reachStmts viaTypeExpr stmts
  | .STMT_DEFAULT stmts => reachStmts viaTypeExpr stmts
  | .STMT_BREAK => []
  | .STMT_CONTINUE => []
  | .STMT_LABEL _ subStmt => reachStmt viaTypeExpr subStmt
  | .STMT_GOTO _ => []
  | .STMT_COMPOUND C => reachCompoundStmt viaTypeExpr C
  | .STMT_DECL decl => reachVarDecl viaTypeExpr decl
  | .STMT_ASM A => reachAsmStmt viaTypeExpr A
/-- Identifier nodes reachable from a compound statement. -/
def reachCompoundStmt (viaTypeExpr : Bool) : CompoundStmt → List IdentifierExpr
  | .mk stmts => reachStmts viaTypeExpr stmts
/-- Identifier nodes reachable from a list of statements. -/
def reachStmts (viaTypeExpr : Bool) : List Stmt → List IdentifierExpr
  | [] => []
  | s :: ss => reachStmt viaTypeExpr s ++ reachStmts viaTypeExpr ss
/-- Identifier nodes reachable from an optional statement. -/
def reachOptStmt (viaTypeExpr : Bool) : Option Stmt → List IdentifierExpr
  | none => []
  | some s => reachStmt viaTypeExpr s
end

/-- Identifier nodes reachable from a parameter list. -/
def reachArgs (viaTypeExpr : Bool) : List VarDecl → List IdentifierExpr
  | [] => []
  | a :: as => reachVarDecl viaTypeExpr a ++ reachArgs viaTypeExpr as

/-- Identifier nodes reachable from an optional function body. -/
def reachBody (viaTypeExpr : Bool) : Option CompoundStmt → List IdentifierExpr
  | none => []
  | some body => reachCompoundStmt viaTypeExpr body

/-- Identifier nodes reachable from a function declaration. -/
def reachFunctionDecl (viaTypeExpr : Bool) (F : FunctionDecl) : List IdentifierExpr :=
  reachType viaTypeExpr F.origReturnType ++
    (F.structName.toList ++ (reachArgs viaTypeExpr F.args ++ reachBody viaTypeExpr F.body))

/-- Identifier nodes reachable from the constants of an enum type. -/
def reachConstants (viaTypeExpr : Bool) : List EnumConstantDecl → List IdentifierExpr
  | [] => []
  | ECD :: rest => reachOptExpr viaTypeExpr ECD.initValue ++ reachConstants viaTypeExpr rest

mutual
/-- Identifier nodes reachable from a declaration. -/
def reachDecl (viaTypeExpr : Bool) : Decl → List IdentifierExpr
  | .DECL_FUNC F => reachFunctionDecl viaTypeExpr F
  | .DECL_VAR V => reachVarDecl viaTypeExpr V
  | .DECL_ENUMVALUE E => reachOptExpr viaTypeExpr E.initValue
  | .DECL_ALIASTYPE _ refType => reachType viaTypeExpr refType
  | .DECL_STRUCTTYPE _ members => reachMembers viaTypeExpr members
  | .DECL_ENUMTYPE _ constants => reachConstants viaTypeExpr constants
  | .DECL_FUNCTIONTYPE _ decl => reachFunctionDecl viaTypeExpr decl
  | .DECL_ARRAYVALUE _ expr => reachExpr viaTypeExpr expr
  | .DECL_IMPORT _ => []
  | .DECL_LABEL _ => []
/-- Identifier nodes reachable from the members of a struct type. -/
def reachMembers (viaTypeExpr : Bool) : List Decl → List IdentifierExpr
  | [] => []
  | D :: rest => reachDecl viaTypeExpr D ++ reachMembers viaTypeExpr rest
end

mutual
/-- No label statement occurs in the statement. -/
def labelFreeStmt : Stmt → Bool
  | .STMT_RETURN _ => true
  | .STMT_EXPR _ => true
  | .STMT_IF cond thenStmt elseStmt =>
      labelFreeStmt cond && (labelFreeStmt thenStmt && labelFreeOptStmt elseStmt)
  | .STMT_WHILE cond body => labelFreeStmt cond && labelFreeStmt body
  | .STMT_DO cond body => labelFreeStmt cond && labelFreeStmt body
  | .STMT_FOR init _ _ body => labelFreeOptStmt init && labelFreeStmt body
  | .STMT_SWITCH cond cases => labelFreeStmt cond && labelFreeStmts cases
  | .STMT_CASE _ stmts => labelFreeStmts stmts
  | .STMT_DEFAULT stmts => labelFreeStmts stmts
  | .STMT_BREAK => true
  | .STMT_CONTINUE => true
  | .STMT_LABEL _ _ => false
  | .STMT_GOTO _ => true
  | .STMT_COMPOUND C => labelFreeCompoundStmt C
  | .STMT_DECL _ => true
  | .STMT_ASM _ => true
/-- No label statement occurs in the compound statement. -/
def labelFreeCompoundStmt : CompoundStmt → Bool
  | .mk stmts => labelFreeStmts stmts
/-- No label statement occurs in the statement list. -/
def labelFreeStmts : List Stmt → Bool
  | [] => true
  | s :: ss => labelFreeStmt s && labelFreeStmts ss
/-- No label statement occurs in the optional statement. -/
def labelFreeOptStmt : Option Stmt → Bool
  | none => true
  | some s => labelFreeStmt s
end

/-- No label statement occurs in the optional function body. -/
def labelFreeBody : Option CompoundStmt → Bool
  | none => true
  | some body => labelFreeCompoundStmt body

mutual
/-- No label statement occurs in the declaration. -/
def labelFreeDecl : Decl → Bool
  | .DECL_FUNC F => labelFreeBody F.body
  | .DECL_STRUCTTYPE _ members => labelFreeMembers members
  | .DECL_FUNCTIONTYPE _ decl => labelFreeBody decl.body
  | _ => true
/-- No label statement occurs in the member list. -/
def labelFreeMembers : List Decl → Bool
  | [] => true
  | D :: rest => labelFreeDecl D && labelFreeMembers rest
end

/-- A walk step only appends to the record of hook calls, and what it appends
does not depend on the record. -/
def Appends (f : Callbacks → Except VisitError Callbacks) : Prop :=
  ∀ log, f log = (f []).map (fun cbs => log ++ cbs)

/-- A walk step that, when it completes under condition `c`, has made exactly
the hook calls `ids`. -/
def Tracks (c : Prop) (f : Callbacks → Except VisitError Callbacks)
    (ids : List IdentifierExpr) : Prop :=
  Appends f ∧ (c → ∀ cbs, f [] = .ok cbs → cbs = ids)

/-- Callbacks of a parameter list, run from an empty record: for each
parameter in index order the callbacks of its type, then those of its
initialiser. -/
def paramCallbacks : List VarDecl → Except VisitError Callbacks
  | [] => .ok []
  | a :: as => do
      let t ← ASTVisitor.checkType a.origType true []
      let i ← ASTVisitor.checkOptExpr a.initValue []
      let rest ← paramCallbacks as
      pure (t ++ i ++ rest)

/-- Callbacks of an optional function body, run from an empty record. -/
def bodyCallbacks : Option CompoundStmt → Except VisitError Callbacks
  | none => .ok []
  | some body => ASTVisitor.checkCompoundStmt body []

/-- The type is of `Module` kind or reaches a `Module`-kind type through
pointer and array layers. -/
def reachesModule : QualType → Bool
  | .mk .TC_MODULE _ => true
  | .mk (.TC_POINTER pointee) _ => reachesModule pointee
  | .mk (.TC_ARRAY elem _) _ => reachesModule elem
  | _ => false

/-- The type is built only from builtin, ref, alias, struct, enum and function
types under pointer and array layers that carry no size expression. -/
def sizelessModuleFree : QualType → Bool
  | .mk (.TC_POINTER pointee) _ => sizelessModuleFree pointee
  | .mk (.TC_ARRAY elem none) _ => sizelessModuleFree elem
  | .mk (.TC_ARRAY _ (some _)) _ => false
  | .mk .TC_MODULE _ => false
  | _ => true

/-! ## Concrete trees used by the closed statements -/

/-- The identifier node `Foo`. -/
def idFoo : IdentifierExpr := ⟨"Foo", 1⟩

/-- The identifier node `x`. -/
def idX : IdentifierExpr := ⟨"x", 2⟩

/-- The identifier node `y`. -/
def idY : IdentifierExpr := ⟨"y", 3⟩

/-- The builtin type used in the examples. -/
def tyBuiltin : QualType := .mk (.TC_BUILTIN 0) 0

/-- The variable declaration `i32 n = sizeof(Foo)`. -/
def declSizeofFoo : Decl :=
  .DECL_VAR ⟨"n", tyBuiltin,
    some (.EXPR_BUILTIN (.EXPR_TYPE (.mk (.TC_REF none idFoo) 0)) none none)⟩

/-- The enum constant `A = x` handed to the visitor as a declaration. -/
def declEnumConstant : Decl := .DECL_ENUMVALUE ⟨"A", some (.EXPR_IDENTIFIER idX)⟩

/-- The function `Foo f(Foo a = x)` with body `return x + y; while (y) break;`
where the receiver is absent. -/
def declCovered : Decl :=
  .DECL_FUNC
    { name := "f"
      origReturnType := .mk (.TC_REF none idFoo) 0
      structName := none
      args := [⟨"a", .mk (.TC_POINTER (.mk (.TC_REF none ⟨"Foo", 4⟩) 0)) 0,
                some (.EXPR_IDENTIFIER idX)⟩]
      body := some (.mk [
        .STMT_RETURN (some (.EXPR_BINOP (.EXPR_IDENTIFIER ⟨"x", 5⟩) (.EXPR_IDENTIFIER idY))),
        .STMT_WHILE (.STMT_EXPR (.EXPR_IDENTIFIER ⟨"y", 6⟩)) .STMT_BREAK]) }

/-- A pointer to an array of `Module`-kind elements with a size expression. -/
def tyReachesModule : QualType :=
  .mk (.TC_POINTER (.mk (.TC_ARRAY (.mk .TC_MODULE 0) (some (.EXPR_IDENTIFIER idX))) 0)) 0

/-- A pointer to an unsized array of `Foo`. -/
def tySizeless : QualType :=
  .mk (.TC_POINTER (.mk (.TC_ARRAY (.mk (.TC_REF none idFoo) 0) none) 0)) 0

end C2.Algo

namespace C2.CGen

/-! ## The tree lowered by the C code generator

`CCodeGenerator.cpp` works on the older tree (`Decl.h`, `Expr.h`, `Stmt.h`,
`Type.h`), whose kinds differ from those the visitor walks. -/

/-- Builtin kinds (`getBuiltinType`). Modelled from the spec: the enumeration
is declared in `Type.h`, which is not part of the sources; its values are the
case labels of the switch in `ConvertType`. -/
inductive C2Type where
  | TYPE_U8 | TYPE_U16 | TYPE_U32 | TYPE_U64
  | TYPE_I8 | TYPE_I16 | TYPE_I32 | TYPE_I64
  | TYPE_INT | TYPE_STRING | TYPE_FLOAT | TYPE_F32 | TYPE_F64
  | TYPE_CHAR | TYPE_BOOL | TYPE_VOID
deriving DecidableEq, Repr

/-- A `Package`: its C name (`getCName`) and whether it is a plain-C library
(`isPlainC`). -/
structure Package where
  name : String
  cname : String
  isPlainC : Bool
deriving DecidableEq, Repr

/-- An `IdentifierExpr`: its name and the package it resolved to, if any
(`getPackage`). -/
structure IdentifierExpr where
  name : String
  package : Option Package
deriving DecidableEq, Repr

/-- A binary opcode. Modelled from the spec: the table
`BinaryOperator::OpCode2str` is declared in `Expr.h`, which is not part of the
sources; an opcode is represented by the C spelling the table gives it. -/
structure BinaryOpcode where
  spelling : String
deriving DecidableEq, Repr

/-- Unary opcodes; `UO_Other` stands for every opcode the generator does not
list. -/
inductive UnaryOpcode where
  | UO_PostInc | UO_PostDec | UO_PreInc | UO_PreDec | UO_AddrOf | UO_Deref
  | UO_Plus | UO_Minus | UO_Not | UO_LNot | UO_Other
deriving DecidableEq, Repr

/-- Modelled from the spec: `BinaryOperator::OpCode2str` of `Expr.h`. -/
def BinaryOperator.OpCode2str (op : BinaryOpcode) : String := op.spelling

/-- Modelled from the spec: `UnaryOperator::OpCode2str` of `Expr.h`, with the
conventional C spellings. -/
def UnaryOperator.OpCode2str : UnaryOpcode → String
  | .UO_PostInc => "++"
  | .UO_PostDec => "--"
  | .UO_PreInc => "++"
  | .UO_PreDec => "--"
  | .UO_AddrOf => "&"
  | .UO_Deref => "*"
  | .UO_Plus => "+"
  | .UO_Minus => "-"
  | .UO_Not => "~"
  | .UO_LNot => "!"
  | .UO_Other => ""

mutual
/-- A `QualType`: a type pointer (`getTypePtr`) and qualifier bits. -/
inductive QualType where
  | mk (typePtr : TypeNode) (qualifiers : Nat)
/-- A `Type`, by kind (`getKind`). A builtin carries its kind and its C name
(`getCName`); `members` is the nullable member list of `getMembers`. -/
inductive TypeNode where
  | BUILTIN (builtinType : C2Type) (cname : String)
  | USER (userType : Expr)
  | STRUCT (members : Option (List DeclExpr))
  | UNION (members : Option (List DeclExpr))
  | ENUM (members : Option (List DeclExpr))
  | FUNC
  | POINTER (refType : QualType)
  | ARRAY (refType : QualType) (arrayExpr : Option Expr)
/-- An `Expr`, by kind (`etype`). -/
inductive Expr where
  | EXPR_NUMBER (value : Int)
  | EXPR_STRING (value : String)
  | EXPR_BOOL (value : Bool)
  | EXPR_CHARLITERAL (value : Nat)
  | EXPR_CALL (fn : Expr) (args : List Expr)
  | EXPR_IDENTIFIER (I : IdentifierExpr)
  | EXPR_INITLIST (values : List Expr)
  | EXPR_TYPE (type : QualType)
  | EXPR_DECL (D : DeclExpr)
  | EXPR_BINOP (lhs : Expr) (opcode : BinaryOpcode) (rhs : Expr)
  | EXPR_CONDOP (cond : Expr) (lhs : Expr) (rhs : Expr)
  | EXPR_UNARYOP (opcode : UnaryOpcode) (expr : Expr)
  | EXPR_SIZEOF (expr : Expr)
  | EXPR_ARRAYSUBSCRIPT (base : Expr) (index : Expr)
  | EXPR_MEMBER (base : Expr) (member : IdentifierExpr) (isArrowOp : Bool)
  | EXPR_PAREN (expr : Expr)
/-- A `DeclExpr`: a local declaration, also used for parameters and members. -/
inductive DeclExpr where
  | mk (name : String) (type : QualType) (initValue : Option Expr) (hasLocalQualifier : Bool)
end

/-- The test `E->etype() == EXPR_INITLIST`. -/
def Expr.isInitList : Expr → Bool
  | .EXPR_INITLIST _ => true
  | _ => false

/-- `QualType::isArrayType`. -/
def QualType.isArrayType : QualType → Bool
  | .mk (.ARRAY _ _) _ => true
  | _ => false

mutual
/-- A `Stmt`, by kind (`stype`). An expression used as a statement is
`STMT_EXPR`. -/
inductive Stmt where
  | STMT_RETURN (expr : Option Expr)
  | STMT_EXPR (E : Expr)
  | STMT_IF (cond : Expr) (thenStmt : Stmt) (elseStmt : Option Stmt)
  | STMT_WHILE (cond : Stmt) (body : Stmt)
  | STMT_DO (cond : Stmt) (body : Stmt)
  | STMT_FOR (init : Option Stmt) (cond : Option Expr) (incr : Option Expr) (body : Stmt)
  | STMT_SWITCH (cond : Expr) (cases : List Stmt)
  | STMT_CASE (cond : Expr) (stmts : List Stmt)
  | STMT_DEFAULT (stmts : List Stmt)
  | STMT_BREAK
  | STMT_CONTINUE
  | STMT_LABEL (name : String) (subStmt : Stmt)
  | STMT_GOTO (name : String)
  | STMT_COMPOUND (C : CompoundStmt)
/-- A `CompoundStmt`: its statement list. -/
inductive CompoundStmt where
  | mk (stmts : List Stmt)
end

/-- A `FunctionDecl`. -/
structure FunctionDecl where
  name : String
  isPublic : Bool
  returnType : QualType
  args : List DeclExpr
  isVariadic : Bool
  body : CompoundStmt

/-- An `ArrayValueDecl`: one incremental array value. -/
structure ArrayValueDecl where
  name : String
  expr : Expr

/-- A `VarDecl`. -/
structure VarDecl where
  name : String
  isPublic : Bool
  type : QualType
  initValue : Option Expr
  incrValues : List ArrayValueDecl

/-- A `TypeDecl`. -/
structure TypeDecl where
  name : String
  isPublic : Bool
  type : QualType

/-- A top-level `Decl`, by kind (`dtype`). -/
inductive Decl where
  | DECL_FUNC (F : FunctionDecl)
  | DECL_VAR (V : VarDecl)
  | DECL_ENUMVALUE (name : String)
  | DECL_TYPE (T : TypeDecl)
  | DECL_ARRAYVALUE (A : ArrayValueDecl)
  | DECL_USE (name : String)

/-- `Decl::getName`. -/
def Decl.getName : Decl → String
  | .DECL_FUNC F => F.name
  | .DECL_VAR V => V.name
  | .DECL_ENUMVALUE name => name
  | .DECL_TYPE T => T.name
  | .DECL_ARRAYVALUE A => A.name
  | .DECL_USE name => name

/-- An `AST`: the declarations of one file and the package they belong to. -/
structure AST where
  pkgName : String
  decls : List Decl

/-- An `Entry` of the generator. -/
structure Entry where
  filename : String
  ast : AST

/-- The generator mode. -/
inductive Mode where
  | SINGLE_FILE
  | MULTI_FILE
deriving DecidableEq, Repr

/-- The ways an emission stops early: a failed `assert`, or a use of the
current-package pointer while it is null. -/
inductive EmitError where
  | assertion (msg : String)
  | nullCurpkg
deriving DecidableEq, Repr

/-- Handle of an output buffer (`StringBuilder&`): the generator only ever
passes its own source buffer or header buffer. -/
inductive Buf where
  | cbuf
  | hbuf
deriving DecidableEq, Repr

/-- The indent width. Modelled from the spec: `INDENT` is a fixed width whose
definition is in a header that is not part of the sources; no statement below
depends on its value. -/
def INDENT : Nat := 4

/-- A `CCodeGenerator` object. The two `StringBuilder` buffers are the texts
written so far; their capacity is not modelled. `pkgs` is the package map. -/
structure CCodeGenerator where
  filename : String
  hfilename : String
  cfilename : String
  curpkg : Option String
  mode : Mode
  pkgs : List (String × Package)
  entries : List Entry
  cbuf : String
  hbuf : String

/-- Result of a generator method. -/
abbrev Emit := Except EmitError CCodeGenerator

namespace CCodeGenerator

/-- The constructor `CCodeGenerator::CCodeGenerator`. -/
def create (filename : String) (mode : Mode) (pkgs : List (String × Package)) :
    CCodeGenerator :=
  { filename := filename
    hfilename := filename ++ ".h"
    cfilename := filename ++ ".c"
    curpkg := none
    mode := mode
    pkgs := pkgs
    entries := []
    cbuf := ""
    hbuf := "" }

/-- `CCodeGenerator::addEntry`. -/
def addEntry (g : CCodeGenerator) (filename : String) (ast : AST) : CCodeGenerator :=
  { g with entries := g.entries ++ [⟨filename, ast⟩] }

/-- The generator with its two buffers replaced. -/
def setBufs (g : CCodeGenerator) (cb hb : String) : CCodeGenerator :=
  { g with cbuf := cb, hbuf := hb }

/-- The text of the buffer behind a handle. -/
def buf (g : CCodeGenerator) : Buf → String
  | .cbuf => g.cbuf
  | .hbuf => g.hbuf

/-- The stream operator `output << text` of `StringBuilder`. -/
def put (output : Buf) (text : String) (g : CCodeGenerator) : Emit :=
  match output with
  | .cbuf => .ok { g with cbuf := g.cbuf ++ text }
  | .hbuf => .ok { g with hbuf := g.hbuf ++ text }

/-- `StringBuilder::indent`: `num` blanks. -/
def indent (output : Buf) (num : Nat) (g : CCodeGenerator) : Emit :=
  put output (String.mk (List.replicate num ' ')) g

/-- The cast `(int)` of a literal value: wrap to 32 bits, two's complement. -/
def toInt32 (v : Int) : Int := (v + 2147483648) % 4294967296 - 2147483648

/-- The cast `(char)` of a character literal value, as the byte written. -/
def toChar (v : Nat) : Char := Char.ofNat (v % 256)

/-- Modelled from the spec: `Utils::toCapital` (`Utils.h` is not part of the
sources) writes the text uppercased. -/
def Utils.toCapital (input : String) (output : Buf) (g : CCodeGenerator) : Emit :=
  put output (String.mk (input.data.map Char.toUpper)) g

/-- Modelled from the spec: `Utils::addName` (`Utils.h` is not part of the
sources) writes the mangled name `module_name + "_" + identifier`. -/
def Utils.addName (pkgName name : String) (output : Buf) (g : CCodeGenerator) : Emit :=
  put output (pkgName ++ "_" ++ name) g

/-- `Utils::addName(*curpkg, name, output)`: the current-package pointer is
dereferenced. -/
def addCurpkgName (name : String) (output : Buf) (g : CCodeGenerator) : Emit :=
  match g.curpkg with
  | some pkgName => Utils.addName pkgName name output g
  | none => .error .nullCurpkg

/-- `CCodeGenerator::ConvertType`: the C type name of a type; `none` is the
null pointer `0`. The kinds the switch leaves through `break` reach the final
`return 0`. -/
def ConvertType : TypeNode → Except EmitError (Option String)
  | .BUILTIN builtinType _ =>
      match builtinType with
      | .TYPE_U8 => .ok (some "unsigned char")
      | .TYPE_U16 => .ok (some "unsigned short")
      | .TYPE_U32 => .ok (some "unsigned int")
      | .TYPE_U64 => .ok (some "unsigned long long")
      | .TYPE_I8 => .ok (some "char")
      | .TYPE_I16 => .ok (some "short")
      | .TYPE_I32 => .ok (some "int")
      | .TYPE_I64 => .ok (some "long long")
      | .TYPE_INT => .ok (some "const char*")
      | .TYPE_STRING => .ok none
      | .TYPE_FLOAT => .ok (some "float")
      | .TYPE_F32 => .ok (some "float")
      | .TYPE_F64 => .ok (some "double")
      | .TYPE_CHAR => .ok (some "char")
      | .TYPE_BOOL => .ok (some "int")
      | .TYPE_VOID => .ok (some "void")
  | .USER _ => .error (.assertion "0 && \"TODO\"")
  | .STRUCT _ => .error (.assertion "0 && \"TODO\"")
  | .UNION _ => .error (.assertion "0 && \"TODO\"")
  | .ENUM _ => .error (.assertion "0 && \"TODO\"")
  | .FUNC => .error (.assertion "0 && \"TODO\"")
  | .POINTER _ => .ok none
  | .ARRAY _ _ => .ok none

/-- `CCodeGenerator::EmitIdentifierExpr`. -/
def EmitIdentifierExpr (I : IdentifierExpr) (output : Buf) (g : CCodeGenerator) : Emit :=
  match I.package with
  | some P => Utils.addName P.cname I.name output g
  | none => put output I.name g

mutual
/-- `CCodeGenerator::EmitExpr`. The bodies of `EmitCallExpr`,
`EmitBinaryOperator`, `EmitConditionalOperator`, `EmitUnaryOperator` and
`EmitMemberExpr`, which `EmitExpr` calls on the same node, stand in place. -/
def EmitExpr : Expr → Buf → CCodeGenerator → Emit
  | .EXPR_NUMBER value, output, g => put output (toString (toInt32 value)) g
  | .EXPR_STRING value, output, g => do
      let g ← put output "\"" g
      let g ← put output value g
      put output "\"" g
  | .EXPR_BOOL value, _, g => put .cbuf (if value then "1" else "0") g
  | .EXPR_CHARLITERAL value, output, g => do
      let g ← put output "'" g
      let g ← put output (toString (toChar value)) g
      put output "'" g
  | .EXPR_CALL fn args, output, g => do
      let g ← EmitExpr fn output g
      let g ← put output "(" g
      let g ← EmitCallArgs args 0 output g
      put output ")" g
  | .EXPR_IDENTIFIER I, output, g => EmitIdentifierExpr I output g
  | .EXPR_INITLIST values, output, g => do
      let g ← put output "\x7b " g
      let g ← EmitInitListValues values 0 output g
      put output " \x7d" g
  | .EXPR_TYPE type, output, g => do
      let g ← EmitTypePreName type output g
      EmitTypePostName type output g
  | .EXPR_DECL D, output, g => EmitDeclExpr D output 0 g
  | .EXPR_BINOP lhs opcode rhs, output, g => do
      let g ← EmitExpr lhs output g
      let g ← put output " " g
      let g ← put output (BinaryOperator.OpCode2str opcode) g
      let g ← put output " " g
      EmitExpr rhs output g
  | .EXPR_CONDOP cond lhs rhs, output, g => do
      let g ← EmitExpr cond output g
      let g ← put output " ? " g
      let g ← EmitExpr lhs output g
      let g ← put output " : " g
      EmitExpr rhs output g
  | .EXPR_UNARYOP opcode e, output, g =>
      match opcode with
      | .UO_PostInc | .UO_PostDec => do
          let g ← EmitExpr e output g
          put output (UnaryOperator.OpCode2str opcode) g
      | .UO_PreInc | .UO_PreDec | .UO_AddrOf | .UO_Deref | .UO_Plus | .UO_Minus | .UO_Not
      | .UO_LNot => do
          let g ← put output (UnaryOperator.OpCode2str opcode) g
          EmitExpr e output g
      | .UO_Other => .error (.assertion "0")
  | .EXPR_SIZEOF e, output, g => do
      let g ← put output "sizeof(" g
      let g ← EmitExpr e output g
      put output ")" g
  | .EXPR_ARRAYSUBSCRIPT base index, output, g => do
      let g ← EmitExpr base output g
      let g ← put output "[" g
      let g ← EmitExpr index output g
      put output "]" g
  | .EXPR_MEMBER base member isArrowOp, output, g =>
      match member.package with
      | some _ => EmitIdentifierExpr member output g
      | none => do
          let g ← EmitExpr base .cbuf g
          let g ← (if isArrowOp then put .cbuf "->" g else put .cbuf "." g)
          put .cbuf member.name g
  | .EXPR_PAREN e, _, g => do
      let g ← put .cbuf "(" g
      let g ← EmitExpr e .cbuf g
      put .cbuf ")" g
/-- The argument loop of `EmitCallExpr`; `i` is the loop index. -/
def EmitCallArgs : List Expr → Nat → Buf → CCodeGenerator → Emit
  | [], _, _, g => .ok g
  | arg :: rest, i, output, g => do
      let g ← (if i != 0 then put output ", " g else pure g)
      let g ← EmitExpr arg output g
      EmitCallArgs rest (i + 1) output g
/-- The value loop of the `EXPR_INITLIST` case; `i` is the loop index and the
element is the last one when nothing follows it. -/
def EmitInitListValues : List Expr → Nat → Buf → CCodeGenerator → Emit
  | [], _, _, g => .ok g
  | value :: rest, i, output, g => do
      let g ← (if i == 0 && value.isInitList then put output "\n" g else pure g)
      let g ← EmitExpr value output g
      let g ← (if !rest.isEmpty then put output "," g else pure g)
      let g ← (if value.isInitList then put output "\n" g else pure g)
      EmitInitListValues rest (i + 1) output g
/-- `CCodeGenerator::EmitDeclExpr`. -/
def EmitDeclExpr : DeclExpr → Buf → Nat → CCodeGenerator → Emit
  | .mk name type none hasLocalQualifier, output, ind, g => do
      let g ← indent output ind g
      let g ← (if hasLocalQualifier then put output "static " g else pure g)
      let g ← EmitTypePreName type output g
      let g ← put output " " g
      let g ← put output name g
      EmitTypePostName type output g
  | .mk name type (some initValue) hasLocalQualifier, output, ind, g => do
      let g ← indent output ind g
      let g ← (if hasLocalQualifier then put output "static " g else pure g)
      let g ← EmitTypePreName type output g
      let g ← put output " " g
      let g ← put output name g
      let g ← EmitTypePostName type output g
      let g ← put output " = " g
      EmitExpr initValue output g
/-- `CCodeGenerator::EmitTypePreName`. -/
def EmitTypePreName : QualType → Buf → CCodeGenerator → Emit
  | .mk (.BUILTIN _ cname) _, output, g => put output cname g
  | .mk (.STRUCT none) _, output, g => do
      let g ← put output "struct \x7b\n" g
      put output "\x7d" g
  | .mk (.STRUCT (some members)) _, output, g => do
      let g ← put output "struct \x7b\n" g
      let g ← EmitMembers members output g
      put output "\x7d" g
  | .mk (.UNION none) _, output, g => do
      let g ← put output "union \x7b\n" g
      put output "\x7d" g
  | .mk (.UNION (some members)) _, output, g => do
      let g ← put output "union \x7b\n" g
      let g ← EmitMembers members output g
      put output "\x7d" g
  | .mk (.ENUM none) _, output, g => do
      let g ← put output "enum \x7b\n" g
      put output "\x7d" g
  | .mk (.ENUM (some members)) _, output, g => do
      let g ← put output "enum \x7b\n" g
      let g ← EmitEnumConstants members output g
      put output "\x7d" g
  | .mk .FUNC _, _, _ => .error (.assertion "0 && \"TODO\"")
  | .mk (.USER userType) _, output, g => EmitExpr userType output g
  | .mk (.POINTER refType) _, output, g => do
      let g ← EmitTypePreName refType output g
      put output "*" g
  | .mk (.ARRAY refType _) _, output, g => EmitTypePreName refType output g
/-- The member loop of the `STRUCT` and `UNION` cases of `EmitTypePreName`. -/
def EmitMembers : List DeclExpr → Buf → CCodeGenerator → Emit
  | [], _, g => .ok g
  | mem :: rest, output, g => do
      let g ← EmitDeclExpr mem output INDENT g
      let g ← put output ";\n" g
      EmitMembers rest output g
/-- The member loop of the `ENUM` case of `EmitTypePreName`. -/
def EmitEnumConstants : List DeclExpr → Buf → CCodeGenerator → Emit
  | [], _, g => .ok g
  | .mk name _ none _ :: rest, output, g => do
      let g ← indent output INDENT g
      let g ← addCurpkgName name output g
      let g ← put output ",\n" g
      EmitEnumConstants rest output g
  | .mk name _ (some initValue) _ :: rest, output, g => do
      let g ← indent output INDENT g
      let g ← addCurpkgName name output g
      let g ← put output " = " g
      let g ← EmitExpr initValue output g
      let g ← put output ",\n" g
      EmitEnumConstants rest output g
/-- `CCodeGenerator::EmitTypePostName`. -/
def EmitTypePostName : QualType → Buf → CCodeGenerator → Emit
  | .mk (.ARRAY refType none) _, output, g => do
      let g ← EmitTypePostName refType output g
      let g ← put output "[" g
      put output "]" g
  | .mk (.ARRAY refType (some arrayExpr)) _, output, g => do
      let g ← EmitTypePostName refType output g
      let g ← put output "[" g
      let g ← EmitExpr arrayExpr output g
      put output "]" g
  | .mk (.BUILTIN _ _) _, _, g => .ok g
  | .mk (.USER _) _, _, g => .ok g
  | .mk (.STRUCT _) _, _, g => .ok g
  | .mk (.UNION _) _, _, g => .ok g
  | .mk (.ENUM _) _, _, g => .ok g
  | .mk .FUNC _, _, g => .ok g
  | .mk (.POINTER _) _, _, g => .ok g
end

/-- `CCodeGenerator::EmitBinaryOperator`, on the operands and opcode of the
node. -/
def EmitBinaryOperator (lhs : Expr) (opcode : BinaryOpcode) (rhs : Expr) (output : Buf)
    (g : CCodeGenerator) : Emit := do
  let g ← EmitExpr lhs output g
  let g ← put output " " g
  let g ← put output (BinaryOperator.OpCode2str opcode) g
  let g ← put output " " g
  EmitExpr rhs output g

/-- `CCodeGenerator::EmitMemberExpr`, on the fields of the node. -/
def EmitMemberExpr (base : Expr) (member : IdentifierExpr) (isArrowOp : Bool) (output : Buf)
    (g : CCodeGenerator) : Emit :=
  match member.package with
  | some _ => EmitIdentifierExpr member output g
  | none => do
      let g ← EmitExpr base .cbuf g
      let g ← (if isArrowOp then put .cbuf "->" g else put .cbuf "." g)
      put .cbuf member.name g

/-- The cast `StmtCaster<Expr>::getType(S)` followed by `assert(E)`. -/
def castExpr : Stmt → Except EmitError Expr
  | .STMT_EXPR E => .ok E
  | _ => .error (.assertion "E")

/-- The block `if (Init) { ... }` of `EmitForStmt`: the init statement is
assumed to be an expression. -/
def EmitForInit (init : Option Stmt) (g : CCodeGenerator) : Emit :=
  match init with
  | some Init => do
      let E ← castExpr Init
      EmitExpr E .cbuf g
  | none => pure g

/-- The blocks `if (Cond) { ... }` and `if (Incr) { ... }` of `EmitForStmt`. -/
def EmitForPart (part : Option Expr) (g : CCodeGenerator) : Emit :=
  match part with
  | some E => do
      let g ← put .cbuf " " g
      EmitExpr E .cbuf g
  | none => pure g

mutual
/-- `CCodeGenerator::EmitStmt`. The bodies of `EmitIfStmt`, `EmitWhileStmt`,
`EmitDoStmt`, `EmitForStmt` and `EmitSwitchStmt`, which `EmitStmt` calls on the
same node, stand in place. In a loop `other` names the call
`EmitStmt(Body, 0)` of the branch for a body that is not compound. -/
def EmitStmt : Stmt → Nat → CCodeGenerator → Emit
  | .STMT_RETURN none, ind, g => do
      let g ← indent .cbuf ind g
      let g ← put .cbuf "return" g
      put .cbuf ";\n" g
  | .STMT_RETURN (some e), ind, g => do
      let g ← indent .cbuf ind g
      let g ← put .cbuf "return" g
      let g ← put .cbuf " " g
      let g ← EmitExpr e .cbuf g
      put .cbuf ";\n" g
  | .STMT_EXPR E, ind, g => do
      let g ← indent .cbuf ind g
      let g ← EmitExpr E .cbuf g
      put .cbuf ";\n" g
  | .STMT_IF cond thenStmt none, ind, g => do
      let g ← indent .cbuf ind g
      let g ← put .cbuf "if (" g
      let g ← EmitExpr cond .cbuf g
      let g ← put .cbuf ")\n" g
      EmitStmt thenStmt ind g
  | .STMT_IF cond thenStmt (some elseStmt), ind, g => do
      let g ← indent .cbuf ind g
      let g ← put .cbuf "if (" g
      let g ← EmitExpr cond .cbuf g
      let g ← put .cbuf ")\n" g
      let g ← EmitStmt thenStmt ind g
      let g ← indent .cbuf ind g
      let g ← put .cbuf "else\n" g
      EmitStmt elseStmt ind g
  | .STMT_WHILE cond body, ind, g => do
      let g ← indent .cbuf ind g
      let g ← put .cbuf "while (" g
      let E ← castExpr cond
      let g ← EmitExpr E .cbuf g
      let g ← put .cbuf ") " g
      let other := EmitStmt body 0 g
      match body with
      | .STMT_COMPOUND C => EmitCompoundStmt C ind false g
      | _ => other
  | .STMT_DO cond body, ind, g => do
      let g ← indent .cbuf ind g
      let g ← put .cbuf "do " g
      let other := EmitStmt body 0 g
      let g ← (match body with
        | .STMT_COMPOUND C => EmitCompoundStmt C ind false g
        | _ => other)
      let g ← indent .cbuf ind g
      let g ← put .cbuf "while (" g
      let E ← castExpr cond
      let g ← EmitExpr E .cbuf g
      put .cbuf ");\n" g
  | .STMT_FOR init cond incr body, ind, g => do
      let g ← indent .cbuf ind g
      let g ← put .cbuf "for (" g
      let g ← EmitForInit init g
      let g ← put .cbuf ";" g
      let g ← EmitForPart cond g
      let g ← put .cbuf ";" g
      let g ← EmitForPart incr g
      let g ← put .cbuf ") " g
      let other := EmitStmt body 0 g
      match body with
      | .STMT_COMPOUND C => EmitCompoundStmt C ind false g
      | _ => other
  | .STMT_SWITCH cond cases, ind, g => do
      let g ← indent .cbuf ind g
      let g ← put .cbuf "switch (" g
      let g ← EmitExpr cond .cbuf g
      let g ← put .cbuf ") \x7b\n" g
      let g ← EmitSwitchCases cases ind g
      let g ← indent .cbuf ind g
      put .cbuf "\x7d\n" g
  | .STMT_CASE _ _, _, _ => .error (.assertion "0 && \"Should already be generated\"")
  | .STMT_DEFAULT _, _, _ => .error (.assertion "0 && \"Should already be generated\"")
  | .STMT_BREAK, ind, g => do
      let g ← indent .cbuf ind g
      put .cbuf "break;\n" g
  | .STMT_CONTINUE, ind, g => do
      let g ← indent .cbuf ind g
      put .cbuf "continue;\n" g
  | .STMT_LABEL name subStmt, ind, g => do
      let g ← put .cbuf name g
      let g ← put .cbuf ":\n" g
      EmitStmt subStmt ind g
  | .STMT_GOTO name, ind, g => do
      let g ← indent .cbuf ind g
      let g ← put .cbuf "goto " g
      let g ← put .cbuf name g
      put .cbuf ";\n" g
  | .STMT_COMPOUND C, ind, g => EmitCompoundStmt C ind true g
/-- `CCodeGenerator::EmitCompoundStmt`. -/
def EmitCompoundStmt : CompoundStmt → Nat → Bool → CCodeGenerator → Emit
  | .mk stmts, ind, startOnNewLine, g => do
      let g ← (if startOnNewLine then indent .cbuf ind g else pure g)
      let g ← put .cbuf "\x7b\n" g
      let g ← EmitStmts stmts (ind + INDENT) g
      let g ← indent .cbuf ind g
      put .cbuf "\x7d\n" g
/-- The loops `for (i...) EmitStmt(Stmts[i], n)` of the generator. -/
def EmitStmts : List Stmt → Nat → CCodeGenerator → Emit
  | [], _, g => .ok g
  | S :: rest, ind, g => do
      let g ← EmitStmt S ind g
      EmitStmts rest ind g
/-- The case loop of `EmitSwitchStmt`. -/
def EmitSwitchCases : List Stmt → Nat → CCodeGenerator → Emit
  | [], _, g => .ok g
  | .STMT_CASE cond stmts :: rest, ind, g => do
      let g ← indent .cbuf (ind + INDENT) g
      let g ← put .cbuf "case " g
      let g ← EmitExpr cond .cbuf g
      let g ← put .cbuf ":\n" g
      let g ← EmitStmts stmts (ind + INDENT + INDENT) g
      EmitSwitchCases rest ind g
  | .STMT_DEFAULT stmts :: rest, ind, g => do
      let g ← indent .cbuf (ind + INDENT) g
      let g ← put .cbuf "default:\n" g
      let g ← EmitStmts stmts (ind + INDENT + INDENT) g
      EmitSwitchCases rest ind g
  | _ :: _, _, _ => .error (.assertion "0")
end

/-- The tail of the loop statements: a compound body is emitted on the same
line at the indent of the loop, any other body through `EmitStmt(Body, 0)`. -/
def EmitBody (body : Stmt) (ind : Nat) (g : CCodeGenerator) : Emit :=
  match body with
  | .STMT_COMPOUND C => EmitCompoundStmt C ind false g
  | _ => EmitStmt body 0 g

/-- The parameter loop of `EmitFunctionProto`; `count` is the loop counter. -/
def EmitProtoArgs : List DeclExpr → Int → Buf → CCodeGenerator → Emit
  | [], _, _, g => .ok g
  | A :: rest, count, output, g => do
      let g ← EmitDeclExpr A output 0 g
      let g ← (if count != 1 then put output ", " g else pure g)
      EmitProtoArgs rest (count - 1) output g

/-- `CCodeGenerator::EmitFunctionProto`. -/
def EmitFunctionProto (F : FunctionDecl) (output : Buf) (g : CCodeGenerator) : Emit := do
  let g ← (if g.mode = .SINGLE_FILE ∧ F.name ≠ "main" then put output "static " g else pure g)
  let g ← EmitTypePreName F.returnType output g
  let g ← EmitTypePostName F.returnType output g
  let g ← put output " " g
  let g ← addCurpkgName F.name output g
  let g ← put output "(" g
  let count : Int := (F.args.length : Int) + (if F.isVariadic then 1 else 0)
  let g ← EmitProtoArgs F.args count output g
  let g ← (if F.isVariadic then put output "..." g else pure g)
  put output ")" g

/-- `CCodeGenerator::EmitFunction`. -/
def EmitFunction (F : FunctionDecl) (g : CCodeGenerator) : Emit := do
  let g ← (if g.mode = .SINGLE_FILE then do
        let g ← EmitFunctionProto F .hbuf g
        put .hbuf ";\n\n" g
      else if F.isPublic then do
        let g ← EmitFunctionProto F .hbuf g
        put .hbuf ";\n\n" g
      else put .cbuf "static " g)
  let g ← EmitFunctionProto F .cbuf g
  let g ← put .cbuf " " g
  let g ← EmitCompoundStmt F.body 0 false g
  put .cbuf "\n" g

/-- The incremental-value loop of `EmitVariable`. -/
def EmitIncrValues : List ArrayValueDecl → CCodeGenerator → Emit
  | [], g => .ok g
  | E :: rest, g => do
      let g ← indent .cbuf INDENT g
      let g ← EmitExpr E.expr .cbuf g
      let g ← put .cbuf ",\n" g
      EmitIncrValues rest g

/-- `CCodeGenerator::EmitVariable`. -/
def EmitVariable (V : VarDecl) (g : CCodeGenerator) : Emit := do
  let g ← (if V.isPublic ∧ g.mode ≠ .SINGLE_FILE then do
        let g ← put .hbuf "extern " g
        let g ← EmitTypePreName V.type .hbuf g
        let g ← put .hbuf " " g
        let g ← addCurpkgName V.name .hbuf g
        let g ← EmitTypePostName V.type .hbuf g
        let g ← put .hbuf ";\n" g
        put .hbuf "\n" g
      else put .cbuf "static " g)
  let g ← EmitTypePreName V.type .cbuf g
  let g ← put .cbuf " " g
  let g ← addCurpkgName V.name .cbuf g
  let g ← EmitTypePostName V.type .cbuf g
  let g ← (match V.initValue with
    | some initValue => do
        let g ← put .cbuf " = " g
        EmitExpr initValue .cbuf g
    | none => pure g)
  let g ← (if V.incrValues.length ≠ 0 then do
        let g ← put .cbuf " = \x7b\n" g
        let g ← EmitIncrValues V.incrValues g
        put .cbuf "\x7d" g
      else pure g)
  let g ← put .cbuf ";\n" g
  put .cbuf "\n" g

/-- `CCodeGenerator::EmitType`. -/
def EmitType (T : TypeDecl) (g : CCodeGenerator) : Emit := do
  let out : Buf := if T.isPublic then .hbuf else .cbuf
  let g ← put out "typedef " g
  let g ← EmitTypePreName T.type out g
  let g ← EmitTypePostName T.type out g
  let g ← put out " " g
  let g ← addCurpkgName T.name out g
  let g ← put out ";\n" g
  put out "\n" g

/-- `CCodeGenerator::EmitUse`. -/
def EmitUse (D : Decl) (g : CCodeGenerator) : Emit :=
  match g.pkgs.lookup D.getName with
  | none => .error (.assertion "iter != pkgs.end()")
  | some P =>
    if g.mode = .MULTI_FILE ∨ P.isPlainC = true then do
      let g ← put .cbuf "#include " g
      let g ← (if P.isPlainC then put .cbuf "<" g else put .cbuf "\"" g)
      let g ← put .cbuf D.getName g
      let g ← put .cbuf ".h" g
      let g ← (if P.isPlainC then put .cbuf ">" g else put .cbuf "'" g)
      put .cbuf "\n" g
    else pure g

/-- One step of the first pass of `generate`: the switch on `D->dtype()`. -/
def generateUse (D : Decl) (g : CCodeGenerator) : Emit :=
  match D with
  | .DECL_USE _ => EmitUse D g
  | _ => pure g

/-- First pass of `generate`, over the declarations of one entry. -/
def generateUses : List Decl → CCodeGenerator → Emit
  | [], g => .ok g
  | D :: rest, g => do
      let g ← generateUse D g
      generateUses rest g

/-- First pass of `generate`, over the entries. -/
def generateIncludes : List Entry → CCodeGenerator → Emit
  | [], g => .ok g
  | entry :: rest, g => do
      let g := { g with curpkg := some entry.ast.pkgName }
      let g ← generateUses entry.ast.decls g
      let g := { g with curpkg := none }
      generateIncludes rest g

/-- One step of the second pass of `generate`: the switch on `D->dtype()`. -/
def generateDecl (D : Decl) (g : CCodeGenerator) : Emit :=
  match D with
  | .DECL_FUNC F => EmitFunction F g
  | .DECL_VAR V => EmitVariable V g
  | .DECL_ENUMVALUE _ => .error (.assertion "0 && \"TODO\"")
  | .DECL_TYPE T => EmitType T g
  | .DECL_ARRAYVALUE _ => pure g
  | .DECL_USE _ => pure g

/-- Second pass of `generate`, over the declarations of one entry. -/
def generateDecls : List Decl → CCodeGenerator → Emit
  | [], g => .ok g
  | D :: rest, g => do
      let g ← generateDecl D g
      generateDecls rest g

/-- Second pass of `generate`, over the entries. -/
def generateEntries : List Entry → CCodeGenerator → Emit
  | [], g => .ok g
  | entry :: rest, g => do
      let g := { g with curpkg := some entry.ast.pkgName }
      let g ← generateDecls entry.ast.decls g
      let g := { g with curpkg := none }
      generateEntries rest g

/-- `CCodeGenerator::generate`. -/
def generate (g : CCodeGenerator) : Emit := do
  let g ← put .hbuf "#ifndef " g
  let g ← Utils.toCapital g.filename .hbuf g
  let g ← put .hbuf "_H\n" g
  let g ← put .hbuf "#define " g
  let g ← Utils.toCapital g.filename .hbuf g
  let g ← put .hbuf "_H\n" g
  let g ← put .hbuf "\n" g
  let g ← generateIncludes g.entries g
  let g ← put .cbuf "#include \"" g
  let g ← put .cbuf g.hfilename g
  let g ← put .cbuf "\"\n" g
  let g ← put .cbuf "\n" g
  let g ← generateEntries g.entries g
  put .hbuf "#endif\n" g

end CCodeGenerator

end C2.CGen

namespace C2.CGen

open CCodeGenerator

/-- Equality of emission results is decidable. -/
instance instDecidableEqExcept {ε α : Type} [DecidableEq ε] [DecidableEq α] :
    DecidableEq (Except ε α)
  | .ok a, .ok b =>
      if h : a = b then isTrue (by rw [h]) else isFalse (fun h' => h (Except.ok.inj h'))
  | .error a, .error b =>
      if h : a = b then isTrue (by rw [h]) else isFalse (fun h' => h (Except.error.inj h'))
  | .ok _, .error _ => isFalse (fun h => by cases h)
  | .error _, .ok _ => isFalse (fun h => by cases h)

/-- A generator method is framed at `g0` when, started from `g0` with any
buffer contents, it either stops with an error that does not depend on the
contents or appends to each buffer a text that does not depend on them, and
changes nothing else. -/
def FramedAt (g0 : CCodeGenerator) (f : CCodeGenerator → Emit) : Prop :=
  ∃ r : Except EmitError (String × String), ∀ cb hb,
    f (g0.setBufs cb hb) = r.map (fun d => g0.setBufs (cb ++ d.1) (hb ++ d.2))

/-- A generator method only appends to the source buffer when, started from
`g0` with any buffer contents, it either stops with an error that does not
depend on the contents or appends to the source buffer a text that does not
depend on them, and changes nothing else. -/
def CbufOnly (g0 : CCodeGenerator) (f : CCodeGenerator → Emit) : Prop :=
  ∃ r : Except EmitError String, ∀ cb hb,
    f (g0.setBufs cb hb) = r.map (fun c => g0.setBufs (cb ++ c) hb)

/-- The texts a method appends to the source buffer and to the header buffer,
measured by running it on empty buffers. -/
def outOf (f : CCodeGenerator → Emit) (g0 : CCodeGenerator) :
    Except EmitError (String × String) :=
  (f (g0.setBufs "" "")).map (fun g => (g.cbuf, g.hbuf))

/-- Concatenation of a list of texts, in list order. -/
def concatText : List String → String
  | [] => ""
  | s :: rest => s ++ concatText rest

/-- The source-buffer text of a measured output; empty when the method stops. -/
def cText : Except EmitError (String × String) → String
  | .ok d => d.1
  | .error _ => ""

/-- The header-buffer text of a measured output; empty when the method stops. -/
def hText : Except EmitError (String × String) → String
  | .ok d => d.2
  | .error _ => ""

/-- The component of a pair of texts that belongs to a buffer handle. -/
def bufText (output : Buf) (d : String × String) : String :=
  match output with
  | .cbuf => d.1
  | .hbuf => d.2

/-- The generator while it works on the declarations of package `pkgName`. -/
def inPackage (g : CCodeGenerator) (pkgName : String) : CCodeGenerator :=
  { g with curpkg := some pkgName }

/-- The generator with the current-package pointer replaced. -/
def withCurpkg (g : CCodeGenerator) (p : Option String) : CCodeGenerator :=
  { g with curpkg := p }

/-- The uppercased file basename of the include guard. -/
def upper (f : String) : String := String.mk (f.data.map Char.toUpper)

/-- First-pass output of one declaration: the source-buffer text of `EmitUse`
for an import, nothing for any other declaration. -/
def importText (g : CCodeGenerator) (pkgName : String) (D : Decl) : String :=
  match D with
  | .DECL_USE _ => cText (outOf (EmitUse D) (inPackage g pkgName))
  | _ => ""

/-- Second-pass source-buffer output of one declaration: that of a function,
variable or type declaration; any other declaration contributes nothing. -/
def declText (g : CCodeGenerator) (pkgName : String) (D : Decl) : String :=
  match D with
  | .DECL_FUNC F => cText (outOf (EmitFunction F) (inPackage g pkgName))
  | .DECL_VAR V => cText (outOf (EmitVariable V) (inPackage g pkgName))
  | .DECL_TYPE T => cText (outOf (EmitType T) (inPackage g pkgName))
  | _ => ""

/-- The text `P1`: first-pass output over the entries in insertion order and,
within an entry, over its declarations in index order. -/
def firstPassText (g : CCodeGenerator) : String :=
  concatText (g.entries.map fun e =>
    concatText (e.ast.decls.map (importText g e.ast.pkgName)))

/-- The text `P2`: second-pass source-buffer output over the entries in
insertion order and, within an entry, over its declarations in index order. -/
def secondPassText (g : CCodeGenerator) : String :=
  concatText (g.entries.map fun e =>
    concatText (e.ast.decls.map (declText g e.ast.pkgName)))

/-- A freshly constructed generator to which the entries have been added in
list order. -/
def freshGenerator (filename : String) (mode : Mode) (pkgs : List (String × Package))
    (entries : List Entry) : CCodeGenerator :=
  entries.foldl (fun g e => g.addEntry e.filename e.ast) (create filename mode pkgs)

/-- The linkage word `EmitFunctionProto` writes in front of a prototype. -/
def protoLinkage (mode : Mode) (name : String) : String :=
  if mode = .SINGLE_FILE ∧ name ≠ "main" then "static " else ""

/-- The emission completed. -/
def completes : Emit → Bool
  | .ok _ => true
  | .error _ => false

/-! ## Concrete inputs used by the closed statements -/

/-- The builtin `i32`, with C name `int`. -/
def tyInt : QualType := .mk (.BUILTIN .TYPE_I32 "int") 0

/-- The package map of the examples: `stdio` is a plain-C library, `util` is
not. -/
def exPkgs : List (String × Package) :=
  [("stdio", ⟨"stdio", "stdio", true⟩), ("util", ⟨"util", "util", false⟩)]

/-- The function `func i32 main() { return 0; }`. -/
def exMain : FunctionDecl :=
  { name := "main", isPublic := false, returnType := tyInt, args := [], isVariadic := false,
    body := .mk [.STMT_RETURN (some (.EXPR_NUMBER 0))] }

/-- The parameter `i32[(2)] a`: an array whose size is a parenthesised
literal. -/
def exArrayParam : DeclExpr :=
  .mk "a" (.mk (.ARRAY tyInt (some (.EXPR_PAREN (.EXPR_NUMBER 2)))) 0) none false

/-- The public function `public func i32 f(i32[(2)] a) {}`. -/
def exPublicF : FunctionDecl :=
  { name := "f", isPublic := true, returnType := tyInt, args := [exArrayParam],
    isVariadic := false, body := .mk [] }

/-- The private function `func i32 helper() { return 0; }`. -/
def exHelper : FunctionDecl :=
  { name := "helper", isPublic := false, returnType := tyInt, args := [], isVariadic := false,
    body := .mk [.STMT_RETURN (some (.EXPR_NUMBER 0))] }

/-- The public function `public func i32 get() { return 0; }`. -/
def exGet : FunctionDecl :=
  { name := "get", isPublic := true, returnType := tyInt, args := [], isVariadic := false,
    body := .mk [.STMT_RETURN (some (.EXPR_NUMBER 0))] }

/-- A module `main` that imports `stdio` and `util` and declares `main`. -/
def exEntries : List Entry :=
  [⟨"main.c2", ⟨"main", [.DECL_USE "stdio", .DECL_USE "util", .DECL_FUNC exMain]⟩⟩]

/-- A multi-file generator working on package `util`. -/
def exMulti : CCodeGenerator := inPackage (create "out" .MULTI_FILE exPkgs) "util"

/-- A single-file generator working on package `util`. -/
def exSingle : CCodeGenerator := inPackage (create "out" .SINGLE_FILE exPkgs) "util"

end C2.CGen
namespace C2.CGen

open CCodeGenerator

/-! ## Layout of the emitted text

The text a method appends is measured on both buffers at once (`outOf`); the
definitions below put such measurements one after the other. -/

/-- Two measured outputs in sequence: in each buffer the second text follows
the first; the first error stops the sequence. -/
def seqOut (x y : Except EmitError (String × String)) : Except EmitError (String × String) :=
  match x with
  | .error e => .error e
  | .ok a =>
    match y with
    | .error e => .error e
    | .ok b => .ok (a.1 ++ b.1, a.2 ++ b.2)

/-- A list of measured outputs in sequence, in list order. -/
def seqOuts : List (Except EmitError (String × String)) → Except EmitError (String × String)
  | [] => .ok ("", "")
  | x :: rest => seqOut x (seqOuts rest)

/-- The measured output of writing `text` to the buffer behind `output`. -/
def written (output : Buf) (text : String) : Except EmitError (String × String) :=
  match output with
  | .cbuf => .ok (text, "")
  | .hbuf => .ok ("", text)

/-- Generator methods run one after the other, in list order. -/
def seqEmit : List (CCodeGenerator → Emit) → CCodeGenerator → Emit
  | [] => fun g => .ok g
  | [f] => f
  | f :: k :: rest => fun g => f g >>= seqEmit (k :: rest)

/-- Every method of a list is framed at `g0`. -/
def allFramed (g0 : CCodeGenerator) : List (CCodeGenerator → Emit) → Prop
  | [] => True
  | f :: rest => FramedAt g0 f ∧ allFramed g0 rest

/-- The `num` blanks written by `StringBuilder::indent`. -/
def indentText (num : Nat) : String := String.mk (List.replicate num ' ')

/-- The statements of `EmitFunctionProto` after the first one: the prototype
without the linkage word. -/
def protoBody (F : FunctionDecl) (output : Buf) (g : CCodeGenerator) : Emit := do
  let g ← EmitTypePreName F.returnType output g
  let g ← EmitTypePostName F.returnType output g
  let g ← put output " " g
  let g ← addCurpkgName F.name output g
  let g ← put output "(" g
  let count : Int := (F.args.length : Int) + (if F.isVariadic then 1 else 0)
  let g ← EmitProtoArgs F.args count output g
  let g ← (if F.isVariadic then put output "..." g else pure g)
  put output ")" g

/-- The statements of the `extern` branch of `EmitVariable` after the word
`extern `: the rest of the declaration in the header buffer. -/
def headerDeclaration (V : VarDecl) (g : CCodeGenerator) : Emit := do
  let g ← EmitTypePreName V.type .hbuf g
  let g ← put .hbuf " " g
  let g ← addCurpkgName V.name .hbuf g
  let g ← EmitTypePostName V.type .hbuf g
  let g ← put .hbuf ";\n" g
  put .hbuf "\n" g

/-- The statements of `EmitVariable` after the first `if`: the definition of
the variable in the source buffer. -/
def variableDefinition (V : VarDecl) (g : CCodeGenerator) : Emit := do
  let g ← EmitTypePreName V.type .cbuf g
  let g ← put .cbuf " " g
  let g ← addCurpkgName V.name .cbuf g
  let g ← EmitTypePostName V.type .cbuf g
  let g ← (match V.initValue with
    | some initValue => do
        let g ← put .cbuf " = " g
        EmitExpr initValue .cbuf g
    | none => pure g)
  let g ← (if V.incrValues.length ≠ 0 then do
        let g ← put .cbuf " = \x7b\n" g
        let g ← EmitIncrValues V.incrValues g
        put .cbuf "\x7d" g
      else pure g)
  let g ← put .cbuf ";\n" g
  put .cbuf "\n" g

/-- The private variable `i32 counter;`. -/
def exCounter : VarDecl :=
  { name := "counter", isPublic := false, type := tyInt, initValue := none, incrValues := [] }

/-- The public variable `public i32 limit = 8;`. -/
def exLimit : VarDecl :=
  { name := "limit", isPublic := true, type := tyInt, initValue := some (.EXPR_NUMBER 8),
    incrValues := [] }

/-- The member `i32[(2)] v`: an array whose size is a parenthesised literal. -/
def exVecMember : DeclExpr :=
  .mk "v" (.mk (.ARRAY tyInt (some (.EXPR_PAREN (.EXPR_NUMBER 2)))) 0) none false

/-- The public type `public type Vec struct { i32[(2)] v; }`. -/
def exPublicVec : TypeDecl :=
  { name := "Vec", isPublic := true, type := .mk (.STRUCT (some [exVecMember])) 0 }

/-- The same type declared without `public`. -/
def exPrivateVec : TypeDecl :=
  { name := "Vec", isPublic := false, type := .mk (.STRUCT (some [exVecMember])) 0 }

/-- The measured output of an optional initialiser: ` = ` and the expression
when one is present, nothing otherwise. -/
def initOut (output : Buf) (g : CCodeGenerator) : Option Expr → Except EmitError (String × String)
  | some initValue => seqOut (written output " = ") (outOf (EmitExpr initValue output) g)
  | none => .ok ("", "")

/-- The measured output of one struct or union member: the local-declaration
emitter at indent `INDENT`, then `;` and a newline. -/
def memberOut (output : Buf) (g : CCodeGenerator) (mem : DeclExpr) :
    Except EmitError (String × String) :=
  seqOut (outOf (EmitDeclExpr mem output INDENT) g) (written output ";\n")

/-- The measured output of one enum constant: indentation, the name mangled
with the current module, the optional initialiser, then `,` and a newline. -/
def enumConstantOut (output : Buf) (g : CCodeGenerator) : DeclExpr →
    Except EmitError (String × String)
  | .mk name _ initValue _ =>
      seqOuts [written output (indentText INDENT), outOf (addCurpkgName name output) g,
        initOut output g initValue, written output ",\n"]

/-- The measured output of one bracket group of an array type: `[`, the size
expression when there is one, `]`. -/
def bracketOut (output : Buf) (g : CCodeGenerator) (size : Option Expr) :
    Except EmitError (String × String) :=
  seqOuts [written output "[",
    (match size with
      | some arrayExpr => outOf (EmitExpr arrayExpr output) g
      | none => .ok ("", "")),
    written output "]"]

/-- The array type over `base` with the given dimensions (size expression and
qualifier bits), the outermost dimension first. -/
def arrayOf (base : QualType) : List (Option Expr × Nat) → QualType
  | [] => base
  | (size, qualifiers) :: rest => .mk (.ARRAY (arrayOf base rest) size) qualifiers

/-- The test that a statement is a `Case` or a `Default`. -/
def Stmt.isCaseOrDefault : Stmt → Bool
  | .STMT_CASE _ _ => true
  | .STMT_DEFAULT _ => true
  | _ => false

/-- The measured output of one child of a switch at indent `ind`: the line
`case <expr>:` or `default:` at `ind + INDENT`, then the statements of the
child in order at `ind + 2 * INDENT`; any other child is a failed assertion. -/
def switchChildOut (g : CCodeGenerator) (ind : Nat) : Stmt → Except EmitError (String × String)
  | .STMT_CASE cond stmts =>
      seqOuts [written .cbuf (indentText (ind + INDENT)), written .cbuf "case ",
        outOf (EmitExpr cond .cbuf) g, written .cbuf ":\n",
        seqOuts (stmts.map fun S => outOf (EmitStmt S (ind + 2 * INDENT)) g)]
  | .STMT_DEFAULT stmts =>
      seqOuts [written .cbuf (indentText (ind + INDENT)), written .cbuf "default:\n",
        seqOuts (stmts.map fun S => outOf (EmitStmt S (ind + 2 * INDENT)) g)]
  | _ => .error (.assertion "0")

/-- A compound statement wrapped in compound statements: each element of the
path gives the statements before and after the wrapped compound in its parent,
the outermost parent first. -/
def nestAt : List (List Stmt × List Stmt) → CompoundStmt → CompoundStmt
  | [], C => C
  | (before, after) :: path, C =>
      .mk (before ++ [.STMT_COMPOUND (nestAt path C)] ++ after)

/-- The path of the compound `{ break; }` nested once: its parent holds
nothing else. -/
def exPath : List (List Stmt × List Stmt) := [([], [])]

end C2.CGen

/-! ## Definitions for the claims on member expressions, literals, the
hello-world module, parameter lists, newlines and determinism -/

namespace C2.CGen

open CCodeGenerator

/-- The identifier `p` of a local of struct type. -/
def exBase : Expr := .EXPR_IDENTIFIER ⟨"p", none⟩

/-- The member identifier `x`, which did not resolve to a package. -/
def exField : IdentifierExpr := ⟨"x", none⟩

/-- The member identifier `x` resolved to the package `util`. -/
def exGlobal : IdentifierExpr := ⟨"x", some ⟨"util", "util", false⟩⟩

/-- The public variable `public i32[(2)] pair;`. -/
def exPair : VarDecl :=
  { name := "pair", isPublic := true,
    type := .mk (.ARRAY tyInt (some (.EXPR_PAREN (.EXPR_NUMBER 2)))) 0,
    initValue := none, incrValues := [] }

/-- The characters of `part` stand at the head of `text`. -/
def startsWithChars : List Char → List Char → Bool
  | _, [] => true
  | [], _ :: _ => false
  | a :: rest, b :: more => a == b && startsWithChars rest more

/-- The characters of `part` occur in `text` as one run. -/
def containsChars : List Char → List Char → Bool
  | [], part => part.isEmpty
  | a :: rest, part => startsWithChars (a :: rest) part || containsChars rest part

/-- The text `part` occurs in `text`. -/
def containsText (text part : String) : Bool := containsChars text.data part.data

/-- The function `func i32 main() { return 0; }`, public or not. -/
def exHello (pub : Bool) : FunctionDecl :=
  { name := "main", isPublic := pub, returnType := tyInt, args := [], isVariadic := false,
    body := .mk [.STMT_RETURN (some (.EXPR_NUMBER 0))] }

/-- The hello-world input: the single module `main` whose only declaration
is the function `main`. -/
def exHelloEntries (pub : Bool) : List Entry :=
  [⟨"main.c2", ⟨"main", [.DECL_FUNC (exHello pub)]⟩⟩]

/-- A module `util` with a top-level enum value after a function. -/
def exEnumEntries : List Entry :=
  [⟨"util.c2", ⟨"util", [.DECL_FUNC exGet, .DECL_ENUMVALUE "RED"]⟩⟩]

/-- The user type `Point`: a type that refers to a declared type by name. -/
def tyPoint : QualType := .mk (.USER (.EXPR_IDENTIFIER ⟨"Point", none⟩)) 0

/-- Measured outputs joined by a separator: the separator stands between
consecutive elements only. -/
def joinOuts (sep : Except EmitError (String × String)) :
    List (Except EmitError (String × String)) → Except EmitError (String × String)
  | [] => .ok ("", "")
  | [x] => x
  | x :: y :: rest => seqOut x (seqOut sep (joinOuts sep (y :: rest)))

/-- The elements of a parameter list: the renderings of the parameters in
order, followed by `...` as a last element when the function is variadic. -/
def paramElements (args : List DeclExpr) (isVariadic : Bool) (output : Buf)
    (g : CCodeGenerator) : List (Except EmitError (String × String)) :=
  args.map (fun A => outOf (EmitDeclExpr A output 0) g) ++
    (if isVariadic then [written output "..."] else [])

/-- The measured output of one incremental array value: indentation, the
expression, `,` and a newline. -/
def incrValueOut (g : CCodeGenerator) (E : ArrayValueDecl) : Except EmitError (String × String) :=
  seqOuts [written .cbuf (indentText INDENT), outOf (EmitExpr E.expr .cbuf) g,
    written .cbuf ",\n"]

/-- The private variable `i32[] tab = 0;` that also has the incremental value
`tab += 1`. -/
def exBoth : VarDecl :=
  { name := "tab", isPublic := false, type := .mk (.ARRAY tyInt none) 0,
    initValue := some (.EXPR_NUMBER 0), incrValues := [⟨"tab", .EXPR_NUMBER 1⟩] }

/-- The variadic function `func i32 log(i32 level, ...) {}`. -/
def exVariadic : FunctionDecl :=
  { name := "log", isPublic := false, returnType := tyInt,
    args := [.mk "level" tyInt none false], isVariadic := true, body := .mk [] }

/-- A generator method ends its output with a newline at `g0` when it only
appends to the source buffer and, whenever it completes, the text it appends
there is some text followed by a newline (so it is not empty). -/
def EndsNewlineAt (g0 : CCodeGenerator) (f : CCodeGenerator → Emit) : Prop :=
  CbufOnly g0 f ∧ ∀ d, outOf f g0 = .ok d → ∃ t, d.1 = t ++ "\n"

/-- Two generators that may differ in how their package maps are stored but
not in what the maps hold: the mode and the current package are the same and
every package name is found with the same result in both maps. -/
structure GenPair where
  left : CCodeGenerator
  right : CCodeGenerator
  mode_eq : left.mode = right.mode
  curpkg_eq : left.curpkg = right.curpkg
  lookup_eq : ∀ name, left.pkgs.lookup name = right.pkgs.lookup name

/-- A generator method has the same output on both generators of a pair: it
is framed at each of them and what it appends to the buffers, or the error it
stops with, is the same. -/
def SameOut (P : GenPair) (f : CCodeGenerator → Emit) : Prop :=
  FramedAt P.left f ∧ FramedAt P.right f ∧ outOf f P.left = outOf f P.right

/-- Two generators agree: they hold the same names, mode, current package,
entries and buffer texts, and their package maps hold the same packages. -/
def Agree (a b : CCodeGenerator) : Prop :=
  a.filename = b.filename ∧ a.hfilename = b.hfilename ∧ a.curpkg = b.curpkg ∧
    a.mode = b.mode ∧ (∀ name, a.pkgs.lookup name = b.pkgs.lookup name) ∧
    a.entries = b.entries ∧ a.cbuf = b.cbuf ∧ a.hbuf = b.hbuf

/-- Two results agree: both completed with generators that agree, or both
stopped with the same error. -/
def AgreeResult (x y : Emit) : Prop :=
  match x, y with
  | .ok a, .ok b => Agree a b
  | .error e, .error e' => e = e'
  | _, _ => False

/-- The pair made of two generators that agree. -/
def Agree.toPair {a b : CCodeGenerator} (h : Agree a b) : GenPair :=
  ⟨a, b, h.2.2.2.1, h.2.2.1, h.2.2.2.2.1⟩

/-- The package map of the examples stored in another way: the entries in the
opposite order, followed by an entry for `stdio` that is never found. -/
def exPkgsOther : List (String × Package) :=
  [("util", ⟨"util", "util", false⟩), ("stdio", ⟨"stdio", "stdio", true⟩),
    ("stdio", ⟨"stdio", "other", false⟩)]

/-- The statement `if (1) break;`. -/
def exIfBreak : Stmt := .STMT_IF (.EXPR_NUMBER 1) .STMT_BREAK none

end C2.CGen

/-! ## Definitions for the statement order of the visitor -/

namespace C2.Algo

/-- The hook calls of the parts of a node, each walked from an empty record,
put one after the other in list order; the first part that stops stops the
whole. -/
def seqCalls : List (Except VisitError Callbacks) → Except VisitError Callbacks
  | [] => .ok []
  | x :: rest => do
      let a ← x
      let b ← seqCalls rest
      pure (a ++ b)

/-- Walk steps run one after the other on the same record, in list order. -/
def seqSteps : List (Callbacks → Except VisitError Callbacks) → Callbacks →
    Except VisitError Callbacks
  | [] => fun log => .ok log
  | [f] => f
  | f :: k :: rest => fun log => f log >>= seqSteps (k :: rest)

/-- The loop `for (init; i < n; i = i + 1) {}` around `x;`, with identifier
nodes for `init`, `i`, `n` and `x`. -/
def stmtForLoop : Stmt :=
  .STMT_FOR (some (.STMT_EXPR (.EXPR_IDENTIFIER ⟨"init", 1⟩)))
    (some (.EXPR_IDENTIFIER ⟨"n", 2⟩)) (some (.EXPR_IDENTIFIER ⟨"i", 3⟩))
    (.STMT_EXPR (.EXPR_IDENTIFIER ⟨"x", 4⟩))

end C2.Algo

/-! # Theorems: the visitor -/

namespace C2.Algo

open ASTVisitor

theorem appends_ok : Appends (fun log => Except.ok log) := by
  intro log; simp [Except.map]

theorem appends_visit (I : IdentifierExpr) : Appends (visitIdentifierExpr I) := by
  intro log; simp [visitIdentifierExpr, Except.map]

theorem appends_error (e : VisitError) : Appends (fun _ => Except.error e) := by
  intro log; simp [Except.map]

theorem except_ok_bind {ε α β : Type} (x : α) (g : α → Except ε β) :
    (Except.ok x >>= g) = g x := rfl

theorem except_error_bind {ε α β : Type} (e : ε) (g : α → Except ε β) :
    ((Except.error e : Except ε α) >>= g) = Except.error e := rfl

theorem appends_bind {f g : Callbacks → Except VisitError Callbacks}
    (hf : Appends f) (hg : Appends g) : Appends (fun log => f log >>= g) := by
  intro log
  show f log >>= g = Except.map _ (f [] >>= g)
  rw [hf log]
  cases h : f [] with
  | error e => simp [Except.map, except_error_bind]
  | ok l1 =>
    simp only [Except.map, except_ok_bind]
    rw [hg (log ++ l1), hg l1]
    cases g [] <;> simp [Except.map]

theorem tracks_ok : Tracks True (fun log => Except.ok log) [] :=
  ⟨appends_ok, fun _ cbs h => by cases h; rfl⟩

theorem tracks_visit (I : IdentifierExpr) : Tracks True (visitIdentifierExpr I) [I] :=
  ⟨appends_visit I, fun _ cbs h => by simp [visitIdentifierExpr] at h; exact h.symm⟩

theorem tracks_error (e : VisitError) (ids : List IdentifierExpr) :
    Tracks True (fun _ => Except.error e) ids :=
  ⟨appends_error e, fun _ cbs h => by cases h⟩

theorem tracks_bind {c1 c2 : Prop} {f g : Callbacks → Except VisitError Callbacks}
    {a b : List IdentifierExpr} (hf : Tracks c1 f a) (hg : Tracks c2 g b) :
    Tracks (c1 ∧ c2) (fun log => f log >>= g) (a ++ b) := by
  refine ⟨appends_bind hf.1 hg.1, ?_⟩
  rintro ⟨h1, h2⟩ cbs h
  change f [] >>= g = Except.ok cbs at h
  cases hf0 : f [] with
  | error e => rw [hf0] at h; cases h
  | ok l1 =>
    rw [hf0] at h
    change g l1 = Except.ok cbs at h
    rw [hg.1 l1] at h
    cases hg0 : g [] with
    | error e => rw [hg0] at h; cases h
    | ok l2 =>
      rw [hg0] at h
      simp only [Except.map, Except.ok.injEq] at h
      rw [← h, hf.2 h1 l1 hf0, hg.2 h2 l2 hg0]

theorem tracks_mono {c c' : Prop} {f : Callbacks → Except VisitError Callbacks}
    {ids : List IdentifierExpr} (h : Tracks c f ids) (hc : c' → c) : Tracks c' f ids :=
  ⟨h.1, fun h' => h.2 (hc h')⟩

theorem tracks_bindT {f g : Callbacks → Except VisitError Callbacks}
    {a b : List IdentifierExpr} (hf : Tracks True f a) (hg : Tracks True g b) :
    Tracks True (fun log => f log >>= g) (a ++ b) :=
  (tracks_mono ((tracks_bind hf hg)) (fun _ => ⟨trivial, trivial⟩))

mutual
theorem checkType_tracks : ∀ (Q : QualType) (isFull : Bool),
    Tracks True (checkType Q isFull) (reachType false Q)
  | .mk (.TC_BUILTIN _) _, _ => by
      simpa only [checkType, reachType] using tracks_ok
  | .mk (.TC_POINTER pointee) _, _ => by
      simpa only [checkType, reachType] using checkType_tracks pointee false
  | .mk (.TC_ARRAY elem none) _, isFull => by
      simpa only [checkType, reachType] using checkType_tracks elem isFull
  | .mk (.TC_ARRAY elem (some size)) _, isFull => by
      simpa only [checkType, reachType] using
        (tracks_bindT (checkType_tracks elem isFull) (checkExpr_tracks size))
  | .mk (.TC_REF none typeName) _, _ => by
      simpa only [checkType, reachType] using tracks_visit typeName
  | .mk (.TC_REF (some moduleName) typeName) _, _ => by
      simpa only [checkType, reachType] using
        (tracks_bindT (tracks_visit moduleName) (tracks_visit typeName))
  | .mk .TC_ALIAS _, _ => by simpa only [checkType, reachType] using tracks_ok
  | .mk .TC_STRUCT _, _ => by simpa only [checkType, reachType] using tracks_ok
  | .mk .TC_ENUM _, _ => by simpa only [checkType, reachType] using tracks_ok
  | .mk .TC_FUNCTION _, _ => by simpa only [checkType, reachType] using tracks_ok
  | .mk .TC_MODULE _, _ => by
      simpa only [checkType, reachType, FATAL_ERROR] using tracks_error _ _
theorem checkExpr_tracks : ∀ (E : Expr), Tracks True (checkExpr E) (reachExpr false E)
  | .EXPR_INTEGER_LITERAL _ => by simpa only [checkExpr, reachExpr] using tracks_ok
  | .EXPR_FLOAT_LITERAL _ => by simpa only [checkExpr, reachExpr] using tracks_ok
  | .EXPR_BOOL_LITERAL _ => by simpa only [checkExpr, reachExpr] using tracks_ok
  | .EXPR_CHAR_LITERAL _ => by simpa only [checkExpr, reachExpr] using tracks_ok
  | .EXPR_STRING_LITERAL _ => by simpa only [checkExpr, reachExpr] using tracks_ok
  | .EXPR_NIL => by simpa only [checkExpr, reachExpr] using tracks_ok
  | .EXPR_IDENTIFIER I => by simpa only [checkExpr, reachExpr] using tracks_visit I
  | .EXPR_TYPE _ => by simpa [checkExpr, reachExpr] using tracks_ok
  | .EXPR_CALL fn args => by
      simpa only [checkExpr, reachExpr] using (tracks_bindT (checkExpr_tracks fn) (checkExprs_tracks args))
  | .EXPR_INITLIST values => by
      simpa only [checkExpr, reachExpr] using checkExprs_tracks values
  | .EXPR_DESIGNATOR_INIT_ARRAY d i => by
      simpa only [checkExpr, reachExpr] using (tracks_bindT (checkExpr_tracks d) (checkExpr_tracks i))
  | .EXPR_DESIGNATOR_INIT_FIELD d i => by
      simpa only [checkExpr, reachExpr] using (tracks_bindT (checkExpr_tracks d) (checkExpr_tracks i))
  | .EXPR_BINOP l r => by
      simpa only [checkExpr, reachExpr] using (tracks_bindT (checkExpr_tracks l) (checkExpr_tracks r))
  | .EXPR_CONDOP c l r => by
      simpa only [checkExpr, reachExpr] using
        (tracks_bindT (checkExpr_tracks c) ((tracks_bindT (checkExpr_tracks l) (checkExpr_tracks r))))
  | .EXPR_UNARYOP e => by simpa only [checkExpr, reachExpr] using checkExpr_tracks e
  | .EXPR_BUILTIN e m p => by
      simpa only [checkExpr, reachExpr] using
        (tracks_bindT (checkExpr_tracks e) ((tracks_bindT (checkOptExpr_tracks m) (checkOptExpr_tracks p))))
  | .EXPR_ARRAYSUBSCRIPT b i => by
      simpa only [checkExpr, reachExpr] using (tracks_bindT (checkExpr_tracks b) (checkExpr_tracks i))
  | .EXPR_MEMBER b m => by
      simpa only [checkExpr, reachExpr] using (tracks_bindT (checkExpr_tracks b) (tracks_visit m))
  | .EXPR_PAREN e => by simpa only [checkExpr, reachExpr] using checkExpr_tracks e
  | .EXPR_BITOFFSET l r => by
      simpa only [checkExpr, reachExpr] using (tracks_bindT (checkExpr_tracks l) (checkExpr_tracks r))
  | .EXPR_CAST i t => by
      simpa only [checkExpr, reachExpr] using (tracks_bindT (checkExpr_tracks i) (checkType_tracks t true))
theorem checkExprs_tracks : ∀ (es : List Expr), Tracks True (checkExprs es) (reachExprs false es)
  | [] => by simpa only [checkExprs, reachExprs] using tracks_ok
  | e :: es => by
      simpa only [checkExprs, reachExprs] using (tracks_bindT (checkExpr_tracks e) (checkExprs_tracks es))
theorem checkOptExpr_tracks : ∀ (e : Option Expr),
    Tracks True (checkOptExpr e) (reachOptExpr false e)
  | none => by simpa only [checkOptExpr, reachOptExpr] using tracks_ok
  | some e => by simpa only [checkOptExpr, reachOptExpr] using checkExpr_tracks e
end

theorem checkVarDecl_tracks (V : VarDecl) :
    Tracks True (checkVarDecl V) (reachVarDecl false V) :=
  (tracks_bindT (checkType_tracks V.origType true) (checkOptExpr_tracks V.initValue))

theorem checkAsmStmt_tracks (A : AsmStmt) :
    Tracks True (checkAsmStmt A) (reachAsmStmt false A) :=
  (tracks_bindT (checkExprs_tracks A.outputs) (checkExprs_tracks A.inputs))

mutual
theorem checkStmt_tracks : ∀ (S : Stmt),
    Tracks (labelFreeStmt S = true) (checkStmt S) (reachStmt false S)
  | .STMT_RETURN e => by
      simpa only [checkStmt, reachStmt] using (tracks_mono (checkOptExpr_tracks e) (fun _ => trivial))
  | .STMT_EXPR E => by
      simpa only [checkStmt, reachStmt] using (tracks_mono (checkExpr_tracks E) (fun _ => trivial))
  | .STMT_IF c t e => by
      simpa only [checkStmt, reachStmt] using
        (tracks_mono ((tracks_bind (checkStmt_tracks c) ((tracks_bind (checkStmt_tracks t) (checkOptStmt_tracks e))))) (fun h => by simpa [labelFreeStmt] using h))
  | .STMT_WHILE c b => by
      simpa only [checkStmt, reachStmt] using
        (tracks_mono ((tracks_bind (checkStmt_tracks c) (checkStmt_tracks b))) (fun h => by simpa [labelFreeStmt] using h))
  | .STMT_DO c b => by
      simpa only [checkStmt, reachStmt] using
        (tracks_mono ((tracks_bind (checkStmt_tracks c) (checkStmt_tracks b))) (fun h => by simpa [labelFreeStmt] using h))
  | .STMT_FOR i c n b => by
      simpa only [checkStmt, reachStmt] using
        (tracks_mono ((tracks_bind (checkOptStmt_tracks i) ((tracks_bind (checkOptExpr_tracks c) ((tracks_bind (checkOptExpr_tracks n) (checkStmt_tracks b))))))) (fun h => by simpa [labelFreeStmt] using h))
  | .STMT_SWITCH c cs => by
      simpa only [checkStmt, reachStmt] using
        (tracks_mono ((tracks_bind (checkStmt_tracks c) (checkStmts_tracks cs))) (fun h => by simpa [labelFreeStmt] using h))
  | .STMT_CASE c ss => by
      simpa only [checkStmt, reachStmt] using
        (tracks_mono ((tracks_bind (checkExpr_tracks c) (checkStmts_tracks ss))) (fun h => by simpa [labelFreeStmt] using h))
  | .STMT_DEFAULT ss => by
      simpa only [checkStmt, reachStmt] using
        (tracks_mono (checkStmts_tracks ss) (fun h => by simpa [labelFreeStmt] using h))
  | .STMT_BREAK => by
      simpa only [checkStmt, reachStmt] using (tracks_mono tracks_ok (fun _ => trivial))
  | .STMT_CONTINUE => by
      simpa only [checkStmt, reachStmt] using (tracks_mono tracks_ok (fun _ => trivial))
  | .STMT_LABEL _ sub => by
      refine ⟨?_, fun h => by simp [labelFreeStmt] at h⟩
      simpa only [checkStmt] using appends_ok
  | .STMT_GOTO _ => by
      simpa only [checkStmt, reachStmt] using (tracks_mono tracks_ok (fun _ => trivial))
  | .STMT_COMPOUND C => by
      simpa only [checkStmt, reachStmt] using
        (tracks_mono (checkCompoundStmt_tracks C) (fun h => by simpa [labelFreeStmt] using h))
  | .STMT_DECL d => by
      simpa only [checkStmt, reachStmt] using (tracks_mono (checkVarDecl_tracks d) (fun _ => trivial))
  | .STMT_ASM A => by
      simpa only [checkStmt, reachStmt] using (tracks_mono (checkAsmStmt_tracks A) (fun _ => trivial))
theorem checkCompoundStmt_tracks : ∀ (C : CompoundStmt),
    Tracks (labelFreeCompoundStmt C = true) (checkCompoundStmt C) (reachCompoundStmt false C)
  | .mk ss => by
      simpa only [checkCompoundStmt, reachCompoundStmt] using
        (tracks_mono (checkStmts_tracks ss) (fun h => by simpa [labelFreeCompoundStmt] using h))
theorem checkStmts_tracks : ∀ (ss : List Stmt),
    Tracks (labelFreeStmts ss = true) (checkStmts ss) (reachStmts false ss)
  | [] => by simpa only [checkStmts, reachStmts] using (tracks_mono tracks_ok (fun _ => trivial))
  | s :: ss => by
      simpa only [checkStmts, reachStmts] using
        (tracks_mono ((tracks_bind (checkStmt_tracks s) (checkStmts_tracks ss))) (fun h => by simpa [labelFreeStmts] using h))
theorem checkOptStmt_tracks : ∀ (s : Option Stmt),
    Tracks (labelFreeOptStmt s = true) (checkOptStmt s) (reachOptStmt false s)
  | none => by simpa only [checkOptStmt, reachOptStmt] using (tracks_mono tracks_ok (fun _ => trivial))
  | some s => by
      simpa only [checkOptStmt, reachOptStmt] using
        (tracks_mono (checkStmt_tracks s) (fun h => by simpa [labelFreeOptStmt] using h))
end

theorem checkArgs_tracks : ∀ (as : List VarDecl),
    Tracks True (checkArgs as) (reachArgs false as)
  | [] => by simpa only [checkArgs, reachArgs] using tracks_ok
  | a :: as => by
      simpa only [checkArgs, reachArgs] using (tracks_bindT (checkVarDecl_tracks a) (checkArgs_tracks as))

theorem checkFunctionDecl_tracks (F : FunctionDecl) :
    Tracks (labelFreeBody F.body = true) (checkFunctionDecl F) (reachFunctionDecl false F) := by
  obtain ⟨name, rt, sn, args, body⟩ := F
  show Tracks _ (fun log => checkFunctionDecl _ log) _
  cases sn with
  | none =>
    cases body with
    | none =>
      simpa only [checkFunctionDecl, reachFunctionDecl, reachBody, Option.toList] using
        (tracks_mono ((tracks_bind (checkType_tracks rt true) ((tracks_bind tracks_ok ((tracks_bind (checkArgs_tracks args) tracks_ok)))))) (fun _ => ⟨trivial, trivial, trivial, trivial⟩))
    | some C =>
      simpa only [checkFunctionDecl, reachFunctionDecl, reachBody, Option.toList] using
        (tracks_mono ((tracks_bind (checkType_tracks rt true) ((tracks_bind tracks_ok ((tracks_bind (checkArgs_tracks args) (checkCompoundStmt_tracks C))))))) (fun h => ⟨trivial, trivial, trivial, by simpa [labelFreeBody] using h⟩))
  | some I =>
    cases body with
    | none =>
      simpa only [checkFunctionDecl, reachFunctionDecl, reachBody, Option.toList] using
        (tracks_mono ((tracks_bind (checkType_tracks rt true) ((tracks_bind (tracks_visit I) ((tracks_bind (checkArgs_tracks args) tracks_ok)))))) (fun _ => ⟨trivial, trivial, trivial, trivial⟩))
    | some C =>
      simpa only [checkFunctionDecl, reachFunctionDecl, reachBody, Option.toList] using
        (tracks_mono ((tracks_bind (checkType_tracks rt true) ((tracks_bind (tracks_visit I) ((tracks_bind (checkArgs_tracks args) (checkCompoundStmt_tracks C))))))) (fun h => ⟨trivial, trivial, trivial, by simpa [labelFreeBody] using h⟩))

theorem checkConstants_tracks : ∀ (cs : List EnumConstantDecl),
    Tracks True (checkConstants cs) (reachConstants false cs)
  | [] => by simpa only [checkConstants, reachConstants] using tracks_ok
  | c :: cs => by
      simpa only [checkConstants, reachConstants] using
        (tracks_bindT (checkOptExpr_tracks c.initValue) (checkConstants_tracks cs))

mutual
theorem checkDecl_tracks : ∀ (D : Decl),
    Tracks (labelFreeDecl D = true) (checkDecl D) (reachDecl false D)
  | .DECL_FUNC F => by
      simpa only [checkDecl, reachDecl] using
        (tracks_mono (checkFunctionDecl_tracks F) (fun h => by simpa [labelFreeDecl] using h))
  | .DECL_VAR V => by
      simpa only [checkDecl, reachDecl] using (tracks_mono (checkVarDecl_tracks V) (fun _ => trivial))
  | .DECL_ENUMVALUE E => by
      simpa only [checkDecl, reachDecl, TODO] using (tracks_mono (tracks_error _ _) (fun _ => trivial))
  | .DECL_ALIASTYPE _ t => by
      simpa only [checkDecl, reachDecl] using (tracks_mono (checkType_tracks t true) (fun _ => trivial))
  | .DECL_STRUCTTYPE _ ms => by
      simpa only [checkDecl, reachDecl] using
        (tracks_mono (checkMembers_tracks ms) (fun h => by simpa [labelFreeDecl] using h))
  | .DECL_ENUMTYPE _ cs => by
      simpa only [checkDecl, reachDecl] using (tracks_mono (checkConstants_tracks cs) (fun _ => trivial))
  | .DECL_FUNCTIONTYPE _ F => by
      simpa only [checkDecl, reachDecl] using
        (tracks_mono (checkFunctionDecl_tracks F) (fun h => by simpa [labelFreeDecl] using h))
  | .DECL_ARRAYVALUE _ e => by
      simpa only [checkDecl, reachDecl, TODO] using (tracks_mono (tracks_error _ _) (fun _ => trivial))
  | .DECL_IMPORT _ => by
      simpa only [checkDecl, reachDecl] using (tracks_mono tracks_ok (fun _ => trivial))
  | .DECL_LABEL _ => by
      simpa only [checkDecl, reachDecl] using (tracks_mono tracks_ok (fun _ => trivial))
theorem checkMembers_tracks : ∀ (ms : List Decl),
    Tracks (labelFreeMembers ms = true) (checkMembers ms) (reachMembers false ms)
  | [] => by simpa only [checkMembers, reachMembers] using (tracks_mono tracks_ok (fun _ => trivial))
  | D :: ms => by
      simpa only [checkMembers, reachMembers] using
        (tracks_mono ((tracks_bind (checkDecl_tracks D) (checkMembers_tracks ms))) (fun h => by simpa [labelFreeMembers] using h))
end

theorem appends_bind_eq {f : Callbacks → Except VisitError Callbacks} (hf : Appends f)
    (g : Callbacks → Except VisitError Callbacks) (log : Callbacks) :
    (f log >>= g) = (f [] >>= fun cbs => g (log ++ cbs)) := by
  rw [hf log]
  cases f [] <;> rfl

theorem checkArgs_eq : ∀ (as : List VarDecl) (log : Callbacks),
    checkArgs as log = (paramCallbacks as).map (fun cbs => log ++ cbs)
  | [], log => by simp [checkArgs, paramCallbacks, Except.map]
  | a :: as, log => by
      simp only [checkArgs, paramCallbacks, checkVarDecl]
      rw [(checkType_tracks a.origType true).1 log]
      cases h1 : checkType a.origType true [] with
      | error e => rfl
      | ok t =>
        simp only [Except.map, except_ok_bind]
        rw [(checkOptExpr_tracks a.initValue).1 (log ++ t)]
        cases h2 : checkOptExpr a.initValue [] with
        | error e => rfl
        | ok i =>
          simp only [Except.map, except_ok_bind]
          rw [checkArgs_eq as (log ++ t ++ i)]
          cases paramCallbacks as with
          | error e => rfl
          | ok rest => simp [Except.map, pure, Except.pure, except_ok_bind]

/-- C1 (as stated, refuted): the initialiser `sizeof(Foo)` carries a `TypeExpr`
whose type names `Foo`; the walk completes without any hook call, so the
reachable node `Foo` is never visited. An enum constant handed to the visitor
as the declaration stops the walk at `TODO` before its initialiser `x`. -/
theorem C1_counterexample :
    (ASTVisitor.checkDecl declSizeofFoo [] = .ok [] ∧ idFoo ∈ reachDecl true declSizeofFoo) ∧
    (ASTVisitor.checkDecl declEnumConstant [] = .error .todo ∧
      idX ∈ reachDecl true declEnumConstant) := by
  refine ⟨⟨rfl, ?_⟩, rfl, ?_⟩
  · simp [declSizeofFoo, reachDecl, reachVarDecl, reachType, reachExpr, reachOptExpr, tyBuiltin]
  · simp [declEnumConstant, reachDecl, reachOptExpr, reachExpr]

/-- C1 (amended): on every declaration without label statements on which the
walk completes, the hook calls the walk adds are exactly the identifier nodes
reachable without entering the type of a `TypeExpr`: each such node is called
back as often as it occurs, so when the nodes are pairwise distinct every one
of them is visited exactly once and no node twice. -/
theorem C1_visitor_coverage (D : Decl) (log log' : Callbacks)
    (hrun : ASTVisitor.checkDecl D log = .ok log') (hlabel : labelFreeDecl D = true) :
    ∃ cbs, log' = log ++ cbs ∧ cbs.Perm (reachDecl false D) ∧
      ((reachDecl false D).Nodup →
        cbs.Nodup ∧ ∀ I ∈ reachDecl false D, cbs.count I = 1) := by
  have ht := checkDecl_tracks D
  rw [ht.1 log] at hrun
  cases h0 : checkDecl D [] with
  | error e => rw [h0] at hrun; cases hrun
  | ok cbs =>
    rw [h0] at hrun
    simp only [Except.map, Except.ok.injEq] at hrun
    have hc : cbs = reachDecl false D := ht.2 hlabel cbs h0
    refine ⟨cbs, hrun.symm, hc ▸ List.Perm.refl _, fun hn => ?_⟩
    subst hc
    exact ⟨hn, fun I hI => List.count_eq_one_of_mem hn hI⟩

/-- Witness for C1 (amended): a function with a reference return type, a
parameter with an initialiser and a body is walked from an empty record. -/
theorem C1_visitor_coverage_witness :
    ∃ cbs, [idFoo, ⟨"Foo", 4⟩, idX, ⟨"x", 5⟩, idY, ⟨"y", 6⟩] = [] ++ cbs ∧
      cbs.Perm (reachDecl false declCovered) ∧
      ((reachDecl false declCovered).Nodup →
        cbs.Nodup ∧ ∀ I ∈ reachDecl false declCovered, cbs.count I = 1) :=
  C1_visitor_coverage declCovered [] _ rfl rfl

/-- C2: the hook calls of `checkFunctionDecl` are, in this order, those of the
original return type, the receiver identifier if present, those of each
parameter in index order (type, then initialiser) and those of the body if
present; the walk stops at the first of these parts that stops. -/
theorem C2_function_decl_order (F : FunctionDecl) (log : Callbacks) :
    ASTVisitor.checkFunctionDecl F log =
      (do
        let r ← ASTVisitor.checkType F.origReturnType true []
        let ps ← paramCallbacks F.args
        let b ← bodyCallbacks F.body
        pure (log ++ (r ++ F.structName.toList ++ ps ++ b))) := by
  obtain ⟨name, rt, sn, args, body⟩ := F
  simp only [checkFunctionDecl]
  rw [(checkType_tracks rt true).1 log]
  cases checkType rt true [] with
  | error e => rfl
  | ok r =>
    simp only [Except.map, except_ok_bind]
    cases sn with
    | none =>
      simp only [pure, Except.pure, except_ok_bind, Option.toList, List.append_nil]
      rw [checkArgs_eq]
      cases paramCallbacks args with
      | error e => rfl
      | ok ps =>
        simp only [Except.map, except_ok_bind]
        cases body with
        | none => simp [bodyCallbacks, except_ok_bind]
        | some C =>
          simp only [bodyCallbacks]
          rw [(checkCompoundStmt_tracks C).1 (log ++ r ++ ps)]
          cases checkCompoundStmt C [] with
          | error e => rfl
          | ok b => simp [Except.map, except_ok_bind]
    | some I =>
      simp only [visitIdentifierExpr, except_ok_bind, Option.toList]
      rw [checkArgs_eq]
      cases paramCallbacks args with
      | error e => rfl
      | ok ps =>
        simp only [Except.map, except_ok_bind]
        cases body with
        | none => simp [bodyCallbacks, except_ok_bind, pure, Except.pure]
        | some C =>
          simp only [bodyCallbacks]
          rw [(checkCompoundStmt_tracks C).1 (log ++ r ++ [I] ++ ps)]
          cases checkCompoundStmt C [] with
          | error e => rfl
          | ok b => simp [Except.map, except_ok_bind, pure, Except.pure]

/-- C3: when a run of the visitor completes, the declaration it holds is the
one it was given, and a second run completes as well and adds exactly the hook
calls the first run added. -/
theorem C3_rerun_idempotent (v v1 : ASTVisitor) (hrun : v.run = .ok v1) :
    v1.decl = v.decl ∧
      ∃ cbs, v1.log = v.log ++ cbs ∧ v1.run = .ok { decl := v.decl, log := v1.log ++ cbs } := by
  obtain ⟨D, log⟩ := v
  have ha := (checkDecl_tracks D).1
  simp only [ASTVisitor.run] at hrun
  rw [ha log] at hrun
  cases h0 : checkDecl D [] with
  | error e => rw [h0] at hrun; cases hrun
  | ok cbs =>
    rw [h0] at hrun
    simp only [Except.map, except_ok_bind, pure, Except.pure, Except.ok.injEq] at hrun
    subst hrun
    refine ⟨rfl, cbs, rfl, ?_⟩
    simp only [ASTVisitor.run]
    rw [ha (log ++ cbs), h0]
    rfl

/-- Witness for C3: the visitor is run on the example function. -/
theorem C3_rerun_idempotent_witness :
    (⟨declCovered, [idFoo, ⟨"Foo", 4⟩, idX, ⟨"x", 5⟩, idY, ⟨"y", 6⟩]⟩ : ASTVisitor).decl
        = declCovered ∧
      ∃ cbs, [idFoo, ⟨"Foo", 4⟩, idX, ⟨"x", 5⟩, idY, ⟨"y", 6⟩] = [] ++ cbs ∧
        (⟨declCovered, [idFoo, ⟨"Foo", 4⟩, idX, ⟨"x", 5⟩, idY, ⟨"y", 6⟩]⟩ : ASTVisitor).run
          = .ok { decl := declCovered,
                  log := [idFoo, ⟨"Foo", 4⟩, idX, ⟨"x", 5⟩, idY, ⟨"y", 6⟩] ++ cbs } :=
  C3_rerun_idempotent ⟨declCovered, []⟩ _ rfl

theorem checkType_reachesModule : ∀ (Q : QualType) (isFull : Bool) (log : Callbacks),
    reachesModule Q = true → checkType Q isFull log = FATAL_ERROR "Unexpected type"
  | .mk .TC_MODULE _, _, _, _ => by simp only [checkType]
  | .mk (.TC_POINTER p) _, _, log, h => by
      simp only [checkType]
      exact checkType_reachesModule p false log (by simpa [reachesModule] using h)
  | .mk (.TC_ARRAY e none) _, f, log, h => by
      simp only [checkType]
      exact checkType_reachesModule e f log (by simpa [reachesModule] using h)
  | .mk (.TC_ARRAY e (some s)) _, f, log, h => by
      simp only [checkType]
      rw [checkType_reachesModule e f log (by simpa [reachesModule] using h)]
      rfl
  | .mk (.TC_BUILTIN _) _, _, _, h => by simp [reachesModule] at h
  | .mk (.TC_REF _ _) _, _, _, h => by simp [reachesModule] at h
  | .mk .TC_ALIAS _, _, _, h => by simp [reachesModule] at h
  | .mk .TC_STRUCT _, _, _, h => by simp [reachesModule] at h
  | .mk .TC_ENUM _, _, _, h => by simp [reachesModule] at h
  | .mk .TC_FUNCTION _, _, _, h => by simp [reachesModule] at h

theorem checkType_sizelessModuleFree : ∀ (Q : QualType) (isFull : Bool) (log : Callbacks),
    sizelessModuleFree Q = true → ∃ log', checkType Q isFull log = .ok log'
  | .mk .TC_MODULE _, _, _, h => by simp [sizelessModuleFree] at h
  | .mk (.TC_POINTER p) _, _, log, h => by
      simp only [checkType]
      exact checkType_sizelessModuleFree p false log (by simpa [sizelessModuleFree] using h)
  | .mk (.TC_ARRAY e none) _, f, log, h => by
      simp only [checkType]
      exact checkType_sizelessModuleFree e f log (by simpa [sizelessModuleFree] using h)
  | .mk (.TC_ARRAY e (some s)) _, _, _, h => by simp [sizelessModuleFree] at h
  | .mk (.TC_BUILTIN _) _, _, log, _ => ⟨log, by simp only [checkType]⟩
  | .mk (.TC_REF none n) _, _, log, _ => ⟨log ++ [n], by simp only [checkType, visitIdentifierExpr]⟩
  | .mk (.TC_REF (some m) n) _, _, log, _ =>
      ⟨log ++ [m] ++ [n], by simp only [checkType, visitIdentifierExpr, except_ok_bind]⟩
  | .mk .TC_ALIAS _, _, log, _ => ⟨log, by simp only [checkType]⟩
  | .mk .TC_STRUCT _, _, log, _ => ⟨log, by simp only [checkType]⟩
  | .mk .TC_ENUM _, _, log, _ => ⟨log, by simp only [checkType]⟩
  | .mk .TC_FUNCTION _, _, log, _ => ⟨log, by simp only [checkType]⟩

/-- C4: `checkType` raises the fatal error on every type that is of `Module`
kind or reaches one through pointer and array layers, and completes on every
type built only from builtin, ref, alias, struct, enum and function types
under pointer and array layers without size expressions. -/
theorem C4_module_type_fatal (Q : QualType) (isFull : Bool) (log : Callbacks) :
    (reachesModule Q = true →
      ASTVisitor.checkType Q isFull log = FATAL_ERROR "Unexpected type") ∧
    (sizelessModuleFree Q = true → ∃ log', ASTVisitor.checkType Q isFull log = .ok log') :=
  ⟨checkType_reachesModule Q isFull log, checkType_sizelessModuleFree Q isFull log⟩

/-- Witness for C4: a pointer to a sized array of `Module` elements is fatal;
a pointer to an unsized array of a named type is walked. -/
theorem C4_module_type_fatal_witness :
    (reachesModule tyReachesModule = true ∧
      ASTVisitor.checkType tyReachesModule true [] = FATAL_ERROR "Unexpected type") ∧
    (sizelessModuleFree tySizeless = true ∧
      ∃ log', ASTVisitor.checkType tySizeless true [] = .ok log') :=
  ⟨⟨rfl, (C4_module_type_fatal tyReachesModule true []).1 rfl⟩,
    ⟨rfl, (C4_module_type_fatal tySizeless true []).2 rfl⟩⟩

end C2.Algo

/-! # Theorems: the C code generator -/

namespace C2.CGen

open CCodeGenerator

theorem setBufs_setBufs (g : CCodeGenerator) (a b c d : String) :
    (g.setBufs a b).setBufs c d = g.setBufs c d := rfl

theorem setBufs_self (g : CCodeGenerator) : g.setBufs g.cbuf g.hbuf = g := rfl

theorem emit_ok_bind (x : CCodeGenerator) (k : CCodeGenerator → Emit) :
    (Except.ok x >>= k) = k x := rfl

theorem emit_error_bind (e : EmitError) (k : CCodeGenerator → Emit) :
    ((Except.error e : Emit) >>= k) = Except.error e := rfl

theorem framedAt_put (g0 : CCodeGenerator) (output : Buf) (text : String) :
    FramedAt g0 (put output text) := by
  cases output with
  | cbuf =>
    exact ⟨.ok (text, ""), fun cb hb => by
      simp [put, setBufs, Except.map, String.append_empty]⟩
  | hbuf =>
    exact ⟨.ok ("", text), fun cb hb => by
      simp [put, setBufs, Except.map, String.append_empty]⟩

theorem framedAt_indent (g0 : CCodeGenerator) (output : Buf) (num : Nat) :
    FramedAt g0 (indent output num) :=
  framedAt_put g0 output _

theorem framedAt_ok (g0 : CCodeGenerator) : FramedAt g0 (fun g => Except.ok g) :=
  ⟨.ok ("", ""), fun cb hb => by simp [Except.map, String.append_empty]⟩

theorem framedAt_pure (g0 : CCodeGenerator) : FramedAt g0 (fun g => (pure g : Emit)) :=
  framedAt_ok g0

theorem framedAt_error (g0 : CCodeGenerator) (e : EmitError) :
    FramedAt g0 (fun _ => (Except.error e : Emit)) :=
  ⟨.error e, fun cb hb => by simp [Except.map]⟩

theorem framedAt_bind {g0 : CCodeGenerator} {f k : CCodeGenerator → Emit}
    (hf : FramedAt g0 f) (hk : FramedAt g0 k) : FramedAt g0 (fun g => f g >>= k) := by
  obtain ⟨r1, h1⟩ := hf
  obtain ⟨r2, h2⟩ := hk
  refine ⟨(do let a ← r1; let b ← r2; pure (a.1 ++ b.1, a.2 ++ b.2)), fun cb hb => ?_⟩
  show f (g0.setBufs cb hb) >>= k = _
  rw [h1 cb hb]
  cases r1 with
  | error e => rfl
  | ok a =>
    simp only [Except.map, emit_ok_bind]
    rw [h2]
    cases r2 with
    | error e => rfl
    | ok b =>
      show Except.ok _ = Except.ok _
      simp only [String.append_assoc]

theorem framedAt_ite {g0 : CCodeGenerator} (c : Prop) [Decidable c]
    {f k : CCodeGenerator → Emit} (hf : FramedAt g0 f) (hk : FramedAt g0 k) :
    FramedAt g0 (fun g => if c then f g else k g) := by
  by_cases h : c
  · simpa only [h, if_true] using hf
  · simpa only [h, if_false] using hk

theorem framedAt_congr {g0 : CCodeGenerator} {f k : CCodeGenerator → Emit}
    (h : ∀ cb hb, f (g0.setBufs cb hb) = k (g0.setBufs cb hb)) (hk : FramedAt g0 k) :
    FramedAt g0 f := by
  obtain ⟨r, hr⟩ := hk
  exact ⟨r, fun cb hb => by rw [h, hr]⟩

theorem framedAt_addName (g0 : CCodeGenerator) (pkgName name : String) (output : Buf) :
    FramedAt g0 (Utils.addName pkgName name output) :=
  framedAt_put g0 output _

theorem framedAt_addCurpkgName (g0 : CCodeGenerator) (name : String) (output : Buf) :
    FramedAt g0 (addCurpkgName name output) := by
  cases h : g0.curpkg with
  | none =>
    refine framedAt_congr (fun cb hb => ?_) (framedAt_error g0 .nullCurpkg)
    simp [addCurpkgName, setBufs, h]
  | some p =>
    refine framedAt_congr (fun cb hb => ?_) (framedAt_addName g0 p name output)
    simp [addCurpkgName, setBufs, h]

theorem framedAt_EmitIdentifierExpr (g0 : CCodeGenerator) (I : IdentifierExpr) (output : Buf) :
    FramedAt g0 (EmitIdentifierExpr I output) := by
  obtain ⟨name, pkg⟩ := I
  cases pkg with
  | none => exact framedAt_put g0 output name
  | some P => exact framedAt_addName g0 P.cname name output

theorem framedAt_castExpr {g0 : CCodeGenerator} (S : Stmt) {k : Expr → CCodeGenerator → Emit}
    (hk : ∀ E, FramedAt g0 (k E)) : FramedAt g0 (fun g => castExpr S >>= fun E => k E g) := by
  cases h : castExpr S with
  | error e => exact framedAt_error g0 e
  | ok E => exact hk E

mutual
theorem EmitExpr_framed : ∀ (E : Expr) (output : Buf) (g0 : CCodeGenerator),
    FramedAt g0 (EmitExpr E output)
  | .EXPR_NUMBER v, output, g0 => by
      simpa only [EmitExpr] using framedAt_put g0 output _
  | .EXPR_STRING v, output, g0 => by
      simpa only [EmitExpr] using
        framedAt_bind (framedAt_put g0 output _)
          (framedAt_bind (framedAt_put g0 output _) (framedAt_put g0 output _))
  | .EXPR_BOOL v, output, g0 => by
      simpa only [EmitExpr] using framedAt_put g0 .cbuf _
  | .EXPR_CHARLITERAL v, output, g0 => by
      simpa only [EmitExpr] using
        framedAt_bind (framedAt_put g0 output _)
          (framedAt_bind (framedAt_put g0 output _) (framedAt_put g0 output _))
  | .EXPR_CALL fn args, output, g0 => by
      simpa only [EmitExpr] using
        framedAt_bind (EmitExpr_framed fn output g0)
          (framedAt_bind (framedAt_put g0 output _)
            (framedAt_bind (EmitCallArgs_framed args 0 output g0) (framedAt_put g0 output _)))
  | .EXPR_IDENTIFIER I, output, g0 => by
      simpa only [EmitExpr] using framedAt_EmitIdentifierExpr g0 I output
  | .EXPR_INITLIST values, output, g0 => by
      simpa only [EmitExpr] using
        framedAt_bind (framedAt_put g0 output _)
          (framedAt_bind (EmitInitListValues_framed values 0 output g0)
            (framedAt_put g0 output _))
  | .EXPR_TYPE t, output, g0 => by
      simpa only [EmitExpr] using
        framedAt_bind (EmitTypePreName_framed t output g0) (EmitTypePostName_framed t output g0)
  | .EXPR_DECL D, output, g0 => by
      simpa only [EmitExpr] using EmitDeclExpr_framed D output 0 g0
  | .EXPR_BINOP l op r, output, g0 => by
      simpa only [EmitExpr] using
        framedAt_bind (EmitExpr_framed l output g0)
          (framedAt_bind (framedAt_put g0 output _)
            (framedAt_bind (framedAt_put g0 output _)
              (framedAt_bind (framedAt_put g0 output _) (EmitExpr_framed r output g0))))
  | .EXPR_CONDOP c l r, output, g0 => by
      simpa only [EmitExpr] using
        framedAt_bind (EmitExpr_framed c output g0)
          (framedAt_bind (framedAt_put g0 output _)
            (framedAt_bind (EmitExpr_framed l output g0)
              (framedAt_bind (framedAt_put g0 output _) (EmitExpr_framed r output g0))))
  | .EXPR_UNARYOP op e, output, g0 => by
      have ih := EmitExpr_framed e output g0
      cases op <;>
        first
        | (simpa only [EmitExpr] using framedAt_bind ih (framedAt_put g0 output _))
        | (simpa only [EmitExpr] using framedAt_bind (framedAt_put g0 output _) ih)
        | (simpa only [EmitExpr] using framedAt_error g0 _)
  | .EXPR_SIZEOF e, output, g0 => by
      simpa only [EmitExpr] using
        framedAt_bind (framedAt_put g0 output _)
          (framedAt_bind (EmitExpr_framed e output g0) (framedAt_put g0 output _))
  | .EXPR_ARRAYSUBSCRIPT b i, output, g0 => by
      simpa only [EmitExpr] using
        framedAt_bind (EmitExpr_framed b output g0)
          (framedAt_bind (framedAt_put g0 output _)
            (framedAt_bind (EmitExpr_framed i output g0) (framedAt_put g0 output _)))
  | .EXPR_MEMBER b m arrow, output, g0 => by
      have ih := EmitExpr_framed b .cbuf g0
      obtain ⟨name, pkg⟩ := m
      cases pkg with
      | none =>
        simpa only [EmitExpr] using
          framedAt_bind ih
            (framedAt_bind (framedAt_ite (arrow = true) (framedAt_put g0 .cbuf _) (framedAt_put g0 .cbuf _))
              (framedAt_put g0 .cbuf _))
      | some P =>
        simpa only [EmitExpr] using framedAt_EmitIdentifierExpr g0 ⟨name, some P⟩ output
  | .EXPR_PAREN e, output, g0 => by
      simpa only [EmitExpr] using
        framedAt_bind (framedAt_put g0 .cbuf _)
          (framedAt_bind (EmitExpr_framed e .cbuf g0) (framedAt_put g0 .cbuf _))
theorem EmitCallArgs_framed : ∀ (args : List Expr) (i : Nat) (output : Buf)
    (g0 : CCodeGenerator), FramedAt g0 (EmitCallArgs args i output)
  | [], i, output, g0 => by simpa only [EmitCallArgs] using framedAt_ok g0
  | a :: rest, i, output, g0 => by
      simpa only [EmitCallArgs] using
        framedAt_bind (framedAt_ite _ (framedAt_put g0 output _) (framedAt_pure g0))
          (framedAt_bind (EmitExpr_framed a output g0)
            (EmitCallArgs_framed rest (i + 1) output g0))
theorem EmitInitListValues_framed : ∀ (values : List Expr) (i : Nat) (output : Buf)
    (g0 : CCodeGenerator), FramedAt g0 (EmitInitListValues values i output)
  | [], i, output, g0 => by simpa only [EmitInitListValues] using framedAt_ok g0
  | v :: rest, i, output, g0 => by
      simpa only [EmitInitListValues] using
        framedAt_bind (framedAt_ite _ (framedAt_put g0 output _) (framedAt_pure g0))
          (framedAt_bind (EmitExpr_framed v output g0)
            (framedAt_bind (framedAt_ite _ (framedAt_put g0 output _) (framedAt_pure g0))
              (framedAt_bind (framedAt_ite _ (framedAt_put g0 output _) (framedAt_pure g0))
                (EmitInitListValues_framed rest (i + 1) output g0))))
theorem EmitDeclExpr_framed : ∀ (D : DeclExpr) (output : Buf) (ind : Nat)
    (g0 : CCodeGenerator), FramedAt g0 (EmitDeclExpr D output ind)
  | .mk name t none loc, output, ind, g0 => by
      simpa only [EmitDeclExpr] using
        framedAt_bind (framedAt_indent g0 output ind)
          (framedAt_bind (framedAt_ite _ (framedAt_put g0 output _) (framedAt_pure g0))
            (framedAt_bind (EmitTypePreName_framed t output g0)
              (framedAt_bind (framedAt_put g0 output _)
                (framedAt_bind (framedAt_put g0 output _)
                  (EmitTypePostName_framed t output g0)))))
  | .mk name t (some init) loc, output, ind, g0 => by
      simpa only [EmitDeclExpr] using
        framedAt_bind (framedAt_indent g0 output ind)
          (framedAt_bind (framedAt_ite _ (framedAt_put g0 output _) (framedAt_pure g0))
            (framedAt_bind (EmitTypePreName_framed t output g0)
              (framedAt_bind (framedAt_put g0 output _)
                (framedAt_bind (framedAt_put g0 output _)
                  (framedAt_bind (EmitTypePostName_framed t output g0)
                    (framedAt_bind (framedAt_put g0 output _)
                      (EmitExpr_framed init output g0)))))))
theorem EmitTypePreName_framed : ∀ (Q : QualType) (output : Buf) (g0 : CCodeGenerator),
    FramedAt g0 (EmitTypePreName Q output)
  | .mk (.BUILTIN _ cname) _, output, g0 => by
      simpa only [EmitTypePreName] using framedAt_put g0 output cname
  | .mk (.STRUCT none) _, output, g0 => by
      simpa only [EmitTypePreName] using
        framedAt_bind (framedAt_put g0 output _) (framedAt_put g0 output _)
  | .mk (.STRUCT (some ms)) _, output, g0 => by
      simpa only [EmitTypePreName] using
        framedAt_bind (framedAt_put g0 output _)
          (framedAt_bind (EmitMembers_framed ms output g0) (framedAt_put g0 output _))
  | .mk (.UNION none) _, output, g0 => by
      simpa only [EmitTypePreName] using
        framedAt_bind (framedAt_put g0 output _) (framedAt_put g0 output _)
  | .mk (.UNION (some ms)) _, output, g0 => by
      simpa only [EmitTypePreName] using
        framedAt_bind (framedAt_put g0 output _)
          (framedAt_bind (EmitMembers_framed ms output g0) (framedAt_put g0 output _))
  | .mk (.ENUM none) _, output, g0 => by
      simpa only [EmitTypePreName] using
        framedAt_bind (framedAt_put g0 output _) (framedAt_put g0 output _)
  | .mk (.ENUM (some ms)) _, output, g0 => by
      simpa only [EmitTypePreName] using
        framedAt_bind (framedAt_put g0 output _)
          (framedAt_bind (EmitEnumConstants_framed ms output g0) (framedAt_put g0 output _))
  | .mk .FUNC _, output, g0 => by
      simpa only [EmitTypePreName] using framedAt_error g0 _
  | .mk (.USER u) _, output, g0 => by
      simpa only [EmitTypePreName] using EmitExpr_framed u output g0
  | .mk (.POINTER r) _, output, g0 => by
      simpa only [EmitTypePreName] using
        framedAt_bind (EmitTypePreName_framed r output g0) (framedAt_put g0 output _)
  | .mk (.ARRAY r _) _, output, g0 => by
      simpa only [EmitTypePreName] using EmitTypePreName_framed r output g0
theorem EmitMembers_framed : ∀ (ms : List DeclExpr) (output : Buf) (g0 : CCodeGenerator),
    FramedAt g0 (EmitMembers ms output)
  | [], output, g0 => by simpa only [EmitMembers] using framedAt_ok g0
  | m :: rest, output, g0 => by
      simpa only [EmitMembers] using
        framedAt_bind (EmitDeclExpr_framed m output INDENT g0)
          (framedAt_bind (framedAt_put g0 output _) (EmitMembers_framed rest output g0))
theorem EmitEnumConstants_framed : ∀ (ms : List DeclExpr) (output : Buf)
    (g0 : CCodeGenerator), FramedAt g0 (EmitEnumConstants ms output)
  | [], output, g0 => by simpa only [EmitEnumConstants] using framedAt_ok g0
  | .mk name _ none _ :: rest, output, g0 => by
      simpa only [EmitEnumConstants] using
        framedAt_bind (framedAt_indent g0 output INDENT)
          (framedAt_bind (framedAt_addCurpkgName g0 name output)
            (framedAt_bind (framedAt_put g0 output _) (EmitEnumConstants_framed rest output g0)))
  | .mk name _ (some init) _ :: rest, output, g0 => by
      simpa only [EmitEnumConstants] using
        framedAt_bind (framedAt_indent g0 output INDENT)
          (framedAt_bind (framedAt_addCurpkgName g0 name output)
            (framedAt_bind (framedAt_put g0 output _)
              (framedAt_bind (EmitExpr_framed init output g0)
                (framedAt_bind (framedAt_put g0 output _)
                  (EmitEnumConstants_framed rest output g0)))))
theorem EmitTypePostName_framed : ∀ (Q : QualType) (output : Buf) (g0 : CCodeGenerator),
    FramedAt g0 (EmitTypePostName Q output)
  | .mk (.ARRAY r none) _, output, g0 => by
      simpa only [EmitTypePostName] using
        framedAt_bind (EmitTypePostName_framed r output g0)
          (framedAt_bind (framedAt_put g0 output _) (framedAt_put g0 output _))
  | .mk (.ARRAY r (some e)) _, output, g0 => by
      simpa only [EmitTypePostName] using
        framedAt_bind (EmitTypePostName_framed r output g0)
          (framedAt_bind (framedAt_put g0 output _)
            (framedAt_bind (EmitExpr_framed e output g0) (framedAt_put g0 output _)))
  | .mk (.BUILTIN _ _) _, output, g0 => by
      simpa only [EmitTypePostName] using framedAt_ok g0
  | .mk (.USER _) _, output, g0 => by simpa only [EmitTypePostName] using framedAt_ok g0
  | .mk (.STRUCT _) _, output, g0 => by simpa only [EmitTypePostName] using framedAt_ok g0
  | .mk (.UNION _) _, output, g0 => by simpa only [EmitTypePostName] using framedAt_ok g0
  | .mk (.ENUM _) _, output, g0 => by simpa only [EmitTypePostName] using framedAt_ok g0
  | .mk .FUNC _, output, g0 => by simpa only [EmitTypePostName] using framedAt_ok g0
  | .mk (.POINTER _) _, output, g0 => by simpa only [EmitTypePostName] using framedAt_ok g0
end

theorem framedAt_congr_to {g0 : CCodeGenerator} {f : CCodeGenerator → Emit}
    (k : CCodeGenerator → Emit)
    (h : ∀ cb hb, f (g0.setBufs cb hb) = k (g0.setBufs cb hb)) (hk : FramedAt g0 k) :
    FramedAt g0 f :=
  framedAt_congr h hk

theorem framedAt_EmitForInit (g0 : CCodeGenerator) (init : Option Stmt) :
    FramedAt g0 (EmitForInit init) := by
  cases init with
  | none => exact framedAt_pure g0
  | some Init => exact framedAt_castExpr Init (fun E => EmitExpr_framed E .cbuf g0)

theorem framedAt_EmitForPart (g0 : CCodeGenerator) (part : Option Expr) :
    FramedAt g0 (EmitForPart part) := by
  cases part with
  | none => exact framedAt_pure g0
  | some E => exact framedAt_bind (framedAt_put g0 .cbuf _) (EmitExpr_framed E .cbuf g0)

set_option maxHeartbeats 4000000 in
theorem EmitStmt_break (ind : Nat) (g : CCodeGenerator) :
    EmitStmt .STMT_BREAK ind g = (indent .cbuf ind g >>= fun g => put .cbuf "break;\n" g) := by
  simp only [EmitStmt]

set_option maxHeartbeats 4000000 in
theorem EmitStmt_while_eq (c b : Stmt) (ind : Nat) :
    EmitStmt (.STMT_WHILE c b) ind = fun g =>
      indent .cbuf ind g >>= fun g => put .cbuf "while (" g >>= fun g =>
        castExpr c >>= fun E => EmitExpr E .cbuf g >>= fun g =>
          put .cbuf ") " g >>= fun g => EmitBody b ind g := by
  funext g
  cases b <;> rfl

set_option maxHeartbeats 4000000 in
theorem EmitStmt_do_eq (c b : Stmt) (ind : Nat) :
    EmitStmt (.STMT_DO c b) ind = fun g =>
      indent .cbuf ind g >>= fun g => put .cbuf "do " g >>= fun g =>
        EmitBody b ind g >>= fun g => indent .cbuf ind g >>= fun g =>
          put .cbuf "while (" g >>= fun g => castExpr c >>= fun E =>
            EmitExpr E .cbuf g >>= fun g => put .cbuf ");\n" g := by
  funext g
  cases b <;> rfl

set_option maxHeartbeats 4000000 in
theorem EmitStmt_for_eq (i : Option Stmt) (c n : Option Expr) (b : Stmt) (ind : Nat) :
    EmitStmt (.STMT_FOR i c n b) ind = fun g =>
      indent .cbuf ind g >>= fun g => put .cbuf "for (" g >>= fun g =>
        EmitForInit i g >>= fun g => put .cbuf ";" g >>= fun g =>
          EmitForPart c g >>= fun g => put .cbuf ";" g >>= fun g =>
            EmitForPart n g >>= fun g => put .cbuf ") " g >>= fun g => EmitBody b ind g := by
  funext g
  cases b <;> rfl

set_option maxHeartbeats 4000000 in
mutual
theorem EmitStmt_framed : ∀ (S : Stmt),
    (∀ (ind : Nat) (g0 : CCodeGenerator), FramedAt g0 (EmitStmt S ind)) ∧
    (∀ (ind : Nat) (g0 : CCodeGenerator), FramedAt g0 (EmitBody S ind))
  | .STMT_RETURN none => by
      have h : ∀ (ind : Nat) (g0 : CCodeGenerator),
          FramedAt g0 (EmitStmt (.STMT_RETURN none) ind) := fun ind g0 => by
        simpa only [EmitStmt] using
          framedAt_bind (framedAt_indent g0 .cbuf ind)
            (framedAt_bind (framedAt_put g0 .cbuf _) (framedAt_put g0 .cbuf _))
      exact ⟨h, fun ind g0 => h 0 g0⟩
  | .STMT_RETURN (some e) => by
      have h : ∀ (ind : Nat) (g0 : CCodeGenerator),
          FramedAt g0 (EmitStmt (.STMT_RETURN (some e)) ind) := fun ind g0 => by
        simpa only [EmitStmt] using
          framedAt_bind (framedAt_indent g0 .cbuf ind)
            (framedAt_bind (framedAt_put g0 .cbuf _)
              (framedAt_bind (framedAt_put g0 .cbuf _)
                (framedAt_bind (EmitExpr_framed e .cbuf g0) (framedAt_put g0 .cbuf _))))
      exact ⟨h, fun ind g0 => h 0 g0⟩
  | .STMT_EXPR E => by
      have h : ∀ (ind : Nat) (g0 : CCodeGenerator),
          FramedAt g0 (EmitStmt (.STMT_EXPR E) ind) := fun ind g0 => by
        simpa only [EmitStmt] using
          framedAt_bind (framedAt_indent g0 .cbuf ind)
            (framedAt_bind (EmitExpr_framed E .cbuf g0) (framedAt_put g0 .cbuf _))
      exact ⟨h, fun ind g0 => h 0 g0⟩
  | .STMT_IF c t none => by
      have h : ∀ (ind : Nat) (g0 : CCodeGenerator),
          FramedAt g0 (EmitStmt (.STMT_IF c t none) ind) := fun ind g0 => by
        simpa only [EmitStmt] using
          framedAt_bind (framedAt_indent g0 .cbuf ind)
            (framedAt_bind (framedAt_put g0 .cbuf _)
              (framedAt_bind (EmitExpr_framed c .cbuf g0)
                (framedAt_bind (framedAt_put g0 .cbuf _) ((EmitStmt_framed t).1 ind g0))))
      exact ⟨h, fun ind g0 => h 0 g0⟩
  | .STMT_IF c t (some e) => by
      have h : ∀ (ind : Nat) (g0 : CCodeGenerator),
          FramedAt g0 (EmitStmt (.STMT_IF c t (some e)) ind) := fun ind g0 => by
        simpa only [EmitStmt] using
          framedAt_bind (framedAt_indent g0 .cbuf ind)
            (framedAt_bind (framedAt_put g0 .cbuf _)
              (framedAt_bind (EmitExpr_framed c .cbuf g0)
                (framedAt_bind (framedAt_put g0 .cbuf _)
                  (framedAt_bind ((EmitStmt_framed t).1 ind g0)
                    (framedAt_bind (framedAt_indent g0 .cbuf ind)
                      (framedAt_bind (framedAt_put g0 .cbuf _)
                        ((EmitStmt_framed e).1 ind g0)))))))
      exact ⟨h, fun ind g0 => h 0 g0⟩
  | .STMT_WHILE c b => by
      have ihb := (EmitStmt_framed b).2
      have h : ∀ (ind : Nat) (g0 : CCodeGenerator),
          FramedAt g0 (EmitStmt (.STMT_WHILE c b) ind) := fun ind g0 => by
        rw [EmitStmt_while_eq]
        exact framedAt_bind (framedAt_indent g0 .cbuf ind)
          (framedAt_bind (framedAt_put g0 .cbuf _)
            (framedAt_castExpr c (fun E =>
              framedAt_bind (EmitExpr_framed E .cbuf g0)
                (framedAt_bind (framedAt_put g0 .cbuf _) (ihb ind g0)))))
      exact ⟨h, fun ind g0 => h 0 g0⟩
  | .STMT_DO c b => by
      have ihb := (EmitStmt_framed b).2
      have h : ∀ (ind : Nat) (g0 : CCodeGenerator),
          FramedAt g0 (EmitStmt (.STMT_DO c b) ind) := fun ind g0 => by
        rw [EmitStmt_do_eq]
        exact framedAt_bind (framedAt_indent g0 .cbuf ind)
          (framedAt_bind (framedAt_put g0 .cbuf _)
            (framedAt_bind (ihb ind g0)
              (framedAt_bind (framedAt_indent g0 .cbuf ind)
                (framedAt_bind (framedAt_put g0 .cbuf _)
                  (framedAt_castExpr c (fun E =>
                    framedAt_bind (EmitExpr_framed E .cbuf g0) (framedAt_put g0 .cbuf _)))))))
      exact ⟨h, fun ind g0 => h 0 g0⟩
  | .STMT_FOR i c n b => by
      have ihb := (EmitStmt_framed b).2
      have h : ∀ (ind : Nat) (g0 : CCodeGenerator),
          FramedAt g0 (EmitStmt (.STMT_FOR i c n b) ind) := fun ind g0 => by
        rw [EmitStmt_for_eq]
        exact framedAt_bind (framedAt_indent g0 .cbuf ind)
          (framedAt_bind (framedAt_put g0 .cbuf _)
            (framedAt_bind (framedAt_EmitForInit g0 i)
              (framedAt_bind (framedAt_put g0 .cbuf _)
                (framedAt_bind (framedAt_EmitForPart g0 c)
                  (framedAt_bind (framedAt_put g0 .cbuf _)
                    (framedAt_bind (framedAt_EmitForPart g0 n)
                      (framedAt_bind (framedAt_put g0 .cbuf _) (ihb ind g0))))))))
      exact ⟨h, fun ind g0 => h 0 g0⟩
  | .STMT_SWITCH c cs => by
      have h : ∀ (ind : Nat) (g0 : CCodeGenerator),
          FramedAt g0 (EmitStmt (.STMT_SWITCH c cs) ind) := fun ind g0 => by
        simpa only [EmitStmt] using
          framedAt_bind (framedAt_indent g0 .cbuf ind)
            (framedAt_bind (framedAt_put g0 .cbuf _)
              (framedAt_bind (EmitExpr_framed c .cbuf g0)
                (framedAt_bind (framedAt_put g0 .cbuf _)
                  (framedAt_bind (EmitSwitchCases_framed cs ind g0)
                    (framedAt_bind (framedAt_indent g0 .cbuf ind) (framedAt_put g0 .cbuf _))))))
      exact ⟨h, fun ind g0 => h 0 g0⟩
  | .STMT_CASE c ss => by
      have h : ∀ (ind : Nat) (g0 : CCodeGenerator),
          FramedAt g0 (EmitStmt (.STMT_CASE c ss) ind) := fun ind g0 => by
        simpa only [EmitStmt] using framedAt_error g0 _
      exact ⟨h, fun ind g0 => h 0 g0⟩
  | .STMT_DEFAULT ss => by
      have h : ∀ (ind : Nat) (g0 : CCodeGenerator),
          FramedAt g0 (EmitStmt (.STMT_DEFAULT ss) ind) := fun ind g0 => by
        simpa only [EmitStmt] using framedAt_error g0 _
      exact ⟨h, fun ind g0 => h 0 g0⟩
  | .STMT_BREAK => by
      have h : ∀ (ind : Nat) (g0 : CCodeGenerator),
          FramedAt g0 (EmitStmt .STMT_BREAK ind) := fun ind g0 => by
        simpa only [EmitStmt] using
          framedAt_bind (framedAt_indent g0 .cbuf ind) (framedAt_put g0 .cbuf _)
      exact ⟨h, fun ind g0 => h 0 g0⟩
  | .STMT_CONTINUE => by
      have h : ∀ (ind : Nat) (g0 : CCodeGenerator),
          FramedAt g0 (EmitStmt .STMT_CONTINUE ind) := fun ind g0 => by
        simpa only [EmitStmt] using
          framedAt_bind (framedAt_indent g0 .cbuf ind) (framedAt_put g0 .cbuf _)
      exact ⟨h, fun ind g0 => h 0 g0⟩
  | .STMT_LABEL name sub => by
      have h : ∀ (ind : Nat) (g0 : CCodeGenerator),
          FramedAt g0 (EmitStmt (.STMT_LABEL name sub) ind) := fun ind g0 => by
        simpa only [EmitStmt] using
          framedAt_bind (framedAt_put g0 .cbuf _)
            (framedAt_bind (framedAt_put g0 .cbuf _) ((EmitStmt_framed sub).1 ind g0))
      exact ⟨h, fun ind g0 => h 0 g0⟩
  | .STMT_GOTO name => by
      have h : ∀ (ind : Nat) (g0 : CCodeGenerator),
          FramedAt g0 (EmitStmt (.STMT_GOTO name) ind) := fun ind g0 => by
        simpa only [EmitStmt] using
          framedAt_bind (framedAt_indent g0 .cbuf ind)
            (framedAt_bind (framedAt_put g0 .cbuf _)
              (framedAt_bind (framedAt_put g0 .cbuf _) (framedAt_put g0 .cbuf _)))
      exact ⟨h, fun ind g0 => h 0 g0⟩
  | .STMT_COMPOUND C => by
      refine ⟨fun ind g0 => ?_, fun ind g0 => EmitCompoundStmt_framed C ind false g0⟩
      simpa only [EmitStmt] using EmitCompoundStmt_framed C ind true g0
theorem EmitCompoundStmt_framed : ∀ (C : CompoundStmt) (ind : Nat) (startOnNewLine : Bool)
    (g0 : CCodeGenerator), FramedAt g0 (EmitCompoundStmt C ind startOnNewLine)
  | .mk ss, ind, b, g0 => by
      simpa only [EmitCompoundStmt] using
        framedAt_bind (framedAt_ite _ (framedAt_indent g0 .cbuf ind) (framedAt_pure g0))
          (framedAt_bind (framedAt_put g0 .cbuf _)
            (framedAt_bind (EmitStmts_framed ss (ind + INDENT) g0)
              (framedAt_bind (framedAt_indent g0 .cbuf ind) (framedAt_put g0 .cbuf _))))
theorem EmitStmts_framed : ∀ (ss : List Stmt) (ind : Nat) (g0 : CCodeGenerator),
    FramedAt g0 (EmitStmts ss ind)
  | [], ind, g0 => by simpa only [EmitStmts] using framedAt_ok g0
  | S :: rest, ind, g0 => by
      simpa only [EmitStmts] using
        framedAt_bind ((EmitStmt_framed S).1 ind g0) (EmitStmts_framed rest ind g0)
theorem EmitSwitchCases_framed : ∀ (cs : List Stmt) (ind : Nat) (g0 : CCodeGenerator),
    FramedAt g0 (EmitSwitchCases cs ind)
  | [], ind, g0 => by simpa only [EmitSwitchCases] using framedAt_ok g0
  | .STMT_CASE c ss :: rest, ind, g0 => by
      simpa only [EmitSwitchCases] using
        framedAt_bind (framedAt_indent g0 .cbuf (ind + INDENT))
          (framedAt_bind (framedAt_put g0 .cbuf _)
            (framedAt_bind (EmitExpr_framed c .cbuf g0)
              (framedAt_bind (framedAt_put g0 .cbuf _)
                (framedAt_bind (EmitStmts_framed ss (ind + INDENT + INDENT) g0)
                  (EmitSwitchCases_framed rest ind g0)))))
  | .STMT_DEFAULT ss :: rest, ind, g0 => by
      simpa only [EmitSwitchCases] using
        framedAt_bind (framedAt_indent g0 .cbuf (ind + INDENT))
          (framedAt_bind (framedAt_put g0 .cbuf _)
            (framedAt_bind (EmitStmts_framed ss (ind + INDENT + INDENT) g0)
              (EmitSwitchCases_framed rest ind g0)))
  | .STMT_RETURN _ :: _, ind, g0 => by
      simpa only [EmitSwitchCases] using framedAt_error g0 _
  | .STMT_EXPR _ :: _, ind, g0 => by
      simpa only [EmitSwitchCases] using framedAt_error g0 _
  | .STMT_IF _ _ _ :: _, ind, g0 => by
      simpa only [EmitSwitchCases] using framedAt_error g0 _
  | .STMT_WHILE _ _ :: _, ind, g0 => by
      simpa only [EmitSwitchCases] using framedAt_error g0 _
  | .STMT_DO _ _ :: _, ind, g0 => by
      simpa only [EmitSwitchCases] using framedAt_error g0 _
  | .STMT_FOR _ _ _ _ :: _, ind, g0 => by
      simpa only [EmitSwitchCases] using framedAt_error g0 _
  | .STMT_SWITCH _ _ :: _, ind, g0 => by
      simpa only [EmitSwitchCases] using framedAt_error g0 _
  | .STMT_BREAK :: _, ind, g0 => by
      simpa only [EmitSwitchCases] using framedAt_error g0 _
  | .STMT_CONTINUE :: _, ind, g0 => by
      simpa only [EmitSwitchCases] using framedAt_error g0 _
  | .STMT_LABEL _ _ :: _, ind, g0 => by
      simpa only [EmitSwitchCases] using framedAt_error g0 _
  | .STMT_GOTO _ :: _, ind, g0 => by
      simpa only [EmitSwitchCases] using framedAt_error g0 _
  | .STMT_COMPOUND _ :: _, ind, g0 => by
      simpa only [EmitSwitchCases] using framedAt_error g0 _
end

theorem framedAt_ite_dep {g0 : CCodeGenerator} (c : CCodeGenerator → Prop)
    [∀ g, Decidable (c g)] (hc : ∀ cb hb, c (g0.setBufs cb hb) ↔ c g0)
    {f k : CCodeGenerator → Emit} (hf : FramedAt g0 f) (hk : FramedAt g0 k) :
    FramedAt g0 (fun g => if c g then f g else k g) := by
  by_cases h : c g0
  · refine framedAt_congr (fun cb hb => ?_) hf
    simp only [(hc cb hb).2 h, if_true]
  · refine framedAt_congr (fun cb hb => ?_) hk
    have h' : ¬ c (g0.setBufs cb hb) := fun hh => h ((hc cb hb).1 hh)
    simp only [h', if_false]

theorem EmitProtoArgs_framed : ∀ (args : List DeclExpr) (count : Int) (output : Buf)
    (g0 : CCodeGenerator), FramedAt g0 (EmitProtoArgs args count output)
  | [], count, output, g0 => by simpa only [EmitProtoArgs] using framedAt_ok g0
  | A :: rest, count, output, g0 => by
      simpa only [EmitProtoArgs] using
        framedAt_bind (EmitDeclExpr_framed A output 0 g0)
          (framedAt_bind (framedAt_ite _ (framedAt_put g0 output _) (framedAt_pure g0))
            (EmitProtoArgs_framed rest (count - 1) output g0))

theorem EmitFunctionProto_framed (F : FunctionDecl) (output : Buf) (g0 : CCodeGenerator) :
    FramedAt g0 (EmitFunctionProto F output) :=
  framedAt_bind
    (framedAt_ite_dep (fun g => g.mode = .SINGLE_FILE ∧ F.name ≠ "main") (fun _ _ => Iff.rfl)
      (framedAt_put g0 output _) (framedAt_pure g0))
    (framedAt_bind (EmitTypePreName_framed F.returnType output g0)
      (framedAt_bind (EmitTypePostName_framed F.returnType output g0)
        (framedAt_bind (framedAt_put g0 output _)
          (framedAt_bind (framedAt_addCurpkgName g0 F.name output)
            (framedAt_bind (framedAt_put g0 output _)
              (framedAt_bind (EmitProtoArgs_framed F.args _ output g0)
                (framedAt_bind (framedAt_ite _ (framedAt_put g0 output _) (framedAt_pure g0))
                  (framedAt_put g0 output _))))))))

theorem EmitFunction_framed (F : FunctionDecl) (g0 : CCodeGenerator) :
    FramedAt g0 (EmitFunction F) :=
  framedAt_bind
    (framedAt_ite_dep (fun g => g.mode = .SINGLE_FILE) (fun _ _ => Iff.rfl)
      (framedAt_bind (EmitFunctionProto_framed F .hbuf g0) (framedAt_put g0 .hbuf _))
      (framedAt_ite _
        (framedAt_bind (EmitFunctionProto_framed F .hbuf g0) (framedAt_put g0 .hbuf _))
        (framedAt_put g0 .cbuf _)))
    (framedAt_bind (EmitFunctionProto_framed F .cbuf g0)
      (framedAt_bind (framedAt_put g0 .cbuf _)
        (framedAt_bind (EmitCompoundStmt_framed F.body 0 false g0) (framedAt_put g0 .cbuf _))))

theorem EmitIncrValues_framed : ∀ (vs : List ArrayValueDecl) (g0 : CCodeGenerator),
    FramedAt g0 (EmitIncrValues vs)
  | [], g0 => by simpa only [EmitIncrValues] using framedAt_ok g0
  | E :: rest, g0 => by
      simpa only [EmitIncrValues] using
        framedAt_bind (framedAt_indent g0 .cbuf INDENT)
          (framedAt_bind (EmitExpr_framed E.expr .cbuf g0)
            (framedAt_bind (framedAt_put g0 .cbuf _) (EmitIncrValues_framed rest g0)))

theorem EmitVariable_framed (V : VarDecl) (g0 : CCodeGenerator) :
    FramedAt g0 (EmitVariable V) := by
  obtain ⟨name, pub, ty, init, incr⟩ := V
  have hinit : FramedAt g0 (fun g => (match init with
      | some initValue => do
          let g ← put .cbuf " = " g
          EmitExpr initValue .cbuf g
      | none => pure g : Emit)) := by
    cases init with
    | none => exact framedAt_pure g0
    | some e => exact framedAt_bind (framedAt_put g0 .cbuf _) (EmitExpr_framed e .cbuf g0)
  cases init <;>
  exact framedAt_bind
    (framedAt_ite_dep (fun g => pub = true ∧ g.mode ≠ .SINGLE_FILE) (fun _ _ => Iff.rfl)
      (framedAt_bind (framedAt_put g0 .hbuf _)
        (framedAt_bind (EmitTypePreName_framed ty .hbuf g0)
          (framedAt_bind (framedAt_put g0 .hbuf _)
            (framedAt_bind (framedAt_addCurpkgName g0 name .hbuf)
              (framedAt_bind (EmitTypePostName_framed ty .hbuf g0)
                (framedAt_bind (framedAt_put g0 .hbuf _) (framedAt_put g0 .hbuf _)))))))
      (framedAt_put g0 .cbuf _))
    (framedAt_bind (EmitTypePreName_framed ty .cbuf g0)
      (framedAt_bind (framedAt_put g0 .cbuf _)
        (framedAt_bind (framedAt_addCurpkgName g0 name .cbuf)
          (framedAt_bind (EmitTypePostName_framed ty .cbuf g0)
            (framedAt_bind hinit
              (framedAt_bind
                (framedAt_ite _
                  (framedAt_bind (framedAt_put g0 .cbuf _)
                    (framedAt_bind (EmitIncrValues_framed incr g0) (framedAt_put g0 .cbuf _)))
                  (framedAt_pure g0))
                (framedAt_bind (framedAt_put g0 .cbuf _) (framedAt_put g0 .cbuf _))))))))

theorem EmitType_framed (T : TypeDecl) (g0 : CCodeGenerator) : FramedAt g0 (EmitType T) :=
  framedAt_bind (framedAt_put g0 _ _)
    (framedAt_bind (EmitTypePreName_framed T.type _ g0)
      (framedAt_bind (EmitTypePostName_framed T.type _ g0)
        (framedAt_bind (framedAt_put g0 _ _)
          (framedAt_bind (framedAt_addCurpkgName g0 T.name _)
            (framedAt_bind (framedAt_put g0 _ _) (framedAt_put g0 _ _))))))

theorem EmitUse_framed (D : Decl) (g0 : CCodeGenerator) : FramedAt g0 (EmitUse D) := by
  cases h : g0.pkgs.lookup D.getName with
  | none =>
    refine framedAt_congr (fun cb hb => ?_) (framedAt_error g0 (.assertion "iter != pkgs.end()"))
    simp [EmitUse, setBufs, h]
  | some P =>
    refine framedAt_congr_to
      (fun g => if g.mode = .MULTI_FILE ∨ P.isPlainC = true then
          put .cbuf "#include " g >>= fun g =>
            (if P.isPlainC then put .cbuf "<" g else put .cbuf "\"" g) >>= fun g =>
              put .cbuf D.getName g >>= fun g => put .cbuf ".h" g >>= fun g =>
                (if P.isPlainC then put .cbuf ">" g else put .cbuf "'" g) >>= fun g =>
                  put .cbuf "\n" g
        else pure g) (fun cb hb => ?_) ?_
    · simp only [EmitUse, setBufs, h]
    · exact framedAt_ite_dep (fun g => g.mode = .MULTI_FILE ∨ P.isPlainC = true)
        (fun _ _ => Iff.rfl)
        (framedAt_bind (framedAt_put g0 .cbuf _)
          (framedAt_bind (framedAt_ite _ (framedAt_put g0 .cbuf _) (framedAt_put g0 .cbuf _))
            (framedAt_bind (framedAt_put g0 .cbuf _)
              (framedAt_bind (framedAt_put g0 .cbuf _)
                (framedAt_bind
                  (framedAt_ite _ (framedAt_put g0 .cbuf _) (framedAt_put g0 .cbuf _))
                  (framedAt_put g0 .cbuf _))))))
        (framedAt_pure g0)

theorem generateDecl_framed (D : Decl) (g0 : CCodeGenerator) :
    FramedAt g0 (generateDecl D) := by
  cases D with
  | DECL_FUNC F => exact EmitFunction_framed F g0
  | DECL_VAR V => exact EmitVariable_framed V g0
  | DECL_ENUMVALUE n => exact framedAt_error g0 _
  | DECL_TYPE T => exact EmitType_framed T g0
  | DECL_ARRAYVALUE A => exact framedAt_pure g0
  | DECL_USE n => exact framedAt_pure g0

theorem framedAt_run {g0 : CCodeGenerator} {f : CCodeGenerator → Emit} (hf : FramedAt g0 f)
    (cb hb : String) :
    f (g0.setBufs cb hb) =
      (outOf f g0).map (fun d => g0.setBufs (cb ++ d.1) (hb ++ d.2)) := by
  obtain ⟨r, hr⟩ := hf
  have h0 : outOf f g0 = r := by
    unfold outOf
    rw [hr "" ""]
    cases r with
    | error e => rfl
    | ok d =>
      obtain ⟨c, h⟩ := d
      simp [Except.map, setBufs, String.empty_append]
  rw [h0, hr]

theorem framedAt_run_ok {g0 : CCodeGenerator} {f : CCodeGenerator → Emit}
    (hf : FramedAt g0 f) (cb hb : String) {g' : CCodeGenerator}
    (h : f (g0.setBufs cb hb) = .ok g') :
    ∃ d, outOf f g0 = .ok d ∧ g' = g0.setBufs (cb ++ d.1) (hb ++ d.2) := by
  rw [framedAt_run hf] at h
  cases h0 : outOf f g0 with
  | error e => rw [h0] at h; cases h
  | ok d =>
    rw [h0] at h
    simp only [Except.map, Except.ok.injEq] at h
    exact ⟨d, rfl, h.symm⟩

theorem outOf_bind {g0 : CCodeGenerator} {f k : CCodeGenerator → Emit}
    (hf : FramedAt g0 f) (hk : FramedAt g0 k) :
    outOf (fun g => f g >>= k) g0 =
      (outOf f g0 >>= fun a => outOf k g0 >>= fun b => pure (a.1 ++ b.1, a.2 ++ b.2)) := by
  show Except.map _ (f (g0.setBufs "" "") >>= k) = _
  rw [framedAt_run hf]
  cases outOf f g0 with
  | error e => rfl
  | ok a =>
    show Except.map _ (k (g0.setBufs ("" ++ a.1) ("" ++ a.2))) = _
    rw [framedAt_run hk]
    cases outOf k g0 with
    | error e => rfl
    | ok b =>
      show Except.ok _ = Except.ok _
      simp [setBufs, String.empty_append]

theorem outOf_bind_ok {g0 : CCodeGenerator} {f k : CCodeGenerator → Emit}
    (hf : FramedAt g0 f) (hk : FramedAt g0 k) {d : String × String}
    (h : outOf (fun g => f g >>= k) g0 = .ok d) :
    ∃ a b, outOf f g0 = .ok a ∧ outOf k g0 = .ok b ∧ d = (a.1 ++ b.1, a.2 ++ b.2) := by
  rw [outOf_bind hf hk] at h
  cases ha : outOf f g0 with
  | error e => rw [ha] at h; cases h
  | ok a =>
    cases hb : outOf k g0 with
    | error e => rw [ha, hb] at h; cases h
    | ok b =>
      rw [ha, hb] at h
      refine ⟨a, b, rfl, rfl, ?_⟩
      cases h
      rfl

theorem outOf_put (g0 : CCodeGenerator) (output : Buf) (text : String) :
    outOf (put output text) g0 =
      .ok (match output with
        | .cbuf => (text, "")
        | .hbuf => ("", text)) := by
  cases output <;> simp [outOf, put, setBufs, Except.map, String.empty_append]

theorem outOf_ok (g0 : CCodeGenerator) : outOf (fun g => (Except.ok g : Emit)) g0 = .ok ("", "") :=
  rfl

theorem generateUse_framed (D : Decl) (g0 : CCodeGenerator) :
    FramedAt g0 (generateUse D) := by
  cases D <;> first | exact framedAt_pure g0 | exact EmitUse_framed _ g0

theorem generateUses_framed : ∀ (decls : List Decl) (g0 : CCodeGenerator),
    FramedAt g0 (generateUses decls)
  | [], g0 => by simpa only [generateUses] using framedAt_ok g0
  | D :: rest, g0 => by
      simpa only [generateUses] using
        framedAt_bind (generateUse_framed D g0) (generateUses_framed rest g0)

theorem generateDecls_framed : ∀ (decls : List Decl) (g0 : CCodeGenerator),
    FramedAt g0 (generateDecls decls)
  | [], g0 => by simpa only [generateDecls] using framedAt_ok g0
  | D :: rest, g0 => by
      simpa only [generateDecls] using
        framedAt_bind (generateDecl_framed D g0) (generateDecls_framed rest g0)

theorem cText_generateDecl (g : CCodeGenerator) (pkgName : String) (D : Decl) :
    cText (outOf (generateDecl D) (inPackage g pkgName)) = declText g pkgName D := by
  cases D <;> rfl

theorem outOf_generateDecls : ∀ (decls : List Decl) (g : CCodeGenerator) (pkgName : String)
    (d : String × String), outOf (generateDecls decls) (inPackage g pkgName) = .ok d →
    d.1 = concatText (decls.map (declText g pkgName))
  | [], g, pkgName, d, h => by
      cases h
      rfl
  | D :: rest, g, pkgName, d, h => by
      have hb : generateDecls (D :: rest) =
          fun g => generateDecl D g >>= generateDecls rest := by
        funext g; simp only [generateDecls]
      rw [hb] at h
      obtain ⟨a, b, ha, hb', hd⟩ :=
        outOf_bind_ok (generateDecl_framed D _) (generateDecls_framed rest _) h
      rw [hd]
      show a.1 ++ b.1 = declText g pkgName D ++ concatText (rest.map (declText g pkgName))
      rw [← outOf_generateDecls rest g pkgName b hb', ← cText_generateDecl, ha]
      rfl

theorem cText_generateUse (g : CCodeGenerator) (pkgName : String) (D : Decl) :
    cText (outOf (generateUse D) (inPackage g pkgName)) = importText g pkgName D := by
  cases D <;> rfl

theorem outOf_generateUses : ∀ (decls : List Decl) (g : CCodeGenerator) (pkgName : String)
    (d : String × String), outOf (generateUses decls) (inPackage g pkgName) = .ok d →
    d.1 = concatText (decls.map (importText g pkgName))
  | [], g, pkgName, d, h => by
      cases h
      rfl
  | D :: rest, g, pkgName, d, h => by
      have hb : generateUses (D :: rest) =
          fun g => generateUse D g >>= generateUses rest := by
        funext g; simp only [generateUses]
      rw [hb] at h
      obtain ⟨a, b, ha, hb', hd⟩ :=
        outOf_bind_ok (generateUse_framed D _) (generateUses_framed rest _) h
      rw [hd]
      show a.1 ++ b.1 = importText g pkgName D ++ concatText (rest.map (importText g pkgName))
      rw [← outOf_generateUses rest g pkgName b hb', ← cText_generateUse, ha]
      rfl

theorem emit_bind_ok {x : Emit} {k : CCodeGenerator → Emit} {g' : CCodeGenerator}
    (h : (x >>= k) = .ok g') : ∃ g1, x = .ok g1 ∧ k g1 = .ok g' := by
  cases x with
  | error e => cases h
  | ok g1 => exact ⟨g1, rfl, h⟩

theorem generateEntries_run : ∀ (es : List Entry) (g0 : CCodeGenerator) (x : Option String)
    (cb hb : String) (g' : CCodeGenerator),
    generateEntries es ((withCurpkg g0 x).setBufs cb hb) = .ok g' →
    ∃ H p, g' = (withCurpkg g0 p).setBufs
      (cb ++ concatText (es.map fun e =>
        concatText (e.ast.decls.map (declText g0 e.ast.pkgName)))) (hb ++ H)
  | [], g0, x, cb, hb, g', h => by
      simp only [generateEntries, Except.ok.injEq] at h
      refine ⟨"", x, ?_⟩
      rw [← h]
      simp [concatText, String.append_empty]
  | e :: rest, g0, x, cb, hb, g', h => by
      simp only [generateEntries] at h
      obtain ⟨g1, h1, h2⟩ := emit_bind_ok h
      obtain ⟨d, hd, hg1⟩ :=
        framedAt_run_ok (generateDecls_framed e.ast.decls (inPackage g0 e.ast.pkgName)) cb hb h1
      have hd1 := outOf_generateDecls e.ast.decls g0 e.ast.pkgName d hd
      subst hg1
      obtain ⟨H, p, hg'⟩ := generateEntries_run rest g0 none (cb ++ d.1) (hb ++ d.2) g' h2
      refine ⟨d.2 ++ H, p, ?_⟩
      rw [hg', hd1]
      simp [concatText, String.append_assoc]

theorem generateIncludes_run : ∀ (es : List Entry) (g0 : CCodeGenerator) (x : Option String)
    (cb hb : String) (g' : CCodeGenerator),
    generateIncludes es ((withCurpkg g0 x).setBufs cb hb) = .ok g' →
    ∃ H p, g' = (withCurpkg g0 p).setBufs
      (cb ++ concatText (es.map fun e =>
        concatText (e.ast.decls.map (importText g0 e.ast.pkgName)))) (hb ++ H)
  | [], g0, x, cb, hb, g', h => by
      simp only [generateIncludes, Except.ok.injEq] at h
      refine ⟨"", x, ?_⟩
      rw [← h]
      simp [concatText, String.append_empty]
  | e :: rest, g0, x, cb, hb, g', h => by
      simp only [generateIncludes] at h
      obtain ⟨g1, h1, h2⟩ := emit_bind_ok h
      obtain ⟨d, hd, hg1⟩ :=
        framedAt_run_ok (generateUses_framed e.ast.decls (inPackage g0 e.ast.pkgName)) cb hb h1
      have hd1 := outOf_generateUses e.ast.decls g0 e.ast.pkgName d hd
      subst hg1
      obtain ⟨H, p, hg'⟩ := generateIncludes_run rest g0 none (cb ++ d.1) (hb ++ d.2) g' h2
      refine ⟨d.2 ++ H, p, ?_⟩
      rw [hg', hd1]
      simp [concatText, String.append_assoc]

theorem generate_run (g g' : CCodeGenerator) (h : generate g = .ok g') :
    ∃ H1 H2,
      g'.cbuf = g.cbuf ++ firstPassText g ++ "#include \"" ++ g.hfilename ++ "\"\n" ++ "\n" ++
        secondPassText g ∧
      g'.hbuf = g.hbuf ++ "#ifndef " ++ upper g.filename ++ "_H\n" ++ "#define " ++
        upper g.filename ++ "_H\n" ++ "\n" ++ H1 ++ H2 ++ "#endif\n" := by
  simp only [generate, put, Utils.toCapital, emit_ok_bind] at h
  obtain ⟨g1, h1, h⟩ := emit_bind_ok h
  obtain ⟨H1, p1, hg1⟩ := generateIncludes_run g.entries g g.curpkg g.cbuf _ g1 h1
  subst hg1
  obtain ⟨g2, h2, h⟩ := emit_bind_ok h
  obtain ⟨H2, p2, hg2⟩ := generateEntries_run g.entries g p1 _ _ g2 h2
  subst hg2
  simp only [Except.ok.injEq] at h
  subst h
  exact ⟨H1, H2, rfl, rfl⟩

theorem cbufOnly_put (g0 : CCodeGenerator) (text : String) :
    CbufOnly g0 (put .cbuf text) :=
  ⟨.ok text, fun cb hb => by simp [put, setBufs, Except.map]⟩

theorem cbufOnly_indent (g0 : CCodeGenerator) (num : Nat) :
    CbufOnly g0 (indent .cbuf num) :=
  cbufOnly_put g0 _

theorem cbufOnly_ok (g0 : CCodeGenerator) : CbufOnly g0 (fun g => Except.ok g) :=
  ⟨.ok "", fun cb hb => by simp [Except.map, String.append_empty]⟩

theorem cbufOnly_pure (g0 : CCodeGenerator) : CbufOnly g0 (fun g => (pure g : Emit)) :=
  cbufOnly_ok g0

theorem cbufOnly_error (g0 : CCodeGenerator) (e : EmitError) :
    CbufOnly g0 (fun _ => (Except.error e : Emit)) :=
  ⟨.error e, fun cb hb => by simp [Except.map]⟩

theorem cbufOnly_bind {g0 : CCodeGenerator} {f k : CCodeGenerator → Emit}
    (hf : CbufOnly g0 f) (hk : CbufOnly g0 k) : CbufOnly g0 (fun g => f g >>= k) := by
  obtain ⟨r1, h1⟩ := hf
  obtain ⟨r2, h2⟩ := hk
  refine ⟨(do let a ← r1; let b ← r2; pure (a ++ b)), fun cb hb => ?_⟩
  show f (g0.setBufs cb hb) >>= k = _
  rw [h1 cb hb]
  cases r1 with
  | error e => rfl
  | ok a =>
    simp only [Except.map, emit_ok_bind]
    rw [h2]
    cases r2 with
    | error e => rfl
    | ok b =>
      show Except.ok _ = Except.ok _
      simp only [String.append_assoc]

theorem cbufOnly_ite {g0 : CCodeGenerator} (c : Prop) [Decidable c]
    {f k : CCodeGenerator → Emit} (hf : CbufOnly g0 f) (hk : CbufOnly g0 k) :
    CbufOnly g0 (fun g => if c then f g else k g) := by
  by_cases h : c
  · simpa only [h, if_true] using hf
  · simpa only [h, if_false] using hk

theorem cbufOnly_congr {g0 : CCodeGenerator} {f k : CCodeGenerator → Emit}
    (h : ∀ cb hb, f (g0.setBufs cb hb) = k (g0.setBufs cb hb)) (hk : CbufOnly g0 k) :
    CbufOnly g0 f := by
  obtain ⟨r, hr⟩ := hk
  exact ⟨r, fun cb hb => by rw [h, hr]⟩

theorem cbufOnly_ite_dep {g0 : CCodeGenerator} (c : CCodeGenerator → Prop)
    [∀ g, Decidable (c g)] (hc : ∀ cb hb, c (g0.setBufs cb hb) ↔ c g0)
    {f k : CCodeGenerator → Emit} (hf : CbufOnly g0 f) (hk : CbufOnly g0 k) :
    CbufOnly g0 (fun g => if c g then f g else k g) := by
  by_cases h : c g0
  · refine cbufOnly_congr (fun cb hb => ?_) hf
    simp only [(hc cb hb).2 h, if_true]
  · refine cbufOnly_congr (fun cb hb => ?_) hk
    have h' : ¬ c (g0.setBufs cb hb) := fun hh => h ((hc cb hb).1 hh)
    simp only [h', if_false]

theorem cbufOnly_addName (g0 : CCodeGenerator) (pkgName name : String) :
    CbufOnly g0 (Utils.addName pkgName name .cbuf) :=
  cbufOnly_put g0 _

theorem cbufOnly_addCurpkgName (g0 : CCodeGenerator) (name : String) :
    CbufOnly g0 (addCurpkgName name .cbuf) := by
  cases h : g0.curpkg with
  | none =>
    refine cbufOnly_congr (fun cb hb => ?_) (cbufOnly_error g0 .nullCurpkg)
    simp [addCurpkgName, setBufs, h]
  | some p =>
    refine cbufOnly_congr (fun cb hb => ?_) (cbufOnly_addName g0 p name)
    simp [addCurpkgName, setBufs, h]

theorem cbufOnly_EmitIdentifierExpr (g0 : CCodeGenerator) (I : IdentifierExpr) :
    CbufOnly g0 (EmitIdentifierExpr I .cbuf) := by
  obtain ⟨name, pkg⟩ := I
  cases pkg with
  | none => exact cbufOnly_put g0 name
  | some P => exact cbufOnly_addName g0 P.cname name

theorem cbufOnly_castExpr {g0 : CCodeGenerator} (S : Stmt) {k : Expr → CCodeGenerator → Emit}
    (hk : ∀ E, CbufOnly g0 (k E)) : CbufOnly g0 (fun g => castExpr S >>= fun E => k E g) := by
  cases h : castExpr S with
  | error e => exact cbufOnly_error g0 e
  | ok E => exact hk E

mutual
theorem EmitExpr_cbufOnly : ∀ (E : Expr) (g0 : CCodeGenerator),
    CbufOnly g0 (EmitExpr E .cbuf)
  | .EXPR_NUMBER v, g0 => by
      simpa only [EmitExpr] using cbufOnly_put g0 _
  | .EXPR_STRING v, g0 => by
      simpa only [EmitExpr] using
        cbufOnly_bind (cbufOnly_put g0 _)
          (cbufOnly_bind (cbufOnly_put g0 _) (cbufOnly_put g0 _))
  | .EXPR_BOOL v, g0 => by
      simpa only [EmitExpr] using cbufOnly_put g0 _
  | .EXPR_CHARLITERAL v, g0 => by
      simpa only [EmitExpr] using
        cbufOnly_bind (cbufOnly_put g0 _)
          (cbufOnly_bind (cbufOnly_put g0 _) (cbufOnly_put g0 _))
  | .EXPR_CALL fn args, g0 => by
      simpa only [EmitExpr] using
        cbufOnly_bind (EmitExpr_cbufOnly fn g0)
          (cbufOnly_bind (cbufOnly_put g0 _)
            (cbufOnly_bind (EmitCallArgs_cbufOnly args 0 g0) (cbufOnly_put g0 _)))
  | .EXPR_IDENTIFIER I, g0 => by
      simpa only [EmitExpr] using cbufOnly_EmitIdentifierExpr g0 I
  | .EXPR_INITLIST values, g0 => by
      simpa only [EmitExpr] using
        cbufOnly_bind (cbufOnly_put g0 _)
          (cbufOnly_bind (EmitInitListValues_cbufOnly values 0 g0)
            (cbufOnly_put g0 _))
  | .EXPR_TYPE t, g0 => by
      simpa only [EmitExpr] using
        cbufOnly_bind (EmitTypePreName_cbufOnly t g0) (EmitTypePostName_cbufOnly t g0)
  | .EXPR_DECL D, g0 => by
      simpa only [EmitExpr] using EmitDeclExpr_cbufOnly D 0 g0
  | .EXPR_BINOP l op r, g0 => by
      simpa only [EmitExpr] using
        cbufOnly_bind (EmitExpr_cbufOnly l g0)
          (cbufOnly_bind (cbufOnly_put g0 _)
            (cbufOnly_bind (cbufOnly_put g0 _)
              (cbufOnly_bind (cbufOnly_put g0 _) (EmitExpr_cbufOnly r g0))))
  | .EXPR_CONDOP c l r, g0 => by
      simpa only [EmitExpr] using
        cbufOnly_bind (EmitExpr_cbufOnly c g0)
          (cbufOnly_bind (cbufOnly_put g0 _)
            (cbufOnly_bind (EmitExpr_cbufOnly l g0)
              (cbufOnly_bind (cbufOnly_put g0 _) (EmitExpr_cbufOnly r g0))))
  | .EXPR_UNARYOP op e, g0 => by
      have ih := EmitExpr_cbufOnly e g0
      cases op <;>
        first
        | (simpa only [EmitExpr] using cbufOnly_bind ih (cbufOnly_put g0 _))
        | (simpa only [EmitExpr] using cbufOnly_bind (cbufOnly_put g0 _) ih)
        | (simpa only [EmitExpr] using cbufOnly_error g0 _)
  | .EXPR_SIZEOF e, g0 => by
      simpa only [EmitExpr] using
        cbufOnly_bind (cbufOnly_put g0 _)
          (cbufOnly_bind (EmitExpr_cbufOnly e g0) (cbufOnly_put g0 _))
  | .EXPR_ARRAYSUBSCRIPT b i, g0 => by
      simpa only [EmitExpr] using
        cbufOnly_bind (EmitExpr_cbufOnly b g0)
          (cbufOnly_bind (cbufOnly_put g0 _)
            (cbufOnly_bind (EmitExpr_cbufOnly i g0) (cbufOnly_put g0 _)))
  | .EXPR_MEMBER b m arrow, g0 => by
      have ih := EmitExpr_cbufOnly b g0
      obtain ⟨name, pkg⟩ := m
      cases pkg with
      | none =>
        simpa only [EmitExpr] using
          cbufOnly_bind ih
            (cbufOnly_bind (cbufOnly_ite (arrow = true) (cbufOnly_put g0 _) (cbufOnly_put g0 _))
              (cbufOnly_put g0 _))
      | some P =>
        simpa only [EmitExpr] using cbufOnly_EmitIdentifierExpr g0 ⟨name, some P⟩
  | .EXPR_PAREN e, g0 => by
      simpa only [EmitExpr] using
        cbufOnly_bind (cbufOnly_put g0 _)
          (cbufOnly_bind (EmitExpr_cbufOnly e g0) (cbufOnly_put g0 _))
theorem EmitCallArgs_cbufOnly : ∀ (args : List Expr) (i : Nat) (g0 : CCodeGenerator), CbufOnly g0 (EmitCallArgs args i .cbuf)
  | [], i, g0 => by simpa only [EmitCallArgs] using cbufOnly_ok g0
  | a :: rest, i, g0 => by
      simpa only [EmitCallArgs] using
        cbufOnly_bind (cbufOnly_ite _ (cbufOnly_put g0 _) (cbufOnly_pure g0))
          (cbufOnly_bind (EmitExpr_cbufOnly a g0)
            (EmitCallArgs_cbufOnly rest (i + 1) g0))
theorem EmitInitListValues_cbufOnly : ∀ (values : List Expr) (i : Nat) (g0 : CCodeGenerator), CbufOnly g0 (EmitInitListValues values i .cbuf)
  | [], i, g0 => by simpa only [EmitInitListValues] using cbufOnly_ok g0
  | v :: rest, i, g0 => by
      simpa only [EmitInitListValues] using
        cbufOnly_bind (cbufOnly_ite _ (cbufOnly_put g0 _) (cbufOnly_pure g0))
          (cbufOnly_bind (EmitExpr_cbufOnly v g0)
            (cbufOnly_bind (cbufOnly_ite _ (cbufOnly_put g0 _) (cbufOnly_pure g0))
              (cbufOnly_bind (cbufOnly_ite _ (cbufOnly_put g0 _) (cbufOnly_pure g0))
                (EmitInitListValues_cbufOnly rest (i + 1) g0))))
theorem EmitDeclExpr_cbufOnly : ∀ (D : DeclExpr) (ind : Nat)
    (g0 : CCodeGenerator), CbufOnly g0 (EmitDeclExpr D .cbuf ind)
  | .mk name t none loc, ind, g0 => by
      simpa only [EmitDeclExpr] using
        cbufOnly_bind (cbufOnly_indent g0 ind)
          (cbufOnly_bind (cbufOnly_ite _ (cbufOnly_put g0 _) (cbufOnly_pure g0))
            (cbufOnly_bind (EmitTypePreName_cbufOnly t g0)
              (cbufOnly_bind (cbufOnly_put g0 _)
                (cbufOnly_bind (cbufOnly_put g0 _)
                  (EmitTypePostName_cbufOnly t g0)))))
  | .mk name t (some init) loc, ind, g0 => by
      simpa only [EmitDeclExpr] using
        cbufOnly_bind (cbufOnly_indent g0 ind)
          (cbufOnly_bind (cbufOnly_ite _ (cbufOnly_put g0 _) (cbufOnly_pure g0))
            (cbufOnly_bind (EmitTypePreName_cbufOnly t g0)
              (cbufOnly_bind (cbufOnly_put g0 _)
                (cbufOnly_bind (cbufOnly_put g0 _)
                  (cbufOnly_bind (EmitTypePostName_cbufOnly t g0)
                    (cbufOnly_bind (cbufOnly_put g0 _)
                      (EmitExpr_cbufOnly init g0)))))))
theorem EmitTypePreName_cbufOnly : ∀ (Q : QualType) (g0 : CCodeGenerator),
    CbufOnly g0 (EmitTypePreName Q .cbuf)
  | .mk (.BUILTIN _ cname) _, g0 => by
      simpa only [EmitTypePreName] using cbufOnly_put g0 cname
  | .mk (.STRUCT none) _, g0 => by
      simpa only [EmitTypePreName] using
        cbufOnly_bind (cbufOnly_put g0 _) (cbufOnly_put g0 _)
  | .mk (.STRUCT (some ms)) _, g0 => by
      simpa only [EmitTypePreName] using
        cbufOnly_bind (cbufOnly_put g0 _)
          (cbufOnly_bind (EmitMembers_cbufOnly ms g0) (cbufOnly_put g0 _))
  | .mk (.UNION none) _, g0 => by
      simpa only [EmitTypePreName] using
        cbufOnly_bind (cbufOnly_put g0 _) (cbufOnly_put g0 _)
  | .mk (.UNION (some ms)) _, g0 => by
      simpa only [EmitTypePreName] using
        cbufOnly_bind (cbufOnly_put g0 _)
          (cbufOnly_bind (EmitMembers_cbufOnly ms g0) (cbufOnly_put g0 _))
  | .mk (.ENUM none) _, g0 => by
      simpa only [EmitTypePreName] using
        cbufOnly_bind (cbufOnly_put g0 _) (cbufOnly_put g0 _)
  | .mk (.ENUM (some ms)) _, g0 => by
      simpa only [EmitTypePreName] using
        cbufOnly_bind (cbufOnly_put g0 _)
          (cbufOnly_bind (EmitEnumConstants_cbufOnly ms g0) (cbufOnly_put g0 _))
  | .mk .FUNC _, g0 => by
      simpa only [EmitTypePreName] using cbufOnly_error g0 _
  | .mk (.USER u) _, g0 => by
      simpa only [EmitTypePreName] using EmitExpr_cbufOnly u g0
  | .mk (.POINTER r) _, g0 => by
      simpa only [EmitTypePreName] using
        cbufOnly_bind (EmitTypePreName_cbufOnly r g0) (cbufOnly_put g0 _)
  | .mk (.ARRAY r _) _, g0 => by
      simpa only [EmitTypePreName] using EmitTypePreName_cbufOnly r g0
theorem EmitMembers_cbufOnly : ∀ (ms : List DeclExpr) (g0 : CCodeGenerator),
    CbufOnly g0 (EmitMembers ms .cbuf)
  | [], g0 => by simpa only [EmitMembers] using cbufOnly_ok g0
  | m :: rest, g0 => by
      simpa only [EmitMembers] using
        cbufOnly_bind (EmitDeclExpr_cbufOnly m INDENT g0)
          (cbufOnly_bind (cbufOnly_put g0 _) (EmitMembers_cbufOnly rest g0))
theorem EmitEnumConstants_cbufOnly : ∀ (ms : List DeclExpr) (g0 : CCodeGenerator), CbufOnly g0 (EmitEnumConstants ms .cbuf)
  | [], g0 => by simpa only [EmitEnumConstants] using cbufOnly_ok g0
  | .mk name _ none _ :: rest, g0 => by
      simpa only [EmitEnumConstants] using
        cbufOnly_bind (cbufOnly_indent g0 INDENT)
          (cbufOnly_bind (cbufOnly_addCurpkgName g0 name)
            (cbufOnly_bind (cbufOnly_put g0 _) (EmitEnumConstants_cbufOnly rest g0)))
  | .mk name _ (some init) _ :: rest, g0 => by
      simpa only [EmitEnumConstants] using
        cbufOnly_bind (cbufOnly_indent g0 INDENT)
          (cbufOnly_bind (cbufOnly_addCurpkgName g0 name)
            (cbufOnly_bind (cbufOnly_put g0 _)
              (cbufOnly_bind (EmitExpr_cbufOnly init g0)
                (cbufOnly_bind (cbufOnly_put g0 _)
                  (EmitEnumConstants_cbufOnly rest g0)))))
theorem EmitTypePostName_cbufOnly : ∀ (Q : QualType) (g0 : CCodeGenerator),
    CbufOnly g0 (EmitTypePostName Q .cbuf)
  | .mk (.ARRAY r none) _, g0 => by
      simpa only [EmitTypePostName] using
        cbufOnly_bind (EmitTypePostName_cbufOnly r g0)
          (cbufOnly_bind (cbufOnly_put g0 _) (cbufOnly_put g0 _))
  | .mk (.ARRAY r (some e)) _, g0 => by
      simpa only [EmitTypePostName] using
        cbufOnly_bind (EmitTypePostName_cbufOnly r g0)
          (cbufOnly_bind (cbufOnly_put g0 _)
            (cbufOnly_bind (EmitExpr_cbufOnly e g0) (cbufOnly_put g0 _)))
  | .mk (.BUILTIN _ _) _, g0 => by
      simpa only [EmitTypePostName] using cbufOnly_ok g0
  | .mk (.USER _) _, g0 => by simpa only [EmitTypePostName] using cbufOnly_ok g0
  | .mk (.STRUCT _) _, g0 => by simpa only [EmitTypePostName] using cbufOnly_ok g0
  | .mk (.UNION _) _, g0 => by simpa only [EmitTypePostName] using cbufOnly_ok g0
  | .mk (.ENUM _) _, g0 => by simpa only [EmitTypePostName] using cbufOnly_ok g0
  | .mk .FUNC _, g0 => by simpa only [EmitTypePostName] using cbufOnly_ok g0
  | .mk (.POINTER _) _, g0 => by simpa only [EmitTypePostName] using cbufOnly_ok g0
end

theorem cbufOnly_EmitForInit (g0 : CCodeGenerator) (init : Option Stmt) :
    CbufOnly g0 (EmitForInit init) := by
  cases init with
  | none => exact cbufOnly_pure g0
  | some Init => exact cbufOnly_castExpr Init (fun E => EmitExpr_cbufOnly E g0)

theorem cbufOnly_EmitForPart (g0 : CCodeGenerator) (part : Option Expr) :
    CbufOnly g0 (EmitForPart part) := by
  cases part with
  | none => exact cbufOnly_pure g0
  | some E => exact cbufOnly_bind (cbufOnly_put g0 _) (EmitExpr_cbufOnly E g0)

set_option maxHeartbeats 4000000 in
mutual
theorem EmitStmt_cbufOnly : ∀ (S : Stmt),
    (∀ (ind : Nat) (g0 : CCodeGenerator), CbufOnly g0 (EmitStmt S ind)) ∧
    (∀ (ind : Nat) (g0 : CCodeGenerator), CbufOnly g0 (EmitBody S ind))
  | .STMT_RETURN none => by
      have h : ∀ (ind : Nat) (g0 : CCodeGenerator),
          CbufOnly g0 (EmitStmt (.STMT_RETURN none) ind) := fun ind g0 => by
        simpa only [EmitStmt] using
          cbufOnly_bind (cbufOnly_indent g0 ind)
            (cbufOnly_bind (cbufOnly_put g0 _) (cbufOnly_put g0 _))
      exact ⟨h, fun ind g0 => h 0 g0⟩
  | .STMT_RETURN (some e) => by
      have h : ∀ (ind : Nat) (g0 : CCodeGenerator),
          CbufOnly g0 (EmitStmt (.STMT_RETURN (some e)) ind) := fun ind g0 => by
        simpa only [EmitStmt] using
          cbufOnly_bind (cbufOnly_indent g0 ind)
            (cbufOnly_bind (cbufOnly_put g0 _)
              (cbufOnly_bind (cbufOnly_put g0 _)
                (cbufOnly_bind (EmitExpr_cbufOnly e g0) (cbufOnly_put g0 _))))
      exact ⟨h, fun ind g0 => h 0 g0⟩
  | .STMT_EXPR E => by
      have h : ∀ (ind : Nat) (g0 : CCodeGenerator),
          CbufOnly g0 (EmitStmt (.STMT_EXPR E) ind) := fun ind g0 => by
        simpa only [EmitStmt] using
          cbufOnly_bind (cbufOnly_indent g0 ind)
            (cbufOnly_bind (EmitExpr_cbufOnly E g0) (cbufOnly_put g0 _))
      exact ⟨h, fun ind g0 => h 0 g0⟩
  | .STMT_IF c t none => by
      have h : ∀ (ind : Nat) (g0 : CCodeGenerator),
          CbufOnly g0 (EmitStmt (.STMT_IF c t none) ind) := fun ind g0 => by
        simpa only [EmitStmt] using
          cbufOnly_bind (cbufOnly_indent g0 ind)
            (cbufOnly_bind (cbufOnly_put g0 _)
              (cbufOnly_bind (EmitExpr_cbufOnly c g0)
                (cbufOnly_bind (cbufOnly_put g0 _) ((EmitStmt_cbufOnly t).1 ind g0))))
      exact ⟨h, fun ind g0 => h 0 g0⟩
  | .STMT_IF c t (some e) => by
      have h : ∀ (ind : Nat) (g0 : CCodeGenerator),
          CbufOnly g0 (EmitStmt (.STMT_IF c t (some e)) ind) := fun ind g0 => by
        simpa only [EmitStmt] using
          cbufOnly_bind (cbufOnly_indent g0 ind)
            (cbufOnly_bind (cbufOnly_put g0 _)
              (cbufOnly_bind (EmitExpr_cbufOnly c g0)
                (cbufOnly_bind (cbufOnly_put g0 _)
                  (cbufOnly_bind ((EmitStmt_cbufOnly t).1 ind g0)
                    (cbufOnly_bind (cbufOnly_indent g0 ind)
                      (cbufOnly_bind (cbufOnly_put g0 _)
                        ((EmitStmt_cbufOnly e).1 ind g0)))))))
      exact ⟨h, fun ind g0 => h 0 g0⟩
  | .STMT_WHILE c b => by
      have ihb := (EmitStmt_cbufOnly b).2
      have h : ∀ (ind : Nat) (g0 : CCodeGenerator),
          CbufOnly g0 (EmitStmt (.STMT_WHILE c b) ind) := fun ind g0 => by
        rw [EmitStmt_while_eq]
        exact cbufOnly_bind (cbufOnly_indent g0 ind)
          (cbufOnly_bind (cbufOnly_put g0 _)
            (cbufOnly_castExpr c (fun E =>
              cbufOnly_bind (EmitExpr_cbufOnly E g0)
                (cbufOnly_bind (cbufOnly_put g0 _) (ihb ind g0)))))
      exact ⟨h, fun ind g0 => h 0 g0⟩
  | .STMT_DO c b => by
      have ihb := (EmitStmt_cbufOnly b).2
      have h : ∀ (ind : Nat) (g0 : CCodeGenerator),
          CbufOnly g0 (EmitStmt (.STMT_DO c b) ind) := fun ind g0 => by
        rw [EmitStmt_do_eq]
        exact cbufOnly_bind (cbufOnly_indent g0 ind)
          (cbufOnly_bind (cbufOnly_put g0 _)
            (cbufOnly_bind (ihb ind g0)
              (cbufOnly_bind (cbufOnly_indent g0 ind)
                (cbufOnly_bind (cbufOnly_put g0 _)
                  (cbufOnly_castExpr c (fun E =>
                    cbufOnly_bind (EmitExpr_cbufOnly E g0) (cbufOnly_put g0 _)))))))
      exact ⟨h, fun ind g0 => h 0 g0⟩
  | .STMT_FOR i c n b => by
      have ihb := (EmitStmt_cbufOnly b).2
      have h : ∀ (ind : Nat) (g0 : CCodeGenerator),
          CbufOnly g0 (EmitStmt (.STMT_FOR i c n b) ind) := fun ind g0 => by
        rw [EmitStmt_for_eq]
        exact cbufOnly_bind (cbufOnly_indent g0 ind)
          (cbufOnly_bind (cbufOnly_put g0 _)
            (cbufOnly_bind (cbufOnly_EmitForInit g0 i)
              (cbufOnly_bind (cbufOnly_put g0 _)
                (cbufOnly_bind (cbufOnly_EmitForPart g0 c)
                  (cbufOnly_bind (cbufOnly_put g0 _)
                    (cbufOnly_bind (cbufOnly_EmitForPart g0 n)
                      (cbufOnly_bind (cbufOnly_put g0 _) (ihb ind g0))))))))
      exact ⟨h, fun ind g0 => h 0 g0⟩
  | .STMT_SWITCH c cs => by
      have h : ∀ (ind : Nat) (g0 : CCodeGenerator),
          CbufOnly g0 (EmitStmt (.STMT_SWITCH c cs) ind) := fun ind g0 => by
        simpa only [EmitStmt] using
          cbufOnly_bind (cbufOnly_indent g0 ind)
            (cbufOnly_bind (cbufOnly_put g0 _)
              (cbufOnly_bind (EmitExpr_cbufOnly c g0)
                (cbufOnly_bind (cbufOnly_put g0 _)
                  (cbufOnly_bind (EmitSwitchCases_cbufOnly cs ind g0)
                    (cbufOnly_bind (cbufOnly_indent g0 ind) (cbufOnly_put g0 _))))))
      exact ⟨h, fun ind g0 => h 0 g0⟩
  | .STMT_CASE c ss => by
      have h : ∀ (ind : Nat) (g0 : CCodeGenerator),
          CbufOnly g0 (EmitStmt (.STMT_CASE c ss) ind) := fun ind g0 => by
        simpa only [EmitStmt] using cbufOnly_error g0 _
      exact ⟨h, fun ind g0 => h 0 g0⟩
  | .STMT_DEFAULT ss => by
      have h : ∀ (ind : Nat) (g0 : CCodeGenerator),
          CbufOnly g0 (EmitStmt (.STMT_DEFAULT ss) ind) := fun ind g0 => by
        simpa only [EmitStmt] using cbufOnly_error g0 _
      exact ⟨h, fun ind g0 => h 0 g0⟩
  | .STMT_BREAK => by
      have h : ∀ (ind : Nat) (g0 : CCodeGenerator),
          CbufOnly g0 (EmitStmt .STMT_BREAK ind) := fun ind g0 => by
        simpa only [EmitStmt] using
          cbufOnly_bind (cbufOnly_indent g0 ind) (cbufOnly_put g0 _)
      exact ⟨h, fun ind g0 => h 0 g0⟩
  | .STMT_CONTINUE => by
      have h : ∀ (ind : Nat) (g0 : CCodeGenerator),
          CbufOnly g0 (EmitStmt .STMT_CONTINUE ind) := fun ind g0 => by
        simpa only [EmitStmt] using
          cbufOnly_bind (cbufOnly_indent g0 ind) (cbufOnly_put g0 _)
      exact ⟨h, fun ind g0 => h 0 g0⟩
  | .STMT_LABEL name sub => by
      have h : ∀ (ind : Nat) (g0 : CCodeGenerator),
          CbufOnly g0 (EmitStmt (.STMT_LABEL name sub) ind) := fun ind g0 => by
        simpa only [EmitStmt] using
          cbufOnly_bind (cbufOnly_put g0 _)
            (cbufOnly_bind (cbufOnly_put g0 _) ((EmitStmt_cbufOnly sub).1 ind g0))
      exact ⟨h, fun ind g0 => h 0 g0⟩
  | .STMT_GOTO name => by
      have h : ∀ (ind : Nat) (g0 : CCodeGenerator),
          CbufOnly g0 (EmitStmt (.STMT_GOTO name) ind) := fun ind g0 => by
        simpa only [EmitStmt] using
          cbufOnly_bind (cbufOnly_indent g0 ind)
            (cbufOnly_bind (cbufOnly_put g0 _)
              (cbufOnly_bind (cbufOnly_put g0 _) (cbufOnly_put g0 _)))
      exact ⟨h, fun ind g0 => h 0 g0⟩
  | .STMT_COMPOUND C => by
      refine ⟨fun ind g0 => ?_, fun ind g0 => EmitCompoundStmt_cbufOnly C ind false g0⟩
      simpa only [EmitStmt] using EmitCompoundStmt_cbufOnly C ind true g0
theorem EmitCompoundStmt_cbufOnly : ∀ (C : CompoundStmt) (ind : Nat) (startOnNewLine : Bool)
    (g0 : CCodeGenerator), CbufOnly g0 (EmitCompoundStmt C ind startOnNewLine)
  | .mk ss, ind, b, g0 => by
      simpa only [EmitCompoundStmt] using
        cbufOnly_bind (cbufOnly_ite _ (cbufOnly_indent g0 ind) (cbufOnly_pure g0))
          (cbufOnly_bind (cbufOnly_put g0 _)
            (cbufOnly_bind (EmitStmts_cbufOnly ss (ind + INDENT) g0)
              (cbufOnly_bind (cbufOnly_indent g0 ind) (cbufOnly_put g0 _))))
theorem EmitStmts_cbufOnly : ∀ (ss : List Stmt) (ind : Nat) (g0 : CCodeGenerator),
    CbufOnly g0 (EmitStmts ss ind)
  | [], ind, g0 => by simpa only [EmitStmts] using cbufOnly_ok g0
  | S :: rest, ind, g0 => by
      simpa only [EmitStmts] using
        cbufOnly_bind ((EmitStmt_cbufOnly S).1 ind g0) (EmitStmts_cbufOnly rest ind g0)
theorem EmitSwitchCases_cbufOnly : ∀ (cs : List Stmt) (ind : Nat) (g0 : CCodeGenerator),
    CbufOnly g0 (EmitSwitchCases cs ind)
  | [], ind, g0 => by simpa only [EmitSwitchCases] using cbufOnly_ok g0
  | .STMT_CASE c ss :: rest, ind, g0 => by
      simpa only [EmitSwitchCases] using
        cbufOnly_bind (cbufOnly_indent g0 (ind + INDENT))
          (cbufOnly_bind (cbufOnly_put g0 _)
            (cbufOnly_bind (EmitExpr_cbufOnly c g0)
              (cbufOnly_bind (cbufOnly_put g0 _)
                (cbufOnly_bind (EmitStmts_cbufOnly ss (ind + INDENT + INDENT) g0)
                  (EmitSwitchCases_cbufOnly rest ind g0)))))
  | .STMT_DEFAULT ss :: rest, ind, g0 => by
      simpa only [EmitSwitchCases] using
        cbufOnly_bind (cbufOnly_indent g0 (ind + INDENT))
          (cbufOnly_bind (cbufOnly_put g0 _)
            (cbufOnly_bind (EmitStmts_cbufOnly ss (ind + INDENT + INDENT) g0)
              (EmitSwitchCases_cbufOnly rest ind g0)))
  | .STMT_RETURN _ :: _, ind, g0 => by
      simpa only [EmitSwitchCases] using cbufOnly_error g0 _
  | .STMT_EXPR _ :: _, ind, g0 => by
      simpa only [EmitSwitchCases] using cbufOnly_error g0 _
  | .STMT_IF _ _ _ :: _, ind, g0 => by
      simpa only [EmitSwitchCases] using cbufOnly_error g0 _
  | .STMT_WHILE _ _ :: _, ind, g0 => by
      simpa only [EmitSwitchCases] using cbufOnly_error g0 _
  | .STMT_DO _ _ :: _, ind, g0 => by
      simpa only [EmitSwitchCases] using cbufOnly_error g0 _
  | .STMT_FOR _ _ _ _ :: _, ind, g0 => by
      simpa only [EmitSwitchCases] using cbufOnly_error g0 _
  | .STMT_SWITCH _ _ :: _, ind, g0 => by
      simpa only [EmitSwitchCases] using cbufOnly_error g0 _
  | .STMT_BREAK :: _, ind, g0 => by
      simpa only [EmitSwitchCases] using cbufOnly_error g0 _
  | .STMT_CONTINUE :: _, ind, g0 => by
      simpa only [EmitSwitchCases] using cbufOnly_error g0 _
  | .STMT_LABEL _ _ :: _, ind, g0 => by
      simpa only [EmitSwitchCases] using cbufOnly_error g0 _
  | .STMT_GOTO _ :: _, ind, g0 => by
      simpa only [EmitSwitchCases] using cbufOnly_error g0 _
  | .STMT_COMPOUND _ :: _, ind, g0 => by
      simpa only [EmitSwitchCases] using cbufOnly_error g0 _
end

theorem EmitProtoArgs_cbufOnly : ∀ (args : List DeclExpr) (count : Int) (g0 : CCodeGenerator), CbufOnly g0 (EmitProtoArgs args count .cbuf)
  | [], count, g0 => by simpa only [EmitProtoArgs] using cbufOnly_ok g0
  | A :: rest, count, g0 => by
      simpa only [EmitProtoArgs] using
        cbufOnly_bind (EmitDeclExpr_cbufOnly A 0 g0)
          (cbufOnly_bind (cbufOnly_ite _ (cbufOnly_put g0 _) (cbufOnly_pure g0))
            (EmitProtoArgs_cbufOnly rest (count - 1) g0))

theorem EmitFunctionProto_cbufOnly (F : FunctionDecl) (g0 : CCodeGenerator) :
    CbufOnly g0 (EmitFunctionProto F .cbuf) :=
  cbufOnly_bind
    (cbufOnly_ite_dep (fun g => g.mode = .SINGLE_FILE ∧ F.name ≠ "main") (fun _ _ => Iff.rfl)
      (cbufOnly_put g0 _) (cbufOnly_pure g0))
    (cbufOnly_bind (EmitTypePreName_cbufOnly F.returnType g0)
      (cbufOnly_bind (EmitTypePostName_cbufOnly F.returnType g0)
        (cbufOnly_bind (cbufOnly_put g0 _)
          (cbufOnly_bind (cbufOnly_addCurpkgName g0 F.name)
            (cbufOnly_bind (cbufOnly_put g0 _)
              (cbufOnly_bind (EmitProtoArgs_cbufOnly F.args _ g0)
                (cbufOnly_bind (cbufOnly_ite _ (cbufOnly_put g0 _) (cbufOnly_pure g0))
                  (cbufOnly_put g0 _))))))))

theorem cbufOnly_run_ok {g0 : CCodeGenerator} {f : CCodeGenerator → Emit}
    (hf : CbufOnly g0 f) (cb hb : String) {g' : CCodeGenerator}
    (h : f (g0.setBufs cb hb) = .ok g') :
    ∃ c, outOf f g0 = .ok (c, "") ∧ g' = g0.setBufs (cb ++ c) hb := by
  obtain ⟨r, hr⟩ := hf
  have h0 : outOf f g0 = r.map (fun c => (c, "")) := by
    unfold outOf
    rw [hr "" ""]
    cases r with
    | error e => rfl
    | ok c => simp [Except.map, setBufs, String.empty_append]
  rw [hr] at h
  cases r with
  | error e => cases h
  | ok c =>
    simp only [Except.map, Except.ok.injEq] at h
    exact ⟨c, h0, h.symm⟩

theorem foldl_addEntry_fields : ∀ (entries : List Entry) (g : CCodeGenerator),
    let r := entries.foldl (fun g e => g.addEntry e.filename e.ast) g
    r.filename = g.filename ∧ r.hfilename = g.hfilename ∧ r.cbuf = g.cbuf ∧ r.hbuf = g.hbuf ∧
      r.mode = g.mode ∧ r.pkgs = g.pkgs ∧ r.entries = g.entries ++ entries
  | [], g => by simp
  | e :: rest, g => by
      have ih := foldl_addEntry_fields rest (g.addEntry e.filename e.ast)
      simp only [List.foldl_cons]
      obtain ⟨h1, h2, h3, h4, h5, h6, h7⟩ := ih
      refine ⟨h1, h2, h3, h4, h5, h6, ?_⟩
      rw [h7]
      simp [addEntry]

theorem freshGenerator_fields (filename : String) (mode : Mode)
    (pkgs : List (String × Package)) (entries : List Entry) :
    (freshGenerator filename mode pkgs entries).filename = filename ∧
    (freshGenerator filename mode pkgs entries).hfilename = filename ++ ".h" ∧
    (freshGenerator filename mode pkgs entries).cbuf = "" ∧
    (freshGenerator filename mode pkgs entries).hbuf = "" ∧
    (freshGenerator filename mode pkgs entries).entries = entries := by
  obtain ⟨h1, h2, h3, h4, -, -, h7⟩ := foldl_addEntry_fields entries (create filename mode pkgs)
  exact ⟨h1, h2, h3, h4, by simpa [create] using h7⟩

/-- C5: when `generate` completes on a freshly constructed generator with file
basename `f`, the header buffer is the include guard derived from the
uppercased basename, then some body, then `#endif`. -/
theorem C5_header_guard (filename : String) (mode : Mode) (pkgs : List (String × Package))
    (entries : List Entry) (g' : CCodeGenerator)
    (hrun : generate (freshGenerator filename mode pkgs entries) = .ok g') :
    ∃ body, g'.hbuf =
      "#ifndef " ++ upper filename ++ "_H\n#define " ++ upper filename ++ "_H\n\n" ++ body ++
        "#endif\n" := by
  obtain ⟨H1, H2, -, hh⟩ := generate_run _ _ hrun
  obtain ⟨hf, -, -, hb, -⟩ := freshGenerator_fields filename mode pkgs entries
  refine ⟨H1 ++ H2, ?_⟩
  rw [hh, hf, hb]
  have e1 : "_H\n#define " = "_H\n" ++ "#define " := by decide
  have e2 : "_H\n\n" = "_H\n" ++ "\n" := by decide
  rw [e1, e2]
  simp only [String.append_assoc, String.empty_append]

/-- Witness for C5: a module importing two packages and declaring `main`,
generated in multi-file mode. -/
theorem C5_header_guard_witness :
    ∃ g', generate (freshGenerator "out" .MULTI_FILE exPkgs exEntries) = .ok g' ∧
      ∃ body, g'.hbuf =
        "#ifndef " ++ upper "out" ++ "_H\n#define " ++ upper "out" ++ "_H\n\n" ++ body ++
          "#endif\n" := by
  have hok : completes (generate (freshGenerator "out" .MULTI_FILE exPkgs exEntries)) = true := by
    decide!
  cases h : generate (freshGenerator "out" .MULTI_FILE exPkgs exEntries) with
  | error e => rw [h] at hok; cases hok
  | ok g' => exact ⟨g', rfl, C5_header_guard "out" .MULTI_FILE exPkgs exEntries g' h⟩

/-- C6 (the code evaluated at the failing input): for an import of `util`,
which is not a plain-C library, `EmitUse` writes an opening double quote and a
closing single quote. -/
theorem C6_quoted_include_closing_quote :
    (EmitUse (.DECL_USE "util") exMulti).map (fun g => g.cbuf) = .ok "#include \"util.h'\n" ∧
    (EmitUse (.DECL_USE "stdio") exMulti).map (fun g => g.cbuf) = .ok "#include <stdio.h>\n" := by
  decide!

/-- C7 (as stated, refuted): in multi-file mode the include of an import goes
into the source buffer and the header buffer stays empty. -/
theorem C7_counterexample :
    (EmitUse (.DECL_USE "stdio") exMulti).map (fun g => (g.cbuf, g.hbuf)) =
      .ok ("#include <stdio.h>\n", "") := by
  decide!

/-- C7 (amended): for an import whose package is known, `EmitUse` changes the
source buffer only; it appends a non-empty include line there when the mode is
`MULTI_FILE` or the package is a plain-C library, and nothing otherwise. -/
theorem C7_include_placement (g : CCodeGenerator) (D : Decl) (P : Package)
    (hpkg : g.pkgs.lookup D.getName = some P) :
    ∃ line, line ≠ "" ∧
      EmitUse D g = .ok { g with cbuf := g.cbuf ++
        (if g.mode = .MULTI_FILE ∨ P.isPlainC = true then line else "") } := by
  refine ⟨"#include " ++ (if P.isPlainC then "<" else "\"") ++ D.getName ++ ".h" ++
    (if P.isPlainC then ">" else "'") ++ "\n", ?_, ?_⟩
  · intro h
    have := congrArg String.length h
    simp [String.length_append] at this
    exact absurd this.2 (by decide)
  · simp only [EmitUse, hpkg]
    by_cases hc : g.mode = .MULTI_FILE ∨ P.isPlainC = true
    · simp only [hc, if_true]
      cases hP : P.isPlainC <;>
        simp only [put, emit_ok_bind, String.append_assoc, Bool.false_eq_true, if_false, if_true]
    · simp only [hc, if_false, String.append_empty]
      rfl

/-- Witness for C7 (amended): `util` imported in single-file mode and `stdio`
imported in multi-file mode. -/
theorem C7_include_placement_witness :
    (exSingle.pkgs.lookup (Decl.DECL_USE "util").getName = some ⟨"util", "util", false⟩ ∧
      ∃ line, line ≠ "" ∧
        EmitUse (.DECL_USE "util") exSingle = .ok { exSingle with cbuf := exSingle.cbuf ++
          (if exSingle.mode = .MULTI_FILE ∨ (⟨"util", "util", false⟩ : Package).isPlainC = true
            then line else "") }) ∧
    (exMulti.pkgs.lookup (Decl.DECL_USE "stdio").getName = some ⟨"stdio", "stdio", true⟩ ∧
      ∃ line, line ≠ "" ∧
        EmitUse (.DECL_USE "stdio") exMulti = .ok { exMulti with cbuf := exMulti.cbuf ++
          (if exMulti.mode = .MULTI_FILE ∨ (⟨"stdio", "stdio", true⟩ : Package).isPlainC = true
            then line else "") }) :=
  ⟨⟨by decide, C7_include_placement exSingle (.DECL_USE "util") _ (by decide)⟩,
    ⟨by decide, C7_include_placement exMulti (.DECL_USE "stdio") _ (by decide)⟩⟩

/-- C8: when `generate` completes on a freshly constructed generator, the
source buffer is the first-pass import output, then the include of the own
header, then the second-pass output of the function, variable and type
declarations, each over the entries in insertion order and their declarations
in index order. -/
theorem C8_source_buffer_layout (filename : String) (mode : Mode)
    (pkgs : List (String × Package)) (entries : List Entry) (g' : CCodeGenerator)
    (hrun : generate (freshGenerator filename mode pkgs entries) = .ok g') :
    g'.cbuf =
      firstPassText (freshGenerator filename mode pkgs entries) ++
        "#include \"" ++ filename ++ ".h\"\n\n" ++
        secondPassText (freshGenerator filename mode pkgs entries) := by
  obtain ⟨H1, H2, hc, -⟩ := generate_run _ _ hrun
  obtain ⟨-, hf, hb, -, -⟩ := freshGenerator_fields filename mode pkgs entries
  rw [hc, hf, hb]
  have e1 : ".h\"\n\n" = ".h" ++ "\"\n" ++ "\n" := by decide
  rw [e1]
  simp only [String.append_assoc, String.empty_append]

/-- Witness for C8: the example module generated in multi-file mode; its
source buffer is computed as well. -/
theorem C8_source_buffer_layout_witness :
    ∃ g', generate (freshGenerator "out" .MULTI_FILE exPkgs exEntries) = .ok g' ∧
      g'.cbuf =
        firstPassText (freshGenerator "out" .MULTI_FILE exPkgs exEntries) ++
          "#include \"" ++ "out" ++ ".h\"\n\n" ++
          secondPassText (freshGenerator "out" .MULTI_FILE exPkgs exEntries) := by
  have hok : completes (generate (freshGenerator "out" .MULTI_FILE exPkgs exEntries)) = true := by
    decide!
  cases h : generate (freshGenerator "out" .MULTI_FILE exPkgs exEntries) with
  | error e => rw [h] at hok; cases hok
  | ok g' => exact ⟨g', rfl, C8_source_buffer_layout "out" .MULTI_FILE exPkgs exEntries g' h⟩

end C2.CGen

/-! # Theorems: layout of the emitted text -/

namespace C2.CGen

open CCodeGenerator


theorem seqOut_ok_left (y : Except EmitError (String × String)) :
    seqOut (.ok ("", "")) y = y := by
  cases y with
  | error e => rfl
  | ok b => simp [seqOut, String.empty_append]

theorem seqOut_ok_right (x : Except EmitError (String × String)) :
    seqOut x (.ok ("", "")) = x := by
  cases x with
  | error e => rfl
  | ok a => simp [seqOut, String.append_empty]

theorem seqOut_assoc (x y z : Except EmitError (String × String)) :
    seqOut (seqOut x y) z = seqOut x (seqOut y z) := by
  cases x <;> cases y <;> cases z <;> simp [seqOut, String.append_assoc]

theorem seqOuts_append (xs ys : List (Except EmitError (String × String))) :
    seqOuts (xs ++ ys) = seqOut (seqOuts xs) (seqOuts ys) := by
  induction xs with
  | nil => simp [seqOuts, seqOut_ok_left]
  | cons x rest ih => simp [seqOuts, ih, seqOut_assoc]

theorem seqOuts_single (x : Except EmitError (String × String)) : seqOuts [x] = x := by
  simp [seqOuts, seqOut_ok_right]

theorem outOf_seq {g0 : CCodeGenerator} {f k : CCodeGenerator → Emit}
    (hf : FramedAt g0 f) (hk : FramedAt g0 k) :
    outOf (fun g => f g >>= k) g0 = seqOut (outOf f g0) (outOf k g0) := by
  rw [outOf_bind hf hk]
  cases outOf f g0 with
  | error e => rfl
  | ok a =>
    cases outOf k g0 with
    | error e => rfl
    | ok b => rfl

theorem outOf_written (g0 : CCodeGenerator) (output : Buf) (text : String) :
    outOf (put output text) g0 = written output text := by
  rw [outOf_put]
  cases output <;> rfl

theorem outOf_indent (g0 : CCodeGenerator) (output : Buf) (num : Nat) :
    outOf (indent output num) g0 = written output (indentText num) :=
  outOf_written g0 output _

theorem outOf_pure (g0 : CCodeGenerator) :
    outOf (fun g => (pure g : Emit)) g0 = .ok ("", "") := rfl

theorem written_empty (output : Buf) : written output "" = .ok ("", "") := by
  cases output <;> rfl

theorem seqEmit_framed : ∀ (fs : List (CCodeGenerator → Emit)) (g0 : CCodeGenerator),
    allFramed g0 fs → FramedAt g0 (seqEmit fs)
  | [], g0, _ => framedAt_ok g0
  | [_], _, h => h.1
  | _ :: k :: rest, g0, h => framedAt_bind h.1 (seqEmit_framed (k :: rest) g0 h.2)

theorem outOf_seqEmit : ∀ (fs : List (CCodeGenerator → Emit)) (g0 : CCodeGenerator),
    allFramed g0 fs → outOf (seqEmit fs) g0 = seqOuts (fs.map fun f => outOf f g0)
  | [], g0, _ => rfl
  | [f], g0, _ => by
      show outOf f g0 = seqOuts [outOf f g0]
      rw [seqOuts_single]
  | f :: k :: rest, g0, h => by
      show outOf (fun g => f g >>= seqEmit (k :: rest)) g0 = _
      rw [outOf_seq h.1 (seqEmit_framed (k :: rest) g0 h.2), outOf_seqEmit (k :: rest) g0 h.2]
      rfl

theorem outOf_ite {g0 : CCodeGenerator} (c : Prop) [Decidable c]
    (f k : CCodeGenerator → Emit) :
    outOf (fun g => if c then f g else k g) g0 = if c then outOf f g0 else outOf k g0 := by
  by_cases h : c <;> simp [h]

theorem outOf_congr {g0 : CCodeGenerator} {f k : CCodeGenerator → Emit}
    (h : ∀ cb hb, f (g0.setBufs cb hb) = k (g0.setBufs cb hb)) : outOf f g0 = outOf k g0 := by
  unfold outOf
  rw [h]

theorem outOf_setBufs (f : CCodeGenerator → Emit) (g0 : CCodeGenerator) (cb hb : String) :
    outOf f (g0.setBufs cb hb) = outOf f g0 := by
  unfold outOf
  rw [setBufs_setBufs]

theorem outOf_ite_dep {g0 : CCodeGenerator} (c : CCodeGenerator → Prop)
    [∀ g, Decidable (c g)] (hc : ∀ cb hb, c (g0.setBufs cb hb) ↔ c g0)
    (f k : CCodeGenerator → Emit) :
    outOf (fun g => if c g then f g else k g) g0 =
      if c g0 then outOf f g0 else outOf k g0 := by
  unfold outOf
  by_cases h : c g0
  · simp only [(hc "" "").2 h, h, if_true]
  · have h' : ¬ c (g0.setBufs "" "") := fun hh => h ((hc "" "").1 hh)
    simp only [h', h, if_false]

theorem seqOut_eq_ok {x y : Except EmitError (String × String)} {d : String × String}
    (h : seqOut x y = .ok d) :
    ∃ a b, x = .ok a ∧ y = .ok b ∧ d = (a.1 ++ b.1, a.2 ++ b.2) := by
  cases x with
  | error e => cases h
  | ok a =>
    cases y with
    | error e => cases h
    | ok b =>
      simp only [seqOut, Except.ok.injEq] at h
      exact ⟨a, b, rfl, rfl, h.symm⟩

theorem written_eq_ok {output : Buf} {text : String} {d : String × String}
    (h : written output text = .ok d) : bufText output d = text := by
  cases output <;> (simp only [written, Except.ok.injEq] at h; rw [← h]; rfl)

theorem run_of_outOf {g g' : CCodeGenerator} {f : CCodeGenerator → Emit}
    (hf : FramedAt g f) (h : f g = .ok g') :
    ∃ d, outOf f g = .ok d ∧ g'.cbuf = g.cbuf ++ d.1 ∧ g'.hbuf = g.hbuf ++ d.2 := by
  have h' : f (g.setBufs g.cbuf g.hbuf) = .ok g' := by rw [setBufs_self]; exact h
  obtain ⟨d, hd, hg⟩ := framedAt_run_ok hf g.cbuf g.hbuf h'
  exact ⟨d, hd, by rw [hg]; rfl, by rw [hg]; rfl⟩

theorem cbufOnly_framed {g0 : CCodeGenerator} {f : CCodeGenerator → Emit}
    (hf : CbufOnly g0 f) : FramedAt g0 f := by
  obtain ⟨r, hr⟩ := hf
  refine ⟨r.map (fun c => (c, "")), fun cb hb => ?_⟩
  rw [hr]
  cases r with
  | error e => rfl
  | ok c => simp [Except.map, String.append_empty]

theorem cbufOnly_outOf {g0 : CCodeGenerator} {f : CCodeGenerator → Emit}
    (hf : CbufOnly g0 f) {d : String × String} (h : outOf f g0 = .ok d) : d.2 = "" := by
  obtain ⟨r, hr⟩ := hf
  unfold outOf at h
  rw [hr] at h
  cases r with
  | error e => cases h
  | ok c =>
    simp only [Except.map, Except.ok.injEq] at h
    rw [← h]
    rfl

theorem cbufOnly_outOf_ok {g0 : CCodeGenerator} {f : CCodeGenerator → Emit}
    (hf : CbufOnly g0 f) {d : String × String} (h : outOf f g0 = .ok d) :
    outOf f g0 = .ok (d.1, "") := by
  have h2 := cbufOnly_outOf hf h
  rw [h]
  obtain ⟨c, t⟩ := d
  simp only at h2
  rw [h2]

theorem protoBody_framed (F : FunctionDecl) (output : Buf) (g0 : CCodeGenerator) :
    FramedAt g0 (protoBody F output) :=
  framedAt_bind (EmitTypePreName_framed F.returnType output g0)
    (framedAt_bind (EmitTypePostName_framed F.returnType output g0)
      (framedAt_bind (framedAt_put g0 output _)
        (framedAt_bind (framedAt_addCurpkgName g0 F.name output)
          (framedAt_bind (framedAt_put g0 output _)
            (framedAt_bind (EmitProtoArgs_framed F.args _ output g0)
              (framedAt_bind (framedAt_ite _ (framedAt_put g0 output _) (framedAt_pure g0))
                (framedAt_put g0 output _)))))))

theorem protoBody_cbufOnly (F : FunctionDecl) (g0 : CCodeGenerator) :
    CbufOnly g0 (protoBody F .cbuf) :=
  cbufOnly_bind (EmitTypePreName_cbufOnly F.returnType g0)
    (cbufOnly_bind (EmitTypePostName_cbufOnly F.returnType g0)
      (cbufOnly_bind (cbufOnly_put g0 _)
        (cbufOnly_bind (cbufOnly_addCurpkgName g0 F.name)
          (cbufOnly_bind (cbufOnly_put g0 _)
            (cbufOnly_bind (EmitProtoArgs_cbufOnly F.args _ g0)
              (cbufOnly_bind (cbufOnly_ite _ (cbufOnly_put g0 _) (cbufOnly_pure g0))
                (cbufOnly_put g0 _)))))))

theorem outOf_linkage (name : String) (output : Buf) (g0 : CCodeGenerator) :
    outOf (fun g => if g.mode = .SINGLE_FILE ∧ name ≠ "main" then put output "static " g
      else pure g) g0 = written output (protoLinkage g0.mode name) := by
  rw [outOf_ite_dep (fun g => g.mode = .SINGLE_FILE ∧ name ≠ "main") (fun _ _ => Iff.rfl)]
  unfold protoLinkage
  by_cases h : g0.mode = .SINGLE_FILE ∧ name ≠ "main"
  · simp only [h, and_self, ne_eq, not_false_eq_true, if_true]
    exact outOf_written g0 output _
  · simp only [h, if_false]
    rw [written_empty]
    rfl

theorem framedAt_linkage (name : String) (output : Buf) (g0 : CCodeGenerator) :
    FramedAt g0 (fun g => if g.mode = .SINGLE_FILE ∧ name ≠ "main" then put output "static " g
      else pure g) :=
  framedAt_ite_dep (fun g => g.mode = .SINGLE_FILE ∧ name ≠ "main") (fun _ _ => Iff.rfl)
    (framedAt_put g0 output _) (framedAt_pure g0)

theorem EmitFunctionProto_layout (F : FunctionDecl) (output : Buf) (g0 : CCodeGenerator) :
    outOf (EmitFunctionProto F output) g0 =
      seqOut (written output (protoLinkage g0.mode F.name)) (outOf (protoBody F output) g0) := by
  rw [← outOf_linkage F.name output g0]
  exact outOf_seq (framedAt_linkage F.name output g0) (protoBody_framed F output g0)

theorem EmitFunction_layout (F : FunctionDecl) (g0 : CCodeGenerator) :
    outOf (EmitFunction F) g0 =
      seqOuts [
        (if g0.mode = .SINGLE_FILE then
          seqOut (outOf (EmitFunctionProto F .hbuf) g0) (written .hbuf ";\n\n")
        else if F.isPublic = true then
          seqOut (outOf (EmitFunctionProto F .hbuf) g0) (written .hbuf ";\n\n")
        else written .cbuf "static "),
        outOf (EmitFunctionProto F .cbuf) g0,
        written .cbuf " ",
        outOf (EmitCompoundStmt F.body 0 false) g0,
        written .cbuf "\n"] := by
  have hp : FramedAt g0 (fun g => EmitFunctionProto F .hbuf g >>= put .hbuf ";\n\n") :=
    framedAt_bind (EmitFunctionProto_framed F .hbuf g0) (framedAt_put g0 .hbuf _)
  have hhead : FramedAt g0 (fun g => if g.mode = .SINGLE_FILE then
      EmitFunctionProto F .hbuf g >>= put .hbuf ";\n\n"
      else if F.isPublic = true then EmitFunctionProto F .hbuf g >>= put .hbuf ";\n\n"
      else put .cbuf "static " g) :=
    framedAt_ite_dep (fun g => g.mode = .SINGLE_FILE) (fun _ _ => Iff.rfl) hp
      (framedAt_ite _ hp (framedAt_put g0 .cbuf _))
  have hall : allFramed g0 [
      (fun g => if g.mode = .SINGLE_FILE then
        EmitFunctionProto F .hbuf g >>= put .hbuf ";\n\n"
        else if F.isPublic = true then EmitFunctionProto F .hbuf g >>= put .hbuf ";\n\n"
        else put .cbuf "static " g),
      EmitFunctionProto F .cbuf, put .cbuf " ", EmitCompoundStmt F.body 0 false,
      put .cbuf "\n"] :=
    ⟨hhead, EmitFunctionProto_framed F .cbuf g0, framedAt_put g0 .cbuf _,
      EmitCompoundStmt_framed F.body 0 false g0, framedAt_put g0 .cbuf _, trivial⟩
  have hrun := outOf_seqEmit _ g0 hall
  have hseq : outOf (fun g => EmitFunctionProto F .hbuf g >>= put .hbuf ";\n\n") g0 =
      seqOut (outOf (EmitFunctionProto F .hbuf) g0) (written .hbuf ";\n\n") := by
    rw [outOf_seq (EmitFunctionProto_framed F .hbuf g0) (framedAt_put g0 .hbuf _),
      outOf_written]
  simp only [List.map] at hrun
  rw [outOf_ite_dep (fun g => g.mode = .SINGLE_FILE) (fun _ _ => Iff.rfl), outOf_ite, hseq,
    outOf_written, outOf_written, outOf_written] at hrun
  exact hrun

theorem EmitIncrValues_cbufOnly : ∀ (vs : List ArrayValueDecl) (g0 : CCodeGenerator),
    CbufOnly g0 (EmitIncrValues vs)
  | [], g0 => by simpa only [EmitIncrValues] using cbufOnly_ok g0
  | E :: rest, g0 => by
      simpa only [EmitIncrValues] using
        cbufOnly_bind (cbufOnly_indent g0 INDENT)
          (cbufOnly_bind (EmitExpr_cbufOnly E.expr g0)
            (cbufOnly_bind (cbufOnly_put g0 _) (EmitIncrValues_cbufOnly rest g0)))

theorem headerDeclaration_framed (V : VarDecl) (g0 : CCodeGenerator) :
    FramedAt g0 (headerDeclaration V) :=
  framedAt_bind (EmitTypePreName_framed V.type .hbuf g0)
    (framedAt_bind (framedAt_put g0 .hbuf _)
      (framedAt_bind (framedAt_addCurpkgName g0 V.name .hbuf)
        (framedAt_bind (EmitTypePostName_framed V.type .hbuf g0)
          (framedAt_bind (framedAt_put g0 .hbuf _) (framedAt_put g0 .hbuf _)))))

theorem variableDefinition_cbufOnly (V : VarDecl) (g0 : CCodeGenerator) :
    CbufOnly g0 (variableDefinition V) := by
  obtain ⟨name, pub, ty, init, incr⟩ := V
  have hinit : CbufOnly g0 (fun g => (match init with
      | some initValue => do
          let g ← put .cbuf " = " g
          EmitExpr initValue .cbuf g
      | none => pure g : Emit)) := by
    cases init with
    | none => exact cbufOnly_pure g0
    | some e => exact cbufOnly_bind (cbufOnly_put g0 _) (EmitExpr_cbufOnly e g0)
  cases init <;>
  exact cbufOnly_bind (EmitTypePreName_cbufOnly ty g0)
      (cbufOnly_bind (cbufOnly_put g0 _)
        (cbufOnly_bind (cbufOnly_addCurpkgName g0 name)
          (cbufOnly_bind (EmitTypePostName_cbufOnly ty g0)
            (cbufOnly_bind hinit
              (cbufOnly_bind
                (cbufOnly_ite _
                  (cbufOnly_bind (cbufOnly_put g0 _)
                    (cbufOnly_bind (EmitIncrValues_cbufOnly incr g0) (cbufOnly_put g0 _)))
                  (cbufOnly_pure g0))
                (cbufOnly_bind (cbufOnly_put g0 _) (cbufOnly_put g0 _)))))))

theorem EmitVariable_layout (V : VarDecl) (g0 : CCodeGenerator) :
    outOf (EmitVariable V) g0 =
      seqOut
        (if V.isPublic = true ∧ g0.mode ≠ .SINGLE_FILE then
          seqOut (written .hbuf "extern ") (outOf (headerDeclaration V) g0)
        else written .cbuf "static ")
        (outOf (variableDefinition V) g0) := by
  have hext : FramedAt g0 (fun g => put .hbuf "extern " g >>= headerDeclaration V) :=
    framedAt_bind (framedAt_put g0 .hbuf _) (headerDeclaration_framed V g0)
  have hhead : FramedAt g0 (fun g => if V.isPublic = true ∧ g.mode ≠ .SINGLE_FILE then
      put .hbuf "extern " g >>= headerDeclaration V else put .cbuf "static " g) :=
    framedAt_ite_dep (fun g => V.isPublic = true ∧ g.mode ≠ .SINGLE_FILE) (fun _ _ => Iff.rfl)
      hext (framedAt_put g0 .cbuf _)
  have hrun := outOf_seq hhead (cbufOnly_framed (variableDefinition_cbufOnly V g0))
  rw [outOf_ite_dep (fun g => V.isPublic = true ∧ g.mode ≠ .SINGLE_FILE) (fun _ _ => Iff.rfl),
    outOf_seq (framedAt_put g0 .hbuf _) (headerDeclaration_framed V g0),
    outOf_written, outOf_written] at hrun
  exact hrun

/-- C9 (the code evaluated at the failing input): in multi-file mode the
public function `f` with the parameter `i32[(2)] a` gets the header prototype
`int util_f(int a[]);`, without the size expression, and the text `(2)` lands
in the source buffer in front of the definition. -/
theorem C9_public_prototype_evaluated :
    (EmitFunction exPublicF exMulti).map (fun g => (g.hbuf, g.cbuf)) =
      .ok ("int util_f(int a[]);\n\n", "(2)int util_f(int a[(2)]) \x7b\n\x7d\n\n") := by
  decide!

/-- C10: the linkage word of functions. A prototype is the linkage word of
`EmitFunctionProto` followed by the rest of the prototype, and that word is
`static ` exactly in single-file mode for a name other than `main`. When
`EmitFunction` returns: in single-file mode the header and the source buffer
both receive the prototype with that word; in multi-file mode the header
prototype of a public function has no linkage word and its definition is not
preceded by one, while a private function leaves the header unchanged and its
definition is preceded by one `static `. Here `stray` is what the emission of
the header prototype writes to the source buffer. -/
theorem C10_function_linkage (F : FunctionDecl) (g g' : CCodeGenerator)
    (hrun : EmitFunction F g = .ok g') :
    (∀ output, outOf (EmitFunctionProto F output) g =
      seqOut (written output (if g.mode = .SINGLE_FILE ∧ F.name ≠ "main" then "static " else ""))
        (outOf (protoBody F output) g)) ∧
    ∃ proto body, outOf (protoBody F .cbuf) g = .ok (proto, "") ∧
      outOf (EmitCompoundStmt F.body 0 false) g = .ok (body, "") ∧
      if g.mode = .SINGLE_FILE then
        ∃ stray protoH, outOf (protoBody F .hbuf) g = .ok (stray, protoH) ∧
          g'.hbuf = g.hbuf ++ ((if F.name = "main" then "" else "static ") ++ protoH ++ ";\n\n") ∧
          g'.cbuf = g.cbuf ++ (stray ++ (if F.name = "main" then "" else "static ") ++ proto ++
            " " ++ body ++ "\n")
      else if F.isPublic = true then
        ∃ stray protoH, outOf (protoBody F .hbuf) g = .ok (stray, protoH) ∧
          g'.hbuf = g.hbuf ++ (protoH ++ ";\n\n") ∧
          g'.cbuf = g.cbuf ++ (stray ++ proto ++ " " ++ body ++ "\n")
      else
        g'.hbuf = g.hbuf ∧ g'.cbuf = g.cbuf ++ ("static " ++ proto ++ " " ++ body ++ "\n") := by
  refine ⟨fun output => EmitFunctionProto_layout F output g, ?_⟩
  obtain ⟨d, hd, hc, hh⟩ := run_of_outOf (EmitFunction_framed F g) hrun
  rw [EmitFunction_layout] at hd
  simp only [seqOuts] at hd
  obtain ⟨a, r1, ha, hr1, hd1⟩ := seqOut_eq_ok hd
  obtain ⟨p, r2, hp, hr2, hd2⟩ := seqOut_eq_ok hr1
  obtain ⟨s, r3, hs, hr3, hd3⟩ := seqOut_eq_ok hr2
  obtain ⟨b, r4, hb, hr4, hd4⟩ := seqOut_eq_ok hr3
  obtain ⟨n, r5, hn, hr5, hd5⟩ := seqOut_eq_ok hr4
  rw [EmitFunctionProto_layout] at hp
  obtain ⟨l, q, hl, hq, hp2⟩ := seqOut_eq_ok hp
  have hq' := cbufOnly_outOf_ok (protoBody_cbufOnly F g) hq
  have hb' := cbufOnly_outOf_ok
    (EmitCompoundStmt_cbufOnly F.body 0 false g) hb
  refine ⟨q.1, b.1, hq', hb', ?_⟩
  have hq2 : q.2 = "" := cbufOnly_outOf (protoBody_cbufOnly F g) hq
  have hb2 : b.2 = "" := cbufOnly_outOf (EmitCompoundStmt_cbufOnly F.body 0 false g) hb
  simp only [written, Except.ok.injEq] at hs hn hl
  cases hr5
  subst hs hn hl hd5 hd4 hd3 hd2 hp2
  rw [hc, hh, hd1]
  by_cases hm : g.mode = .SINGLE_FILE
  · simp only [hm, if_true] at ha ⊢
    obtain ⟨ph, t, hph, ht, ha2⟩ := seqOut_eq_ok ha
    rw [EmitFunctionProto_layout] at hph
    obtain ⟨lh, qh, hlh, hqh, hph2⟩ := seqOut_eq_ok hph
    simp only [written, Except.ok.injEq] at ht hlh
    subst ht hlh ha2 hph2
    refine ⟨qh.1, qh.2, hqh, ?_, ?_⟩
    · by_cases hname : F.name = "main" <;>
        simp [protoLinkage, hm, hname, hq2, hb2, String.append_assoc]
    · by_cases hname : F.name = "main" <;>
        simp [protoLinkage, hm, hname, hq2, hb2, String.append_assoc]
  · have hm' : g.mode = .MULTI_FILE := by
      cases hmode : g.mode with
      | SINGLE_FILE => exact absurd hmode hm
      | MULTI_FILE => rfl
    simp only [hm, if_false] at ha ⊢
    by_cases hpub : F.isPublic = true
    · simp only [hpub, if_true] at ha ⊢
      obtain ⟨ph, t, hph, ht, ha2⟩ := seqOut_eq_ok ha
      rw [EmitFunctionProto_layout] at hph
      obtain ⟨lh, qh, hlh, hqh, hph2⟩ := seqOut_eq_ok hph
      simp only [written, Except.ok.injEq] at ht hlh
      subst ht hlh ha2 hph2
      refine ⟨qh.1, qh.2, hqh, ?_, ?_⟩
      · simp [protoLinkage, hm, hq2, hb2, String.append_assoc]
      · simp [protoLinkage, hm, hq2, hb2, String.append_assoc]
    · have hpub' : F.isPublic = false := by simpa using hpub
      simp only [hpub', Bool.false_eq_true, if_false] at ha ⊢
      simp only [written, Except.ok.injEq] at ha
      subst ha
      constructor
      · simp [protoLinkage, hm, hq2, hb2, String.append_assoc]
      · simp [protoLinkage, hm, hq2, hb2, String.append_assoc]

/-- Witness for C10: the private function `helper` emitted in multi-file
mode. -/
theorem C10_function_linkage_witness :
    ∃ g', EmitFunction exHelper exMulti = .ok g' ∧
      ∃ proto body, outOf (protoBody exHelper .cbuf) exMulti = .ok (proto, "") ∧
        outOf (EmitCompoundStmt exHelper.body 0 false) exMulti = .ok (body, "") ∧
        if exMulti.mode = .SINGLE_FILE then
          ∃ stray protoH, outOf (protoBody exHelper .hbuf) exMulti = .ok (stray, protoH) ∧
            g'.hbuf = exMulti.hbuf ++
              ((if exHelper.name = "main" then "" else "static ") ++ protoH ++ ";\n\n") ∧
            g'.cbuf = exMulti.cbuf ++
              (stray ++ (if exHelper.name = "main" then "" else "static ") ++ proto ++
                " " ++ body ++ "\n")
        else if exHelper.isPublic = true then
          ∃ stray protoH, outOf (protoBody exHelper .hbuf) exMulti = .ok (stray, protoH) ∧
            g'.hbuf = exMulti.hbuf ++ (protoH ++ ";\n\n") ∧
            g'.cbuf = exMulti.cbuf ++ (stray ++ proto ++ " " ++ body ++ "\n")
        else
          g'.hbuf = exMulti.hbuf ∧
            g'.cbuf = exMulti.cbuf ++ ("static " ++ proto ++ " " ++ body ++ "\n") := by
  have hok : completes (EmitFunction exHelper exMulti) = true := by decide!
  cases h : EmitFunction exHelper exMulti with
  | error e => rw [h] at hok; cases hok
  | ok g' => exact ⟨g', rfl, (C10_function_linkage exHelper exMulti g' h).2⟩

/-- C11 (as stated, refuted): in single-file mode the definition of a
variable, private or public, is prefixed with `static `. -/
theorem C11_counterexample :
    (EmitVariable exCounter exSingle).map (fun g => (g.hbuf, g.cbuf)) =
      .ok ("", "static int util_counter;\n\n") ∧
    (EmitVariable exLimit exSingle).map (fun g => (g.hbuf, g.cbuf)) =
      .ok ("", "static int util_limit = 8;\n\n") := by
  decide!

/-- C11 (amended): when `EmitVariable` returns, the definition of the variable
is appended to the source buffer in every case. For a public variable in
multi-file mode the header buffer receives `extern ` and the rest of the
declaration, and no `static ` is written; in every other case the header
buffer is unchanged and the definition is prefixed with `static `. Here
`stray` is what the emission of the header declaration writes to the source
buffer. -/
theorem C11_variable_linkage (V : VarDecl) (g g' : CCodeGenerator)
    (hrun : EmitVariable V g = .ok g') :
    ∃ defn, outOf (variableDefinition V) g = .ok (defn, "") ∧
      if V.isPublic = true ∧ g.mode = .MULTI_FILE then
        ∃ stray ext, outOf (headerDeclaration V) g = .ok (stray, ext) ∧
          g'.hbuf = g.hbuf ++ ("extern " ++ ext) ∧ g'.cbuf = g.cbuf ++ (stray ++ defn)
      else g'.hbuf = g.hbuf ∧ g'.cbuf = g.cbuf ++ ("static " ++ defn) := by
  obtain ⟨d, hd, hc, hh⟩ := run_of_outOf (EmitVariable_framed V g) hrun
  rw [EmitVariable_layout] at hd
  obtain ⟨a, b, ha, hb, hd1⟩ := seqOut_eq_ok hd
  have hb2 : b.2 = "" := cbufOnly_outOf (variableDefinition_cbufOnly V g) hb
  refine ⟨b.1, cbufOnly_outOf_ok (variableDefinition_cbufOnly V g) hb, ?_⟩
  have hmode : g.mode ≠ .SINGLE_FILE ↔ g.mode = .MULTI_FILE := by
    cases g.mode <;> simp
  rw [hc, hh, hd1]
  by_cases hcond : V.isPublic = true ∧ g.mode = .MULTI_FILE
  · have hcond' : V.isPublic = true ∧ g.mode ≠ .SINGLE_FILE := ⟨hcond.1, hmode.2 hcond.2⟩
    rw [if_pos hcond'] at ha
    rw [if_pos hcond]
    obtain ⟨w, x, hw, hx, ha2⟩ := seqOut_eq_ok ha
    simp only [written, Except.ok.injEq] at hw
    subst hw ha2
    refine ⟨x.1, x.2, hx, ?_, ?_⟩
    · simp [hb2, String.append_assoc]
    · simp [String.append_assoc]
  · have hcond' : ¬ (V.isPublic = true ∧ g.mode ≠ .SINGLE_FILE) :=
      fun hh' => hcond ⟨hh'.1, hmode.1 hh'.2⟩
    rw [if_neg hcond'] at ha
    rw [if_neg hcond]
    simp only [written, Except.ok.injEq] at ha
    subst ha
    constructor
    · simp [hb2]
    · simp

/-- Witness for C11 (amended): the public variable `limit` emitted in
multi-file mode. -/
theorem C11_variable_linkage_witness :
    ∃ g', EmitVariable exLimit exMulti = .ok g' ∧
      ∃ defn, outOf (variableDefinition exLimit) exMulti = .ok (defn, "") ∧
        if exLimit.isPublic = true ∧ exMulti.mode = .MULTI_FILE then
          ∃ stray ext, outOf (headerDeclaration exLimit) exMulti = .ok (stray, ext) ∧
            g'.hbuf = exMulti.hbuf ++ ("extern " ++ ext) ∧
            g'.cbuf = exMulti.cbuf ++ (stray ++ defn)
        else g'.hbuf = exMulti.hbuf ∧ g'.cbuf = exMulti.cbuf ++ ("static " ++ defn) := by
  have hok : completes (EmitVariable exLimit exMulti) = true := by decide!
  cases h : EmitVariable exLimit exMulti with
  | error e => rw [h] at hok; cases hok
  | ok g' => exact ⟨g', rfl, C11_variable_linkage exLimit exMulti g' h⟩

/-- C12 (the code evaluated at the failing input): for the public type `Vec`
the header buffer receives the typedef without the array size and the source
buffer, which should stay unchanged, receives `(2)`; the same type declared
private is written whole to the source buffer. -/
theorem C12_public_typedef_evaluated :
    (EmitType exPublicVec exMulti).map (fun g => (g.hbuf, g.cbuf)) =
      .ok ("typedef struct \x7b\n    int v[];\n\x7d util_Vec;\n\n", "(2)") ∧
    (EmitType exPrivateVec exMulti).map (fun g => (g.hbuf, g.cbuf)) =
      .ok ("", "typedef struct \x7b\n    int v[(2)];\n\x7d util_Vec;\n\n") := by
  decide!

theorem outOf_addCurpkgName {g0 : CCodeGenerator} {m : String} (hm : g0.curpkg = some m)
    (name : String) (output : Buf) :
    outOf (addCurpkgName name output) g0 = written output (m ++ "_" ++ name) := by
  rw [← outOf_written g0 output]
  unfold outOf
  simp only [addCurpkgName, setBufs, hm, Utils.addName]

theorem protoBody_layout (F : FunctionDecl) (output : Buf) (g0 : CCodeGenerator) :
    outOf (protoBody F output) g0 =
      seqOuts [outOf (EmitTypePreName F.returnType output) g0,
        outOf (EmitTypePostName F.returnType output) g0,
        written output " ",
        outOf (addCurpkgName F.name output) g0,
        written output "(",
        outOf (EmitProtoArgs F.args ((F.args.length : Int) + (if F.isVariadic then 1 else 0))
          output) g0,
        (if F.isVariadic = true then written output "..." else .ok ("", "")),
        written output ")"] := by
  have h := outOf_seqEmit [EmitTypePreName F.returnType output,
      EmitTypePostName F.returnType output, put output " ", addCurpkgName F.name output,
      put output "(",
      EmitProtoArgs F.args ((F.args.length : Int) + (if F.isVariadic then 1 else 0)) output,
      (fun g => if F.isVariadic = true then put output "..." g else pure g),
      put output ")"] g0
    ⟨EmitTypePreName_framed _ _ g0, EmitTypePostName_framed _ _ g0, framedAt_put g0 _ _,
      framedAt_addCurpkgName g0 _ _, framedAt_put g0 _ _, EmitProtoArgs_framed _ _ _ g0,
      framedAt_ite _ (framedAt_put g0 _ _) (framedAt_pure g0), framedAt_put g0 _ _, trivial⟩
  simp only [List.map, outOf_written, outOf_ite, outOf_pure] at h
  exact h

theorem headerDeclaration_layout (V : VarDecl) (g0 : CCodeGenerator) :
    outOf (headerDeclaration V) g0 =
      seqOuts [outOf (EmitTypePreName V.type .hbuf) g0,
        written .hbuf " ",
        outOf (addCurpkgName V.name .hbuf) g0,
        outOf (EmitTypePostName V.type .hbuf) g0,
        written .hbuf ";\n",
        written .hbuf "\n"] := by
  have h := outOf_seqEmit [EmitTypePreName V.type .hbuf, put .hbuf " ",
      addCurpkgName V.name .hbuf, EmitTypePostName V.type .hbuf, put .hbuf ";\n",
      put .hbuf "\n"] g0
    ⟨EmitTypePreName_framed _ _ g0, framedAt_put g0 _ _, framedAt_addCurpkgName g0 _ _,
      EmitTypePostName_framed _ _ g0, framedAt_put g0 _ _, framedAt_put g0 _ _, trivial⟩
  simp only [List.map, outOf_written] at h
  exact h

theorem EmitType_layout (T : TypeDecl) (g0 : CCodeGenerator) :
    outOf (EmitType T) g0 =
      seqOuts [written (if T.isPublic = true then .hbuf else .cbuf) "typedef ",
        outOf (EmitTypePreName T.type (if T.isPublic = true then .hbuf else .cbuf)) g0,
        outOf (EmitTypePostName T.type (if T.isPublic = true then .hbuf else .cbuf)) g0,
        written (if T.isPublic = true then .hbuf else .cbuf) " ",
        outOf (addCurpkgName T.name (if T.isPublic = true then .hbuf else .cbuf)) g0,
        written (if T.isPublic = true then .hbuf else .cbuf) ";\n",
        written (if T.isPublic = true then .hbuf else .cbuf) "\n"] := by
  have h := outOf_seqEmit [put (if T.isPublic = true then .hbuf else .cbuf) "typedef ",
      EmitTypePreName T.type (if T.isPublic = true then .hbuf else .cbuf),
      EmitTypePostName T.type (if T.isPublic = true then .hbuf else .cbuf),
      put (if T.isPublic = true then .hbuf else .cbuf) " ",
      addCurpkgName T.name (if T.isPublic = true then .hbuf else .cbuf),
      put (if T.isPublic = true then .hbuf else .cbuf) ";\n",
      put (if T.isPublic = true then .hbuf else .cbuf) "\n"] g0
    ⟨framedAt_put g0 _ _, EmitTypePreName_framed _ _ g0, EmitTypePostName_framed _ _ g0,
      framedAt_put g0 _ _, framedAt_addCurpkgName g0 _ _, framedAt_put g0 _ _,
      framedAt_put g0 _ _, trivial⟩
  simp only [List.map, outOf_written] at h
  exact h

theorem variableDefinition_layout (V : VarDecl) (g0 : CCodeGenerator) :
    outOf (variableDefinition V) g0 =
      seqOuts [outOf (EmitTypePreName V.type .cbuf) g0,
        written .cbuf " ",
        outOf (addCurpkgName V.name .cbuf) g0,
        outOf (EmitTypePostName V.type .cbuf) g0,
        (match V.initValue with
          | some initValue => seqOut (written .cbuf " = ") (outOf (EmitExpr initValue .cbuf) g0)
          | none => .ok ("", "")),
        (if V.incrValues.length ≠ 0 then
          seqOuts [written .cbuf " = \x7b\n", outOf (EmitIncrValues V.incrValues) g0,
            written .cbuf "\x7d"]
        else .ok ("", "")),
        written .cbuf ";\n",
        written .cbuf "\n"] := by
  obtain ⟨name, pub, ty, init, incr⟩ := V
  have hincr : FramedAt g0 (fun g => put .cbuf " = \x7b\n" g >>= fun g =>
      EmitIncrValues incr g >>= put .cbuf "\x7d") :=
    framedAt_bind (framedAt_put g0 _ _)
      (framedAt_bind (EmitIncrValues_framed incr g0) (framedAt_put g0 _ _))
  have hincrOut : outOf (fun g => put .cbuf " = \x7b\n" g >>= fun g =>
      EmitIncrValues incr g >>= put .cbuf "\x7d") g0 =
      seqOuts [written .cbuf " = \x7b\n", outOf (EmitIncrValues incr) g0,
        written .cbuf "\x7d"] := by
    have h := outOf_seqEmit [put .cbuf " = \x7b\n", EmitIncrValues incr, put .cbuf "\x7d"] g0
      ⟨framedAt_put g0 _ _, EmitIncrValues_framed incr g0, framedAt_put g0 _ _, trivial⟩
    simp only [List.map, outOf_written] at h
    exact h
  cases init with
  | none =>
    have h := outOf_seqEmit [EmitTypePreName ty .cbuf, put .cbuf " ",
        addCurpkgName name .cbuf, EmitTypePostName ty .cbuf,
        (fun g => (pure g : Emit)),
        (fun g => if incr.length ≠ 0 then (put .cbuf " = \x7b\n" g >>= fun g =>
          EmitIncrValues incr g >>= put .cbuf "\x7d") else pure g),
        put .cbuf ";\n", put .cbuf "\n"] g0
      ⟨EmitTypePreName_framed _ _ g0, framedAt_put g0 _ _, framedAt_addCurpkgName g0 _ _,
        EmitTypePostName_framed _ _ g0, framedAt_pure g0,
        framedAt_ite _ hincr (framedAt_pure g0), framedAt_put g0 _ _, framedAt_put g0 _ _,
        trivial⟩
    simp only [List.map, outOf_written, outOf_ite, outOf_pure, hincrOut] at h
    exact h
  | some e =>
    have h := outOf_seqEmit [EmitTypePreName ty .cbuf, put .cbuf " ",
        addCurpkgName name .cbuf, EmitTypePostName ty .cbuf,
        (fun g => put .cbuf " = " g >>= EmitExpr e .cbuf),
        (fun g => if incr.length ≠ 0 then (put .cbuf " = \x7b\n" g >>= fun g =>
          EmitIncrValues incr g >>= put .cbuf "\x7d") else pure g),
        put .cbuf ";\n", put .cbuf "\n"] g0
      ⟨EmitTypePreName_framed _ _ g0, framedAt_put g0 _ _, framedAt_addCurpkgName g0 _ _,
        EmitTypePostName_framed _ _ g0,
        framedAt_bind (framedAt_put g0 _ _) (EmitExpr_framed e .cbuf g0),
        framedAt_ite _ hincr (framedAt_pure g0), framedAt_put g0 _ _, framedAt_put g0 _ _,
        trivial⟩
    simp only [List.map, outOf_written, outOf_ite, outOf_pure, hincrOut,
      outOf_seq (framedAt_put g0 .cbuf " = ") (EmitExpr_framed e .cbuf g0)] at h
    exact h

/-- C13: while the generator works on module `m`, every prototype, `extern`
declaration, variable definition and typedef carries the name
`m ++ "_" ++ n` of its declaration, between the texts the other emitters
contribute; an identifier expression that resolved to a package is written as
the C name of the package, `_` and its name, any other identifier as its bare
name. -/
theorem C13_mangled_names (g : CCodeGenerator) (m : String) (hm : g.curpkg = some m) :
    (∀ (F : FunctionDecl) (output : Buf), outOf (EmitFunctionProto F output) g =
      seqOuts [written output (protoLinkage g.mode F.name),
        outOf (EmitTypePreName F.returnType output) g,
        outOf (EmitTypePostName F.returnType output) g,
        written output " ",
        written output (m ++ "_" ++ F.name),
        written output "(",
        outOf (EmitProtoArgs F.args ((F.args.length : Int) + (if F.isVariadic then 1 else 0))
          output) g,
        (if F.isVariadic = true then written output "..." else .ok ("", "")),
        written output ")"]) ∧
    (∀ V : VarDecl, outOf (EmitVariable V) g =
      seqOut
        (if V.isPublic = true ∧ g.mode ≠ .SINGLE_FILE then
          seqOuts [written .hbuf "extern ",
            outOf (EmitTypePreName V.type .hbuf) g,
            written .hbuf " ",
            written .hbuf (m ++ "_" ++ V.name),
            outOf (EmitTypePostName V.type .hbuf) g,
            written .hbuf ";\n",
            written .hbuf "\n"]
        else written .cbuf "static ")
        (seqOuts [outOf (EmitTypePreName V.type .cbuf) g,
          written .cbuf " ",
          written .cbuf (m ++ "_" ++ V.name),
          outOf (EmitTypePostName V.type .cbuf) g,
          (match V.initValue with
            | some initValue => seqOut (written .cbuf " = ") (outOf (EmitExpr initValue .cbuf) g)
            | none => .ok ("", "")),
          (if V.incrValues.length ≠ 0 then
            seqOuts [written .cbuf " = \x7b\n", outOf (EmitIncrValues V.incrValues) g,
              written .cbuf "\x7d"]
          else .ok ("", "")),
          written .cbuf ";\n",
          written .cbuf "\n"])) ∧
    (∀ T : TypeDecl, outOf (EmitType T) g =
      seqOuts [written (if T.isPublic = true then .hbuf else .cbuf) "typedef ",
        outOf (EmitTypePreName T.type (if T.isPublic = true then .hbuf else .cbuf)) g,
        outOf (EmitTypePostName T.type (if T.isPublic = true then .hbuf else .cbuf)) g,
        written (if T.isPublic = true then .hbuf else .cbuf) " ",
        written (if T.isPublic = true then .hbuf else .cbuf) (m ++ "_" ++ T.name),
        written (if T.isPublic = true then .hbuf else .cbuf) ";\n",
        written (if T.isPublic = true then .hbuf else .cbuf) "\n"]) ∧
    (∀ (name : String) (P : Package) (output : Buf) (g1 : CCodeGenerator),
      EmitIdentifierExpr ⟨name, some P⟩ output g1 = put output (P.cname ++ "_" ++ name) g1) ∧
    (∀ (name : String) (output : Buf) (g1 : CCodeGenerator),
      EmitIdentifierExpr ⟨name, none⟩ output g1 = put output name g1) := by
  refine ⟨fun F output => ?_, fun V => ?_, fun T => ?_, fun _ _ _ _ => rfl, fun _ _ _ => rfl⟩
  · rw [EmitFunctionProto_layout, protoBody_layout, outOf_addCurpkgName hm]
    rfl
  · rw [EmitVariable_layout, headerDeclaration_layout, variableDefinition_layout,
      outOf_addCurpkgName hm, outOf_addCurpkgName hm]
    rfl
  · rw [EmitType_layout, outOf_addCurpkgName hm]

/-- Witness for C13: the prototype of `helper` while the generator works on
module `util`. -/
theorem C13_mangled_names_witness :
    exMulti.curpkg = some "util" ∧
      outOf (EmitFunctionProto exHelper .cbuf) exMulti =
        seqOuts [written .cbuf (protoLinkage exMulti.mode exHelper.name),
          outOf (EmitTypePreName exHelper.returnType .cbuf) exMulti,
          outOf (EmitTypePostName exHelper.returnType .cbuf) exMulti,
          written .cbuf " ",
          written .cbuf ("util" ++ "_" ++ exHelper.name),
          written .cbuf "(",
          outOf (EmitProtoArgs exHelper.args
            ((exHelper.args.length : Int) + (if exHelper.isVariadic then 1 else 0)) .cbuf) exMulti,
          (if exHelper.isVariadic = true then written .cbuf "..." else .ok ("", "")),
          written .cbuf ")"] :=
  ⟨rfl, (C13_mangled_names exMulti "util" rfl).1 exHelper .cbuf⟩

theorem EmitMembers_layout : ∀ (ms : List DeclExpr) (output : Buf) (g0 : CCodeGenerator),
    outOf (EmitMembers ms output) g0 = seqOuts (ms.map (memberOut output g0))
  | [], output, g0 => by
      simp only [EmitMembers, List.map, seqOuts]
      rfl
  | mem :: rest, output, g0 => by
      have e : EmitMembers (mem :: rest) output = fun g =>
          (fun g => EmitDeclExpr mem output INDENT g >>= put output ";\n") g >>=
            EmitMembers rest output := by
        funext g
        simp only [EmitMembers]
        cases EmitDeclExpr mem output INDENT g <;> rfl
      rw [e, outOf_seq (framedAt_bind (EmitDeclExpr_framed mem output INDENT g0)
          (framedAt_put g0 output _)) (EmitMembers_framed rest output g0),
        outOf_seq (EmitDeclExpr_framed mem output INDENT g0) (framedAt_put g0 output _),
        outOf_written, EmitMembers_layout rest output g0]
      rfl

theorem outOf_initValue (output : Buf) (g0 : CCodeGenerator) (e : Expr) :
    outOf (fun g => put output " = " g >>= EmitExpr e output) g0 =
      initOut output g0 (some e) := by
  rw [outOf_seq (framedAt_put g0 output _) (EmitExpr_framed e output g0), outOf_written]
  rfl

theorem EmitEnumConstants_layout : ∀ (ms : List DeclExpr) (output : Buf)
    (g0 : CCodeGenerator),
    outOf (EmitEnumConstants ms output) g0 = seqOuts (ms.map (enumConstantOut output g0))
  | [], output, g0 => by
      simp only [EmitEnumConstants, List.map, seqOuts]
      rfl
  | .mk name t none loc :: rest, output, g0 => by
      have e : EmitEnumConstants (.mk name t none loc :: rest) output = fun g =>
          seqEmit [indent output INDENT, addCurpkgName name output, put output ",\n"] g >>=
            EmitEnumConstants rest output := by
        funext g
        simp only [EmitEnumConstants, seqEmit, bind_assoc]
      have hall : allFramed g0 [indent output INDENT, addCurpkgName name output,
          put output ",\n"] :=
        ⟨framedAt_indent g0 output INDENT, framedAt_addCurpkgName g0 name output,
          framedAt_put g0 output _, trivial⟩
      rw [e, outOf_seq (seqEmit_framed _ g0 hall) (EmitEnumConstants_framed rest output g0),
        outOf_seqEmit _ g0 hall, EmitEnumConstants_layout rest output g0]
      simp only [List.map, outOf_indent, outOf_written, enumConstantOut, initOut, seqOuts,
        seqOut_ok_left]
  | .mk name t (some init) loc :: rest, output, g0 => by
      have e : EmitEnumConstants (.mk name t (some init) loc :: rest) output = fun g =>
          seqEmit [indent output INDENT, addCurpkgName name output,
            (fun g => put output " = " g >>= EmitExpr init output), put output ",\n"] g >>=
            EmitEnumConstants rest output := by
        funext g
        simp only [EmitEnumConstants, seqEmit, bind_assoc]
      have hall : allFramed g0 [indent output INDENT, addCurpkgName name output,
          (fun g => put output " = " g >>= EmitExpr init output), put output ",\n"] :=
        ⟨framedAt_indent g0 output INDENT, framedAt_addCurpkgName g0 name output,
          framedAt_bind (framedAt_put g0 output _) (EmitExpr_framed init output g0),
          framedAt_put g0 output _, trivial⟩
      rw [e, outOf_seq (seqEmit_framed _ g0 hall) (EmitEnumConstants_framed rest output g0),
        outOf_seqEmit _ g0 hall, EmitEnumConstants_layout rest output g0]
      simp only [List.map, outOf_indent, outOf_written, outOf_initValue, enumConstantOut,
        seqOuts]

theorem EmitDeclExpr_layout (name : String) (type : QualType) (initValue : Option Expr)
    (loc : Bool) (output : Buf) (ind : Nat) (g0 : CCodeGenerator) :
    outOf (EmitDeclExpr (.mk name type initValue loc) output ind) g0 =
      seqOuts [written output (indentText ind),
        (if loc = true then written output "static " else .ok ("", "")),
        outOf (EmitTypePreName type output) g0,
        written output " ",
        written output name,
        outOf (EmitTypePostName type output) g0,
        initOut output g0 initValue] := by
  cases initValue with
  | none =>
    have hall : allFramed g0 [indent output ind,
        (fun g => if loc = true then put output "static " g else pure g),
        EmitTypePreName type output, put output " ", put output name,
        EmitTypePostName type output] :=
      ⟨framedAt_indent g0 output ind,
        framedAt_ite _ (framedAt_put g0 output _) (framedAt_pure g0),
        EmitTypePreName_framed type output g0, framedAt_put g0 output _,
        framedAt_put g0 output _, EmitTypePostName_framed type output g0, trivial⟩
    have e : EmitDeclExpr (.mk name type none loc) output ind = seqEmit [indent output ind,
        (fun g => if loc = true then put output "static " g else pure g),
        EmitTypePreName type output, put output " ", put output name,
        EmitTypePostName type output] := by
      funext g
      simp only [EmitDeclExpr, seqEmit]
    rw [e, outOf_seqEmit _ g0 hall]
    simp only [List.map, outOf_indent, outOf_written, outOf_ite, outOf_pure, initOut, seqOuts,
      seqOut_ok_right]
  | some init =>
    have hall : allFramed g0 [indent output ind,
        (fun g => if loc = true then put output "static " g else pure g),
        EmitTypePreName type output, put output " ", put output name,
        EmitTypePostName type output,
        (fun g => put output " = " g >>= EmitExpr init output)] :=
      ⟨framedAt_indent g0 output ind,
        framedAt_ite _ (framedAt_put g0 output _) (framedAt_pure g0),
        EmitTypePreName_framed type output g0, framedAt_put g0 output _,
        framedAt_put g0 output _, EmitTypePostName_framed type output g0,
        framedAt_bind (framedAt_put g0 output _) (EmitExpr_framed init output g0), trivial⟩
    have e : EmitDeclExpr (.mk name type (some init) loc) output ind =
        seqEmit [indent output ind,
          (fun g => if loc = true then put output "static " g else pure g),
          EmitTypePreName type output, put output " ", put output name,
          EmitTypePostName type output,
          (fun g => put output " = " g >>= EmitExpr init output)] := by
      funext g
      simp only [EmitDeclExpr, seqEmit]
    rw [e, outOf_seqEmit _ g0 hall]
    simp only [List.map, outOf_indent, outOf_written, outOf_ite, outOf_pure, outOf_initValue]

theorem outOf_block (kw : String) (body : CCodeGenerator → Emit) (output : Buf)
    (g0 : CCodeGenerator) (hbody : FramedAt g0 body) :
    outOf (fun g => put output kw g >>= fun g => body g >>= put output "\x7d") g0 =
      seqOuts [written output kw, outOf body g0, written output "\x7d"] := by
  have hall : allFramed g0 [put output kw, body, put output "\x7d"] :=
    ⟨framedAt_put g0 output _, hbody, framedAt_put g0 output _, trivial⟩
  have h := outOf_seqEmit _ g0 hall
  simp only [List.map, outOf_written] at h
  exact h

theorem outOf_empty_block (kw : String) (output : Buf) (g0 : CCodeGenerator) :
    outOf (fun g => put output kw g >>= put output "\x7d") g0 =
      seqOuts [written output kw, seqOuts [], written output "\x7d"] := by
  rw [outOf_seq (framedAt_put g0 output _) (framedAt_put g0 output _), outOf_written,
    outOf_written]
  simp only [seqOuts, seqOut_ok_left, seqOut_ok_right]

/-- C14: the pre-name rendering of a struct or union type is the opening line,
then every member in member order through `EmitDeclExpr` at indent `INDENT`,
each followed by `;` and a newline, then the closing brace; `EmitDeclExpr`
writes the bare name of the declaration; the pre-name rendering of an enum
type is the opening line, then every constant in order as indentation, the
name mangled with the current module, ` = ` and the initialiser when one is
present, `,` and a newline, then the closing brace. -/
theorem C14_members_and_constants (output : Buf) (g : CCodeGenerator) :
    (∀ (members : Option (List DeclExpr)) (q : Nat),
      outOf (EmitTypePreName (.mk (.STRUCT members) q) output) g =
        seqOuts [written output "struct \x7b\n",
          seqOuts ((members.getD []).map fun mem =>
            seqOut (outOf (EmitDeclExpr mem output INDENT) g) (written output ";\n")),
          written output "\x7d"]) ∧
    (∀ (members : Option (List DeclExpr)) (q : Nat),
      outOf (EmitTypePreName (.mk (.UNION members) q) output) g =
        seqOuts [written output "union \x7b\n",
          seqOuts ((members.getD []).map fun mem =>
            seqOut (outOf (EmitDeclExpr mem output INDENT) g) (written output ";\n")),
          written output "\x7d"]) ∧
    (∀ (name : String) (type : QualType) (initValue : Option Expr) (loc : Bool) (ind : Nat),
      outOf (EmitDeclExpr (.mk name type initValue loc) output ind) g =
        seqOuts [written output (indentText ind),
          (if loc = true then written output "static " else .ok ("", "")),
          outOf (EmitTypePreName type output) g,
          written output " ",
          written output name,
          outOf (EmitTypePostName type output) g,
          initOut output g initValue]) ∧
    (∀ (members : Option (List DeclExpr)) (q : Nat),
      outOf (EmitTypePreName (.mk (.ENUM members) q) output) g =
        seqOuts [written output "enum \x7b\n",
          seqOuts ((members.getD []).map (enumConstantOut output g)),
          written output "\x7d"]) ∧
    (∀ name : String, outOf (addCurpkgName name output) g =
      match g.curpkg with
      | some m => outOf (Utils.addName m name output) g
      | none => .error .nullCurpkg) := by
  refine ⟨fun members q => ?_, fun members q => ?_,
    fun name type initValue loc ind => EmitDeclExpr_layout name type initValue loc output ind g,
    fun members q => ?_, fun name => ?_⟩
  · cases members with
    | none =>
      have e : EmitTypePreName (.mk (.STRUCT none) q) output = fun g =>
          put output "struct \x7b\n" g >>= put output "\x7d" := by
        funext g1
        simp only [EmitTypePreName]
      rw [e, outOf_empty_block]
      rfl
    | some ms =>
      have e : EmitTypePreName (.mk (.STRUCT (some ms)) q) output = fun g =>
          put output "struct \x7b\n" g >>= fun g => EmitMembers ms output g >>=
            put output "\x7d" := by
        funext g1
        simp only [EmitTypePreName]
      rw [e, outOf_block _ _ _ _ (EmitMembers_framed ms output g), EmitMembers_layout]
      rfl
  · cases members with
    | none =>
      have e : EmitTypePreName (.mk (.UNION none) q) output = fun g =>
          put output "union \x7b\n" g >>= put output "\x7d" := by
        funext g1
        simp only [EmitTypePreName]
      rw [e, outOf_empty_block]
      rfl
    | some ms =>
      have e : EmitTypePreName (.mk (.UNION (some ms)) q) output = fun g =>
          put output "union \x7b\n" g >>= fun g => EmitMembers ms output g >>=
            put output "\x7d" := by
        funext g1
        simp only [EmitTypePreName]
      rw [e, outOf_block _ _ _ _ (EmitMembers_framed ms output g), EmitMembers_layout]
      rfl
  · cases members with
    | none =>
      have e : EmitTypePreName (.mk (.ENUM none) q) output = fun g =>
          put output "enum \x7b\n" g >>= put output "\x7d" := by
        funext g1
        simp only [EmitTypePreName]
      rw [e, outOf_empty_block]
      rfl
    | some ms =>
      have e : EmitTypePreName (.mk (.ENUM (some ms)) q) output = fun g =>
          put output "enum \x7b\n" g >>= fun g => EmitEnumConstants ms output g >>=
            put output "\x7d" := by
        funext g1
        simp only [EmitTypePreName]
      rw [e, outOf_block _ _ _ _ (EmitEnumConstants_framed ms output g),
        EmitEnumConstants_layout]
      rfl
  · unfold outOf
    simp only [addCurpkgName, setBufs]
    cases g.curpkg <;> rfl

theorem EmitTypePostName_array_layout (e : QualType) (n : Option Expr) (q : Nat)
    (output : Buf) (g0 : CCodeGenerator) :
    outOf (EmitTypePostName (.mk (.ARRAY e n) q) output) g0 =
      seqOut (outOf (EmitTypePostName e output) g0) (bracketOut output g0 n) := by
  cases n with
  | none =>
    have hall : allFramed g0 [EmitTypePostName e output, put output "[", put output "]"] :=
      ⟨EmitTypePostName_framed e output g0, framedAt_put g0 output _,
        framedAt_put g0 output _, trivial⟩
    have eq : EmitTypePostName (.mk (.ARRAY e none) q) output =
        seqEmit [EmitTypePostName e output, put output "[", put output "]"] := by
      funext g
      simp only [EmitTypePostName, seqEmit]
    rw [eq, outOf_seqEmit _ g0 hall]
    simp only [List.map, outOf_written, bracketOut, seqOuts, seqOut_ok_left]
  | some size =>
    have hall : allFramed g0 [EmitTypePostName e output, put output "[",
        EmitExpr size output, put output "]"] :=
      ⟨EmitTypePostName_framed e output g0, framedAt_put g0 output _,
        EmitExpr_framed size output g0, framedAt_put g0 output _, trivial⟩
    have eq : EmitTypePostName (.mk (.ARRAY e (some size)) q) output =
        seqEmit [EmitTypePostName e output, put output "[", EmitExpr size output,
          put output "]"] := by
      funext g
      simp only [EmitTypePostName, seqEmit]
    rw [eq, outOf_seqEmit _ g0 hall]
    simp only [List.map, outOf_written, bracketOut, seqOuts]

theorem EmitTypePostName_nonArray : ∀ (t : QualType) (output : Buf) (g : CCodeGenerator),
    t.isArrayType = true ∨ EmitTypePostName t output g = .ok g
  | .mk (.ARRAY _ _) _, _, _ => Or.inl rfl
  | .mk (.BUILTIN _ _) _, _, _ => Or.inr (by simp only [EmitTypePostName])
  | .mk (.USER _) _, _, _ => Or.inr (by simp only [EmitTypePostName])
  | .mk (.STRUCT _) _, _, _ => Or.inr (by simp only [EmitTypePostName])
  | .mk (.UNION _) _, _, _ => Or.inr (by simp only [EmitTypePostName])
  | .mk (.ENUM _) _, _, _ => Or.inr (by simp only [EmitTypePostName])
  | .mk .FUNC _, _, _ => Or.inr (by simp only [EmitTypePostName])
  | .mk (.POINTER _) _, _, _ => Or.inr (by simp only [EmitTypePostName])

theorem EmitTypePostName_arrayOf (base : QualType) (output : Buf) (g0 : CCodeGenerator)
    (hbase : ∀ g, EmitTypePostName base output g = .ok g) :
    ∀ dims : List (Option Expr × Nat),
      outOf (EmitTypePostName (arrayOf base dims) output) g0 =
        seqOuts (dims.reverse.map fun d => bracketOut output g0 d.1)
  | [] => by
      have e : EmitTypePostName base output = fun g => .ok g := funext hbase
      simp only [arrayOf, List.reverse_nil, List.map, seqOuts]
      rw [e]
      rfl
  | (size, q) :: rest => by
      simp only [arrayOf, List.reverse_cons, List.map_append, List.map, seqOuts_append]
      rw [EmitTypePostName_array_layout, EmitTypePostName_arrayOf base output g0 hbase rest,
        seqOuts_single]

/-- C15: type projection. The pre-name of an array type is the pre-name of its
element type, with no bracket; the pre-name of a pointer type is the pre-name
of the pointee followed by `*`; the post-name of an array type is the
post-name of its element type followed by one bracket group holding the size
expression when there is one; the post-name of a type that is not an array is
empty; so the post-name of an array with `n` dimensions over a base that is
not an array is exactly its `n` bracket groups, the innermost first. -/
theorem C15_type_projection (output : Buf) (g : CCodeGenerator) :
    (∀ (e : QualType) (n : Option Expr) (q : Nat),
      EmitTypePreName (.mk (.ARRAY e n) q) output g = EmitTypePreName e output g) ∧
    (∀ (p : QualType) (q : Nat),
      outOf (EmitTypePreName (.mk (.POINTER p) q) output) g =
        seqOut (outOf (EmitTypePreName p output) g) (written output "*")) ∧
    (∀ (e : QualType) (n : Option Expr) (q : Nat),
      outOf (EmitTypePostName (.mk (.ARRAY e n) q) output) g =
        seqOut (outOf (EmitTypePostName e output) g)
          (seqOuts [written output "[",
            (match n with
              | some arrayExpr => outOf (EmitExpr arrayExpr output) g
              | none => .ok ("", "")),
            written output "]"])) ∧
    (∀ (t : QualType) (g1 : CCodeGenerator),
      t.isArrayType = true ∨ EmitTypePostName t output g1 = .ok g1) ∧
    (∀ (base : QualType) (dims : List (Option Expr × Nat)),
      base.isArrayType = true ∨
        outOf (EmitTypePostName (arrayOf base dims) output) g =
          seqOuts (dims.reverse.map fun d => bracketOut output g d.1) ∧
        (dims.reverse.map fun d => bracketOut output g d.1).length = dims.length) := by
  refine ⟨fun e n q => ?_, fun p q => ?_, fun e n q => ?_,
    fun t g1 => EmitTypePostName_nonArray t output g1, fun base dims => ?_⟩
  · simp only [EmitTypePreName]
  · have eq : EmitTypePreName (.mk (.POINTER p) q) output = fun g1 =>
        EmitTypePreName p output g1 >>= put output "*" := by
      funext g1
      simp only [EmitTypePreName]
    rw [eq, outOf_seq (EmitTypePreName_framed p output g) (framedAt_put g output _),
      outOf_written]
  · exact EmitTypePostName_array_layout e n q output g
  · cases hb : base.isArrayType with
    | true => exact Or.inl rfl
    | false =>
      refine Or.inr ⟨EmitTypePostName_arrayOf base output g (fun g1 => ?_) dims, by simp⟩
      rcases EmitTypePostName_nonArray base output g1 with h | h
      · rw [hb] at h
        cases h
      · exact h

/-- C16: `ConvertType` maps the builtin kinds i8, u8, i16, u16, i32, u32, i64,
u64, f32, f64, char, bool and void to the C type names of the fixed table. -/
theorem C16_builtin_table (cname : String) :
    ConvertType (.BUILTIN .TYPE_I8 cname) = .ok (some "char") ∧
    ConvertType (.BUILTIN .TYPE_U8 cname) = .ok (some "unsigned char") ∧
    ConvertType (.BUILTIN .TYPE_I16 cname) = .ok (some "short") ∧
    ConvertType (.BUILTIN .TYPE_U16 cname) = .ok (some "unsigned short") ∧
    ConvertType (.BUILTIN .TYPE_I32 cname) = .ok (some "int") ∧
    ConvertType (.BUILTIN .TYPE_U32 cname) = .ok (some "unsigned int") ∧
    ConvertType (.BUILTIN .TYPE_I64 cname) = .ok (some "long long") ∧
    ConvertType (.BUILTIN .TYPE_U64 cname) = .ok (some "unsigned long long") ∧
    ConvertType (.BUILTIN .TYPE_F32 cname) = .ok (some "float") ∧
    ConvertType (.BUILTIN .TYPE_F64 cname) = .ok (some "double") ∧
    ConvertType (.BUILTIN .TYPE_CHAR cname) = .ok (some "char") ∧
    ConvertType (.BUILTIN .TYPE_BOOL cname) = .ok (some "int") ∧
    ConvertType (.BUILTIN .TYPE_VOID cname) = .ok (some "void") :=
  ⟨rfl, rfl, rfl, rfl, rfl, rfl, rfl, rfl, rfl, rfl, rfl, rfl, rfl⟩

/-- C17 (as stated, refuted): for the builtin string kind `ConvertType`
returns the null pointer, not `const char*`. -/
theorem C17_counterexample :
    ConvertType (.BUILTIN .TYPE_STRING "const char*") = .ok none ∧
    ConvertType (.BUILTIN .TYPE_STRING "const char*") ≠ .ok (some "const char*") := by
  constructor
  · rfl
  · intro h
    cases h

/-- C17 (amended): `ConvertType` returns the null pointer for the builtin
string kind, and no kind other than `TYPE_INT` is mapped to `const char*`;
what `TYPE_INT` is mapped to is left open. -/
theorem C17_string_kind (builtinType : C2Type) (cname : String) :
    ConvertType (.BUILTIN .TYPE_STRING cname) = .ok none ∧
    (builtinType = .TYPE_INT ∨
      ConvertType (.BUILTIN builtinType cname) ≠ .ok (some "const char*")) := by
  refine ⟨rfl, ?_⟩
  cases builtinType <;> first
    | exact Or.inl rfl
    | (refine Or.inr ?_; simp only [ConvertType]; decide)

set_option maxHeartbeats 4000000 in
theorem EmitStmts_cons (S : Stmt) (rest : List Stmt) (ind : Nat) :
    EmitStmts (S :: rest) ind = fun g => EmitStmt S ind g >>= EmitStmts rest ind := by
  funext g
  simp only [EmitStmts]

set_option maxHeartbeats 4000000 in
theorem EmitStmts_nil (ind : Nat) : EmitStmts [] ind = fun g => .ok g := by
  funext g
  simp only [EmitStmts]

theorem EmitStmts_layout : ∀ (ss : List Stmt) (ind : Nat) (g0 : CCodeGenerator),
    outOf (EmitStmts ss ind) g0 = seqOuts (ss.map fun S => outOf (EmitStmt S ind) g0)
  | [], ind, g0 => by
      rw [EmitStmts_nil]
      rfl
  | S :: rest, ind, g0 => by
      rw [EmitStmts_cons, outOf_seq ((EmitStmt_framed S).1 ind g0) (EmitStmts_framed rest ind g0),
        EmitStmts_layout rest ind g0]
      rfl

set_option maxHeartbeats 4000000 in
theorem EmitSwitchCases_case (cond : Expr) (stmts rest : List Stmt) (ind : Nat) :
    EmitSwitchCases (.STMT_CASE cond stmts :: rest) ind = fun g =>
      seqEmit [indent .cbuf (ind + INDENT), put .cbuf "case ", EmitExpr cond .cbuf,
        put .cbuf ":\n", EmitStmts stmts (ind + INDENT + INDENT)] g >>=
        EmitSwitchCases rest ind := by
  funext g
  simp only [EmitSwitchCases, seqEmit, bind_assoc]

set_option maxHeartbeats 4000000 in
theorem EmitSwitchCases_default (stmts rest : List Stmt) (ind : Nat) :
    EmitSwitchCases (.STMT_DEFAULT stmts :: rest) ind = fun g =>
      seqEmit [indent .cbuf (ind + INDENT), put .cbuf "default:\n",
        EmitStmts stmts (ind + INDENT + INDENT)] g >>= EmitSwitchCases rest ind := by
  funext g
  simp only [EmitSwitchCases, seqEmit, bind_assoc]

set_option maxHeartbeats 4000000 in
theorem EmitSwitchCases_other (S : Stmt) (rest : List Stmt) (ind : Nat) (g : CCodeGenerator) :
    S.isCaseOrDefault = true ∨ EmitSwitchCases (S :: rest) ind g = .error (.assertion "0") := by
  cases S <;> first
    | exact Or.inl rfl
    | (refine Or.inr ?_; simp only [EmitSwitchCases])

theorem outOf_error_of_forall {g0 : CCodeGenerator} {f : CCodeGenerator → Emit} {e : EmitError}
    (h : ∀ g, f g = .error e) : outOf f g0 = .error e := by
  unfold outOf
  rw [h]
  rfl

theorem two_mul_INDENT (ind : Nat) : ind + INDENT + INDENT = ind + 2 * INDENT := by omega

theorem EmitSwitchCases_layout : ∀ (cs : List Stmt) (ind : Nat) (g0 : CCodeGenerator),
    outOf (EmitSwitchCases cs ind) g0 = seqOuts (cs.map (switchChildOut g0 ind))
  | [], ind, g0 => by
      have e : EmitSwitchCases [] ind = fun g => .ok g := by
        funext g
        simp only [EmitSwitchCases]
      rw [e]
      rfl
  | S :: rest, ind, g0 => by
      have ih := EmitSwitchCases_layout rest ind g0
      cases S with
      | STMT_CASE cond stmts =>
        have hall : allFramed g0 [indent .cbuf (ind + INDENT), put .cbuf "case ",
            EmitExpr cond .cbuf, put .cbuf ":\n", EmitStmts stmts (ind + INDENT + INDENT)] :=
          ⟨framedAt_indent g0 _ _, framedAt_put g0 _ _, EmitExpr_framed cond .cbuf g0,
            framedAt_put g0 _ _, EmitStmts_framed stmts _ g0, trivial⟩
        rw [EmitSwitchCases_case, outOf_seq (seqEmit_framed _ g0 hall)
          (EmitSwitchCases_framed rest ind g0), outOf_seqEmit _ g0 hall, ih]
        simp only [List.map, outOf_indent, outOf_written, EmitStmts_layout, two_mul_INDENT,
          switchChildOut, seqOuts]
      | STMT_DEFAULT stmts =>
        have hall : allFramed g0 [indent .cbuf (ind + INDENT), put .cbuf "default:\n",
            EmitStmts stmts (ind + INDENT + INDENT)] :=
          ⟨framedAt_indent g0 _ _, framedAt_put g0 _ _, EmitStmts_framed stmts _ g0, trivial⟩
        rw [EmitSwitchCases_default, outOf_seq (seqEmit_framed _ g0 hall)
          (EmitSwitchCases_framed rest ind g0), outOf_seqEmit _ g0 hall, ih]
        simp only [List.map, outOf_indent, outOf_written, EmitStmts_layout, two_mul_INDENT,
          switchChildOut, seqOuts]
      | _ =>
        rw [outOf_error_of_forall (fun g => (EmitSwitchCases_other _ rest ind g).resolve_left
          (by simp [Stmt.isCaseOrDefault]))]
        rfl

set_option maxHeartbeats 4000000 in
theorem EmitStmt_switch_eq (cond : Expr) (cases : List Stmt) (ind : Nat) :
    EmitStmt (.STMT_SWITCH cond cases) ind = seqEmit [indent .cbuf ind, put .cbuf "switch (",
      EmitExpr cond .cbuf, put .cbuf ") \x7b\n", EmitSwitchCases cases ind, indent .cbuf ind,
      put .cbuf "\x7d\n"] := by
  funext g
  simp only [EmitStmt, seqEmit]

set_option maxHeartbeats 4000000 in
theorem EmitStmt_case_default (ind : Nat) (g : CCodeGenerator) :
    (∀ (e : Expr) (ss : List Stmt), EmitStmt (.STMT_CASE e ss) ind g =
      .error (.assertion "0 && \"Should already be generated\"")) ∧
    (∀ ss : List Stmt, EmitStmt (.STMT_DEFAULT ss) ind g =
      .error (.assertion "0 && \"Should already be generated\"")) :=
  ⟨fun e ss => by simp only [EmitStmt], fun ss => by simp only [EmitStmt]⟩

theorem seqOut_error_left (e : EmitError) (y : Except EmitError (String × String)) :
    seqOut (.error e) y = .error e := rfl

theorem seqOut_error_right (x : Except EmitError (String × String)) (e : EmitError) :
    ∃ e', seqOut x (.error e) = .error e' := by
  cases x with
  | error e0 => exact ⟨e0, rfl⟩
  | ok a => exact ⟨e, rfl⟩

theorem seqOuts_error_of_mem : ∀ (xs : List (Except EmitError (String × String)))
    (e : EmitError), .error e ∈ xs → ∃ e', seqOuts xs = .error e'
  | [], _, h => by cases h
  | x :: rest, e, h => by
      rcases List.mem_cons.1 h with h1 | h1
      · rw [← h1]
        exact ⟨e, rfl⟩
      · obtain ⟨e1, he1⟩ := seqOuts_error_of_mem rest e h1
        show ∃ e', seqOut x (seqOuts rest) = .error e'
        rw [he1]
        exact seqOut_error_right x e1

theorem run_error_of_outOf {g : CCodeGenerator} {f : CCodeGenerator → Emit} {e : EmitError}
    (hf : FramedAt g f) (h : outOf f g = .error e) : f g = .error e := by
  have h1 := framedAt_run hf g.cbuf g.hbuf
  rw [setBufs_self, h] at h1
  exact h1

/-- C18: a switch statement at indent `ind` is emitted as the line
`switch (<cond>) {`, then for each child in list order the line `case <expr>:`
or `default:` at `ind + INDENT` followed by the statements of that child in
order at `ind + 2 * INDENT`, then the closing brace at `ind`; a `Case` or
`Default` statement given to `EmitStmt` itself fails an assertion, a child that
is neither fails the assertion of the case loop, and a switch with such a child
does not complete. -/
theorem C18_switch_layout (cond : Expr) (cases : List Stmt) (ind : Nat) (g : CCodeGenerator) :
    outOf (EmitStmt (.STMT_SWITCH cond cases) ind) g =
      seqOuts [written .cbuf (indentText ind), written .cbuf "switch (",
        outOf (EmitExpr cond .cbuf) g, written .cbuf ") \x7b\n",
        seqOuts (cases.map (switchChildOut g ind)),
        written .cbuf (indentText ind), written .cbuf "\x7d\n"] ∧
    (∀ (e : Expr) (ss : List Stmt), EmitStmt (.STMT_CASE e ss) ind g =
      .error (.assertion "0 && \"Should already be generated\"")) ∧
    (∀ ss : List Stmt, EmitStmt (.STMT_DEFAULT ss) ind g =
      .error (.assertion "0 && \"Should already be generated\"")) ∧
    (∀ (S : Stmt) (rest : List Stmt),
      S.isCaseOrDefault = true ∨ EmitSwitchCases (S :: rest) ind g = .error (.assertion "0")) ∧
    ((∀ S ∈ cases, S.isCaseOrDefault = true) ∨
      ∃ e, EmitStmt (.STMT_SWITCH cond cases) ind g = .error e) := by
  have hall : allFramed g [indent .cbuf ind, put .cbuf "switch (",
      EmitExpr cond .cbuf, put .cbuf ") \x7b\n", EmitSwitchCases cases ind, indent .cbuf ind,
      put .cbuf "\x7d\n"] :=
    ⟨framedAt_indent g _ _, framedAt_put g _ _, EmitExpr_framed cond .cbuf g,
      framedAt_put g _ _, EmitSwitchCases_framed cases ind g, framedAt_indent g _ _,
      framedAt_put g _ _, trivial⟩
  have hlay : outOf (EmitStmt (.STMT_SWITCH cond cases) ind) g =
      seqOuts [written .cbuf (indentText ind), written .cbuf "switch (",
        outOf (EmitExpr cond .cbuf) g, written .cbuf ") \x7b\n",
        seqOuts (cases.map (switchChildOut g ind)),
        written .cbuf (indentText ind), written .cbuf "\x7d\n"] := by
    rw [EmitStmt_switch_eq, outOf_seqEmit _ g hall]
    simp only [List.map, outOf_indent, outOf_written, EmitSwitchCases_layout]
  refine ⟨hlay, (EmitStmt_case_default ind g).1, (EmitStmt_case_default ind g).2,
    fun S rest => EmitSwitchCases_other S rest ind g, ?_⟩
  by_cases hcs : ∀ S ∈ cases, S.isCaseOrDefault = true
  · exact Or.inl hcs
  · refine Or.inr ?_
    push_neg at hcs
    obtain ⟨S, hS, hno⟩ := hcs
    have hchild : switchChildOut g ind S = .error (.assertion "0") := by
      cases S <;> first
        | rfl
        | exact absurd rfl hno
    have hmem : (.error (.assertion "0") : Except EmitError (String × String)) ∈
        cases.map (switchChildOut g ind) := by
      rw [← hchild]
      exact List.mem_map_of_mem _ hS
    obtain ⟨e1, he1⟩ := seqOuts_error_of_mem _ _ hmem
    have hmem2 : (.error e1 : Except EmitError (String × String)) ∈
        [written .cbuf (indentText ind), written .cbuf "switch (",
          outOf (EmitExpr cond .cbuf) g, written .cbuf ") \x7b\n",
          seqOuts (cases.map (switchChildOut g ind)),
          written .cbuf (indentText ind), written .cbuf "\x7d\n"] := by
      rw [he1]
      simp
    obtain ⟨e2, he2⟩ := seqOuts_error_of_mem _ _ hmem2
    rw [← hlay] at he2
    exact ⟨e2, run_error_of_outOf ((EmitStmt_framed _).1 ind g) he2⟩

set_option maxHeartbeats 4000000 in
theorem EmitStmt_compound_eq (C : CompoundStmt) (ind : Nat) (g : CCodeGenerator) :
    EmitStmt (.STMT_COMPOUND C) ind g = EmitCompoundStmt C ind true g := by
  simp only [EmitStmt]

set_option maxHeartbeats 4000000 in
theorem EmitCompoundStmt_eq (ss : List Stmt) (ind : Nat) (b : Bool) :
    EmitCompoundStmt (.mk ss) ind b = seqEmit [
      (fun g => if b = true then indent .cbuf ind g else pure g), put .cbuf "\x7b\n",
      EmitStmts ss (ind + INDENT), indent .cbuf ind, put .cbuf "\x7d\n"] := by
  funext g
  simp only [EmitCompoundStmt, seqEmit]

theorem EmitCompoundStmt_layout (ss : List Stmt) (ind : Nat) (b : Bool) (g0 : CCodeGenerator) :
    outOf (EmitCompoundStmt (.mk ss) ind b) g0 =
      seqOuts [(if b = true then written .cbuf (indentText ind) else .ok ("", "")),
        written .cbuf "\x7b\n",
        seqOuts (ss.map fun S => outOf (EmitStmt S (ind + INDENT)) g0),
        written .cbuf (indentText ind), written .cbuf "\x7d\n"] := by
  have hall : allFramed g0 [(fun g => if b = true then indent .cbuf ind g else pure g),
      put .cbuf "\x7b\n", EmitStmts ss (ind + INDENT), indent .cbuf ind,
      put .cbuf "\x7d\n"] :=
    ⟨framedAt_ite _ (framedAt_indent g0 _ _) (framedAt_pure g0), framedAt_put g0 _ _,
      EmitStmts_framed ss _ g0, framedAt_indent g0 _ _, framedAt_put g0 _ _, trivial⟩
  rw [EmitCompoundStmt_eq, outOf_seqEmit _ g0 hall]
  simp only [List.map, outOf_indent, outOf_written, outOf_ite, outOf_pure, EmitStmts_layout]

theorem seqOuts_split (xs : List (Except EmitError (String × String)))
    {ys : List (Except EmitError (String × String))}
    {x : Except EmitError (String × String)} {d : String × String}
    (h : seqOuts (xs ++ x :: ys) = .ok d) :
    ∃ p a q, seqOuts xs = .ok p ∧ x = .ok a ∧ seqOuts ys = .ok q ∧
      d.1 = p.1 ++ a.1 ++ q.1 := by
  rw [seqOuts_append] at h
  obtain ⟨p, r, hp, hr, hd⟩ := seqOut_eq_ok h
  obtain ⟨a, q, ha, hq, hr2⟩ := seqOut_eq_ok hr
  refine ⟨p, a, q, hp, ha, hq, ?_⟩
  rw [hd, hr2]
  simp [String.append_assoc]

theorem nested_children (stmts : List Stmt) (g : CCodeGenerator) :
    ∀ (path : List (List Stmt × List Stmt)) (n : Nat) (b : Bool) (d : String × String),
      outOf (EmitCompoundStmt (nestAt path (.mk stmts)) n b) g = .ok d →
      ∃ pre inner post,
        seqOuts (stmts.map fun S => outOf (EmitStmt S (n + (path.length + 1) * INDENT)) g) =
          .ok (inner, "") ∧
        d = (pre ++ inner ++ post, "")
  | [], n, b, d, h => by
      have hd2 : d.2 = "" := cbufOnly_outOf (EmitCompoundStmt_cbufOnly _ n b g) h
      simp only [nestAt] at h
      rw [EmitCompoundStmt_layout] at h
      obtain ⟨p, a, q, -, ha, -, hd⟩ := seqOuts_split
        [(if b = true then written .cbuf (indentText n) else .ok ("", "")),
          written .cbuf "\x7b\n"] h
      have ha2 : a.2 = "" := by
        rw [← EmitStmts_layout] at ha
        exact cbufOnly_outOf (EmitStmts_cbufOnly stmts _ g) ha
      refine ⟨p.1, a.1, q.1, ?_, ?_⟩
      · simp only [List.length_nil, Nat.zero_add, Nat.one_mul]
        rw [ha, ← ha2]
      · rw [← hd, ← hd2]
  | (before, after) :: path, n, b, d, h => by
      have hd2 : d.2 = "" := cbufOnly_outOf (EmitCompoundStmt_cbufOnly _ n b g) h
      simp only [nestAt] at h
      rw [EmitCompoundStmt_layout] at h
      obtain ⟨p, a, q, -, ha, -, hd⟩ := seqOuts_split
        [(if b = true then written .cbuf (indentText n) else .ok ("", "")),
          written .cbuf "\x7b\n"] h
      simp only [List.map_append, List.map, List.append_assoc, List.singleton_append] at ha
      obtain ⟨p1, a1, q1, -, ha1, -, hd1⟩ := seqOuts_split _ ha
      have e : outOf (EmitStmt (.STMT_COMPOUND (nestAt path (.mk stmts))) (n + INDENT)) g =
          outOf (EmitCompoundStmt (nestAt path (.mk stmts)) (n + INDENT) true) g :=
        outOf_congr (fun cb hb => EmitStmt_compound_eq _ _ _)
      rw [e] at ha1
      obtain ⟨pre, inner, post, hin, ha1'⟩ := nested_children stmts g path (n + INDENT) true a1 ha1
      have harith : n + INDENT + (path.length + 1) * INDENT =
          n + ((path.length + 1) + 1) * INDENT := by ring
      refine ⟨p.1 ++ p1.1 ++ pre, inner, post ++ q1.1 ++ q.1, ?_, ?_⟩
      · simp only [List.length_cons]
        rw [← harith]
        exact hin
      · have h1 : d.1 = p.1 ++ p1.1 ++ pre ++ inner ++ (post ++ q1.1 ++ q.1) := by
          rw [hd, hd1, ha1']
          simp [String.append_assoc]
        rw [← h1, ← hd2]

/-- C19: a compound statement at indent `n` is emitted as the opening brace
line, preceded by `n` blanks only when it starts on a new line, then each child
in list order at indent `n + INDENT`, then `n` blanks and the closing brace
line; a compound reached through `EmitStmt` starts on a new line at the indent
it is given; so when the emission of a compound at indent 0 completes, the
children of a compound wrapped `k` compounds deep in it are emitted at indent
`(k + 1) * INDENT`, and their text is part of the output. -/
theorem C19_compound_layout (path : List (List Stmt × List Stmt)) (stmts : List Stmt)
    (b : Bool) (g : CCodeGenerator) (d : String × String)
    (hrun : outOf (EmitCompoundStmt (nestAt path (.mk stmts)) 0 b) g = .ok d) :
    (∀ (ss : List Stmt) (n : Nat) (startOnNewLine : Bool),
      outOf (EmitCompoundStmt (.mk ss) n startOnNewLine) g =
        seqOuts [(if startOnNewLine = true then written .cbuf (indentText n) else .ok ("", "")),
          written .cbuf "\x7b\n",
          seqOuts (ss.map fun S => outOf (EmitStmt S (n + INDENT)) g),
          written .cbuf (indentText n), written .cbuf "\x7d\n"]) ∧
    (∀ (C : CompoundStmt) (n : Nat) (g1 : CCodeGenerator),
      EmitStmt (.STMT_COMPOUND C) n g1 = EmitCompoundStmt C n true g1) ∧
    ∃ pre inner post,
      seqOuts (stmts.map fun S => outOf (EmitStmt S ((path.length + 1) * INDENT)) g) =
        .ok (inner, "") ∧
      d = (pre ++ inner ++ post, "") := by
  refine ⟨fun ss n s => EmitCompoundStmt_layout ss n s g,
    fun C n g1 => EmitStmt_compound_eq C n g1, ?_⟩
  obtain ⟨pre, inner, post, hin, hd⟩ := nested_children stmts g path 0 b d hrun
  rw [Nat.zero_add] at hin
  exact ⟨pre, inner, post, hin, hd⟩

/-- Witness for C19: the compound `{ { break; } }` emitted at indent 0; the
inner `break;` is at indent `2 * INDENT`. -/
theorem C19_compound_layout_witness :
    outOf (EmitCompoundStmt (nestAt exPath (.mk [.STMT_BREAK])) 0 false) exMulti =
      .ok ("\x7b\n    \x7b\n        break;\n    \x7d\n\x7d\n", "") ∧
    ∃ pre inner post,
      seqOuts ([Stmt.STMT_BREAK].map fun S =>
        outOf (EmitStmt S ((exPath.length + 1) * INDENT)) exMulti) = .ok (inner, "") ∧
      ("\x7b\n    \x7b\n        break;\n    \x7d\n\x7d\n", "") = (pre ++ inner ++ post, "") :=
  have h : outOf (EmitCompoundStmt (nestAt exPath (.mk [.STMT_BREAK])) 0 false) exMulti =
      .ok ("\x7b\n    \x7b\n        break;\n    \x7d\n\x7d\n", "") := by decide!
  ⟨h, (C19_compound_layout exPath [.STMT_BREAK] false exMulti _ h).2.2⟩

/-- C20 (the code evaluated at the failing input): with the header buffer as
output, the parenthesised literal `(2)` is written whole to the source buffer
and the header buffer receives nothing; the sum `(1) + (2)` leaves ` + ` in the
header buffer and both parenthesised operands in the source buffer. -/
theorem C20_paren_header_evaluated :
    (EmitExpr (.EXPR_PAREN (.EXPR_NUMBER 2)) .hbuf exMulti).map (fun g => (g.hbuf, g.cbuf)) =
      .ok ("", "(2)") ∧
    (EmitBinaryOperator (.EXPR_PAREN (.EXPR_NUMBER 1)) ⟨"+"⟩ (.EXPR_PAREN (.EXPR_NUMBER 2))
      .hbuf exMulti).map (fun g => (g.hbuf, g.cbuf)) = .ok (" + ", "(1)(2)") ∧
    (EmitExpr (.EXPR_PAREN (.EXPR_NUMBER 2)) .cbuf exMulti).map (fun g => (g.hbuf, g.cbuf)) =
      .ok ("", "(2)") := by
  decide!


end C2.CGen

/-! # Theorems: statement order of the visitor -/

namespace C2.Algo

open ASTVisitor

theorem seqSteps_appends : ∀ (fs : List (Callbacks → Except VisitError Callbacks)),
    (∀ f ∈ fs, Appends f) → Appends (seqSteps fs)
  | [], _ => appends_ok
  | [f], h => h f (List.mem_singleton.2 rfl)
  | f :: k :: rest, h =>
      appends_bind (h f (List.mem_cons_self _ _))
        (seqSteps_appends (k :: rest) (fun x hx => h x (List.mem_cons_of_mem _ hx)))

theorem seqSteps_nil : ∀ (fs : List (Callbacks → Except VisitError Callbacks)),
    (∀ f ∈ fs, Appends f) → seqSteps fs [] = seqCalls (fs.map fun f => f [])
  | [], _ => rfl
  | [f], _ => by
      show f [] = (f [] >>= fun a => (Except.ok [] : Except VisitError Callbacks) >>= fun b =>
        pure (a ++ b))
      cases f [] with
      | error e => rfl
      | ok a => simp [except_ok_bind, pure, Except.pure]
  | f :: k :: rest, h => by
      have hk : Appends (seqSteps (k :: rest)) :=
        seqSteps_appends (k :: rest) (fun x hx => h x (List.mem_cons_of_mem _ hx))
      have ih := seqSteps_nil (k :: rest) (fun x hx => h x (List.mem_cons_of_mem _ hx))
      show (f [] >>= seqSteps (k :: rest)) =
        (f [] >>= fun a => seqCalls ((k :: rest).map fun f => f []) >>= fun b => pure (a ++ b))
      cases f [] with
      | error e => rfl
      | ok a =>
        simp only [except_ok_bind]
        rw [hk a, ih]
        cases seqCalls ((k :: rest).map fun f => f []) with
        | error e => rfl
        | ok b => rfl

theorem seqSteps_eq (fs : List (Callbacks → Except VisitError Callbacks))
    (h : ∀ f ∈ fs, Appends f) (log : Callbacks) :
    seqSteps fs log = (seqCalls (fs.map fun f => f [])).map (fun cbs => log ++ cbs) := by
  rw [seqSteps_appends fs h log, seqSteps_nil fs h]

theorem checkStmts_eq : ∀ (ss : List Stmt) (log : Callbacks),
    checkStmts ss log =
      (seqCalls (ss.map fun s => checkStmt s [])).map (fun cbs => log ++ cbs)
  | [], log => by simp [checkStmts, seqCalls, Except.map]
  | s :: rest, log => by
      simp only [checkStmts, List.map, seqCalls]
      rw [(checkStmt_tracks s).1 log]
      cases checkStmt s [] with
      | error e => rfl
      | ok a =>
        simp only [Except.map, except_ok_bind]
        rw [checkStmts_eq rest (log ++ a)]
        cases seqCalls (rest.map fun s => checkStmt s []) with
        | error e => rfl
        | ok b => simp [Except.map, except_ok_bind, pure, Except.pure]

theorem checkStmts_nil (ss : List Stmt) :
    checkStmts ss [] = seqCalls (ss.map fun s => checkStmt s []) := by
  rw [checkStmts_eq ss []]
  cases seqCalls (ss.map fun s => checkStmt s []) with
  | error e => rfl
  | ok b => simp [Except.map]

theorem seqCalls_flat (x : Except VisitError Callbacks)
    (xs : List (Except VisitError Callbacks)) :
    seqCalls [x, seqCalls xs] = seqCalls (x :: xs) := by
  simp only [seqCalls]
  cases x with
  | error e => rfl
  | ok a =>
    cases seqCalls xs with
    | error e => rfl
    | ok b => simp [except_ok_bind, pure, Except.pure]

/-- C26: the hook calls of a statement are those of its parts in a fixed
order: for a `for` statement init, condition, increment, body, an absent part
contributing nothing; for `while` and `do` the condition then the body; for
`if` the condition, the then-branch, the else-branch; for a switch the
condition then each case in list order; for a case its condition then its
statements in order. -/
theorem C26_statement_order (log : Callbacks) :
    (∀ (init : Option Stmt) (cond incr : Option Expr) (body : Stmt),
      checkStmt (.STMT_FOR init cond incr body) log =
        (seqCalls [checkOptStmt init [], checkOptExpr cond [], checkOptExpr incr [],
          checkStmt body []]).map (fun cbs => log ++ cbs)) ∧
    (checkOptStmt none [] = .ok [] ∧ checkOptExpr none [] = .ok []) ∧
    (∀ s : Stmt, checkOptStmt (some s) [] = checkStmt s []) ∧
    (∀ e : Expr, checkOptExpr (some e) [] = checkExpr e []) ∧
    (∀ cond body : Stmt, checkStmt (.STMT_WHILE cond body) log =
      (seqCalls [checkStmt cond [], checkStmt body []]).map (fun cbs => log ++ cbs)) ∧
    (∀ cond body : Stmt, checkStmt (.STMT_DO cond body) log =
      (seqCalls [checkStmt cond [], checkStmt body []]).map (fun cbs => log ++ cbs)) ∧
    (∀ (cond thenStmt : Stmt) (elseStmt : Option Stmt),
      checkStmt (.STMT_IF cond thenStmt elseStmt) log =
        (seqCalls [checkStmt cond [], checkStmt thenStmt [], checkOptStmt elseStmt []]).map
          (fun cbs => log ++ cbs)) ∧
    (∀ (cond : Stmt) (cases : List Stmt), checkStmt (.STMT_SWITCH cond cases) log =
      (seqCalls (checkStmt cond [] :: cases.map fun s => checkStmt s [])).map
        (fun cbs => log ++ cbs)) ∧
    (∀ (cond : Expr) (stmts : List Stmt), checkStmt (.STMT_CASE cond stmts) log =
      (seqCalls (checkExpr cond [] :: stmts.map fun s => checkStmt s [])).map
        (fun cbs => log ++ cbs)) ∧
    checkStmt stmtForLoop [] = .ok [⟨"init", 1⟩, ⟨"n", 2⟩, ⟨"i", 3⟩, ⟨"x", 4⟩] := by
  refine ⟨fun init cond incr body => ?_,
    ⟨by simp only [checkOptStmt], by simp only [checkOptExpr]⟩,
    fun s => by simp only [checkOptStmt], fun e => by simp only [checkOptExpr],
    fun cond body => ?_, fun cond body => ?_, fun cond thenStmt elseStmt => ?_,
    fun cond cases => ?_, fun cond stmts => ?_, by rfl⟩
  · have e : checkStmt (.STMT_FOR init cond incr body) =
        seqSteps [checkOptStmt init, checkOptExpr cond, checkOptExpr incr, checkStmt body] := by
      funext l
      simp only [checkStmt, seqSteps]
    rw [e, seqSteps_eq]
    · rfl
    · intro f hf
      simp only [List.mem_cons, List.mem_singleton, List.not_mem_nil, or_false] at hf
      rcases hf with h | h | h | h <;> rw [h]
      · exact (checkOptStmt_tracks init).1
      · exact (checkOptExpr_tracks cond).1
      · exact (checkOptExpr_tracks incr).1
      · exact (checkStmt_tracks body).1
  · have e : checkStmt (.STMT_WHILE cond body) = seqSteps [checkStmt cond, checkStmt body] := by
      funext l
      simp only [checkStmt, seqSteps]
    rw [e, seqSteps_eq]
    · rfl
    · intro f hf
      simp only [List.mem_cons, List.mem_singleton, List.not_mem_nil, or_false] at hf
      rcases hf with h | h <;> rw [h]
      · exact (checkStmt_tracks cond).1
      · exact (checkStmt_tracks body).1
  · have e : checkStmt (.STMT_DO cond body) = seqSteps [checkStmt cond, checkStmt body] := by
      funext l
      simp only [checkStmt, seqSteps]
    rw [e, seqSteps_eq]
    · rfl
    · intro f hf
      simp only [List.mem_cons, List.mem_singleton, List.not_mem_nil, or_false] at hf
      rcases hf with h | h <;> rw [h]
      · exact (checkStmt_tracks cond).1
      · exact (checkStmt_tracks body).1
  · have e : checkStmt (.STMT_IF cond thenStmt elseStmt) =
        seqSteps [checkStmt cond, checkStmt thenStmt, checkOptStmt elseStmt] := by
      funext l
      simp only [checkStmt, seqSteps]
    rw [e, seqSteps_eq]
    · rfl
    · intro f hf
      simp only [List.mem_cons, List.mem_singleton, List.not_mem_nil, or_false] at hf
      rcases hf with h | h | h <;> rw [h]
      · exact (checkStmt_tracks cond).1
      · exact (checkStmt_tracks thenStmt).1
      · exact (checkOptStmt_tracks elseStmt).1
  · have e : checkStmt (.STMT_SWITCH cond cases) =
        seqSteps [checkStmt cond, checkStmts cases] := by
      funext l
      simp only [checkStmt, seqSteps]
    rw [e, seqSteps_eq]
    · simp only [List.map]
      rw [checkStmts_nil cases, seqCalls_flat]
    · intro f hf
      simp only [List.mem_cons, List.mem_singleton, List.not_mem_nil, or_false] at hf
      rcases hf with h | h <;> rw [h]
      · exact (checkStmt_tracks cond).1
      · exact (checkStmts_tracks cases).1
  · have e : checkStmt (.STMT_CASE cond stmts) =
        seqSteps [checkExpr cond, checkStmts stmts] := by
      funext l
      simp only [checkStmt, seqSteps]
    rw [e, seqSteps_eq]
    · simp only [List.map]
      rw [checkStmts_nil stmts, seqCalls_flat]
    · intro f hf
      simp only [List.mem_cons, List.mem_singleton, List.not_mem_nil, or_false] at hf
      rcases hf with h | h <;> rw [h]
      · exact (checkExpr_tracks cond).1
      · exact (checkStmts_tracks stmts).1

end C2.Algo

/-! # Theorems: expressions, declarations and whole runs of the generator -/

namespace C2.CGen

open CCodeGenerator

/-- C21 (the code evaluated at the failing input): with the header buffer as
output, the member expressions `p.x` and `p->x` are written whole to the source
buffer and the header buffer receives nothing; a member that resolved to a
package is written to the output as its mangled name, without the base. -/
theorem C21_member_header_evaluated :
    (EmitMemberExpr exBase exField false .hbuf exMulti).map (fun g => (g.hbuf, g.cbuf)) =
      .ok ("", "p.x") ∧
    (EmitMemberExpr exBase exField true .hbuf exMulti).map (fun g => (g.hbuf, g.cbuf)) =
      .ok ("", "p->x") ∧
    (EmitExpr (.EXPR_MEMBER exBase exField false) .hbuf exMulti).map
      (fun g => (g.hbuf, g.cbuf)) = .ok ("", "p.x") ∧
    (EmitMemberExpr exBase exGlobal false .hbuf exMulti).map (fun g => (g.hbuf, g.cbuf)) =
      .ok ("util_x", "") := by
  decide!

/-- C22 (as stated, refuted): the literal 2147483648, just above the signed
32-bit range, is written as `-2147483648`, and 4294967296 as `0`. -/
theorem C22_counterexample :
    (EmitExpr (.EXPR_NUMBER 2147483648) .cbuf exMulti).map (fun g => g.cbuf) =
      .ok "-2147483648" ∧
    (EmitExpr (.EXPR_NUMBER 4294967296) .cbuf exMulti).map (fun g => g.cbuf) = .ok "0" := by
  decide!

/-- C22 (amended): for an integer literal `EmitExpr` appends to the output the
decimal text of the value cast to a 32-bit `int`, which is the decimal text of
the value itself when the value is in the signed 32-bit range; for a bool
literal emitted to the source buffer it appends `1` for true and `0` for
false. -/
theorem C22_literal_text (v : Int) (b : Bool) (output : Buf) (g : CCodeGenerator)
    (hlo : -2147483648 ≤ v) (hhi : v < 2147483648) :
    EmitExpr (.EXPR_NUMBER v) output g = put output (toString v) g ∧
    (∀ w : Int, EmitExpr (.EXPR_NUMBER w) output g = put output (toString (toInt32 w)) g) ∧
    EmitExpr (.EXPR_BOOL b) .cbuf g = put .cbuf (if b = true then "1" else "0") g := by
  have hv : toInt32 v = v := by
    unfold toInt32
    omega
  refine ⟨?_, fun w => ?_, ?_⟩
  · simp only [EmitExpr, hv]
  · simp only [EmitExpr]
  · simp only [EmitExpr]

/-- Witness for C22 (amended): the literal 42 and the literal `true`. -/
theorem C22_literal_text_witness :
    (-2147483648 : Int) ≤ 42 ∧ (42 : Int) < 2147483648 ∧
      (EmitExpr (.EXPR_NUMBER 42) .hbuf exMulti = put .hbuf (toString (42 : Int)) exMulti ∧
      (∀ w : Int, EmitExpr (.EXPR_NUMBER w) .hbuf exMulti =
        put .hbuf (toString (toInt32 w)) exMulti) ∧
      EmitExpr (.EXPR_BOOL true) .cbuf exMulti =
        put .cbuf (if true = true then "1" else "0") exMulti) :=
  ⟨by decide, by decide, C22_literal_text 42 true .hbuf exMulti (by decide) (by decide)⟩

/-- C23 (the code evaluated at the failing input): called with the header
buffer as output, `EmitExpr`, `EmitTypePostName`, `EmitTypePreName` and
`EmitDeclExpr` change the source buffer, and a public `extern` variable leaves
`(2)` in the source buffer in front of its definition; called with the source
buffer as output the four helpers leave the header buffer unchanged. -/
theorem C23_header_helpers_evaluated :
    ((EmitExpr (.EXPR_BOOL true) .hbuf exMulti).map (fun g => (g.hbuf, g.cbuf)) =
      .ok ("", "1") ∧
    (EmitTypePostName (.mk (.ARRAY tyInt (some (.EXPR_PAREN (.EXPR_NUMBER 2)))) 0) .hbuf
      exMulti).map (fun g => (g.hbuf, g.cbuf)) = .ok ("[]", "(2)") ∧
    (EmitTypePreName (.mk (.STRUCT (some [exVecMember])) 0) .hbuf exMulti).map
      (fun g => (g.hbuf, g.cbuf)) = .ok ("struct \x7b\n    int v[];\n\x7d", "(2)") ∧
    (EmitDeclExpr exArrayParam .hbuf 0 exMulti).map (fun g => (g.hbuf, g.cbuf)) =
      .ok ("int a[]", "(2)") ∧
    (EmitVariable exPair exMulti).map (fun g => (g.hbuf, g.cbuf)) =
      .ok ("extern int util_pair[];\n\n", "(2)int util_pair[(2)];\n\n")) ∧
    (∀ (e : Expr) (g0 : CCodeGenerator), CbufOnly g0 (EmitExpr e .cbuf)) ∧
    (∀ (t : QualType) (g0 : CCodeGenerator), CbufOnly g0 (EmitTypePreName t .cbuf)) ∧
    (∀ (t : QualType) (g0 : CCodeGenerator), CbufOnly g0 (EmitTypePostName t .cbuf)) ∧
    (∀ (d : DeclExpr) (n : Nat) (g0 : CCodeGenerator), CbufOnly g0 (EmitDeclExpr d .cbuf n)) :=
  ⟨by decide!, EmitExpr_cbufOnly, EmitTypePreName_cbufOnly, EmitTypePostName_cbufOnly,
    EmitDeclExpr_cbufOnly⟩

/-- C25 (as stated, refuted): for the hello-world module the source text holds
no `int main(` in either mode, so no entry shim and no function under the bare
name `main`; in single-file mode the function is emitted as `main_main`. -/
theorem C25_counterexample :
    (generate (freshGenerator "out" .MULTI_FILE [] (exHelloEntries false))).map
      (fun g => containsText g.cbuf "int main(") = .ok false ∧
    (generate (freshGenerator "out" .SINGLE_FILE [] (exHelloEntries false))).map
      (fun g => (containsText g.cbuf "int main(", containsText g.cbuf "int main_main(")) =
      .ok (false, true) := by
  decide!

/-- C25 (amended): for the hello-world module the source text is, in both
modes, the include of the own header followed by the definition of the
function under the mangled name `main_main`, preceded by `static ` only in
multi-file mode for a function that is not public; nothing else is emitted. -/
theorem C25_hello_world (mode : Mode) (pub : Bool) :
    (generate (freshGenerator "out" mode [] (exHelloEntries pub))).map (fun g => g.cbuf) =
      .ok ("#include \"out.h\"\n\n" ++
        (if mode = .MULTI_FILE ∧ pub = false then "static " else "") ++
        "int main_main() \x7b\n    return 0;\n\x7d\n\n") := by
  cases mode <;> cases pub <;> decide!

theorem generateDecls_enumValue : ∀ (decls : List Decl) (name : String) (g g' : CCodeGenerator),
    .DECL_ENUMVALUE name ∈ decls → generateDecls decls g ≠ .ok g'
  | [], _, _, _, h => by cases h
  | D :: rest, name, g, g', h => by
      intro hrun
      simp only [generateDecls] at hrun
      obtain ⟨g1, h1, h2⟩ := emit_bind_ok hrun
      rcases List.mem_cons.1 h with hD | hrest
      · rw [← hD] at h1
        cases h1
      · exact generateDecls_enumValue rest name g1 g' hrest h2

theorem generateEntries_enumValue : ∀ (es : List Entry) (g g' : CCodeGenerator),
    (∃ entry ∈ es, ∃ name, .DECL_ENUMVALUE name ∈ entry.ast.decls) →
    generateEntries es g ≠ .ok g'
  | [], _, _, h => by
      obtain ⟨entry, hmem, -⟩ := h
      cases hmem
  | e :: rest, g, g', h => by
      intro hrun
      simp only [generateEntries] at hrun
      obtain ⟨g1, h1, h2⟩ := emit_bind_ok hrun
      obtain ⟨entry, hmem, name, hname⟩ := h
      rcases List.mem_cons.1 hmem with he | hrest
      · rw [he] at hname
        exact generateDecls_enumValue _ name _ g1 hname h1
      · exact generateEntries_enumValue rest _ g' ⟨entry, hrest, name, hname⟩ h2

theorem generate_enumValue (g : CCodeGenerator)
    (h : ∃ entry ∈ g.entries, ∃ name, .DECL_ENUMVALUE name ∈ entry.ast.decls) :
    completes (generate g) = false := by
  cases hrun : generate g with
  | error e => rfl
  | ok g' =>
    exfalso
    simp only [generate, put, Utils.toCapital, emit_ok_bind] at hrun
    obtain ⟨g1, h1, hrun⟩ := emit_bind_ok hrun
    obtain ⟨H1, p1, hg1⟩ := generateIncludes_run g.entries g g.curpkg g.cbuf _ g1 h1
    subst hg1
    obtain ⟨g2, h2, -⟩ := emit_bind_ok hrun
    exact generateEntries_enumValue g.entries _ g2 h h2

/-- C27 (as stated, refuted): on the user type `Point` `EmitTypePreName` does
not fail; it writes the name of the type. -/
theorem C27_counterexample :
    (EmitTypePreName tyPoint .cbuf exMulti).map (fun g => g.cbuf) = .ok "Point" := by
  decide!

/-- C27 (amended): `generate` does not complete when some entry holds a
top-level enum value, whose case stops at once; `EmitTypePreName` fails its
assertion on every function type; on a user type it hands the expression of
the type to `EmitExpr`. -/
theorem C27_unimplemented_paths (g : CCodeGenerator)
    (h : ∃ entry ∈ g.entries, ∃ name, .DECL_ENUMVALUE name ∈ entry.ast.decls) :
    completes (generate g) = false ∧
    (∀ (name : String) (g1 : CCodeGenerator),
      generateDecl (.DECL_ENUMVALUE name) g1 = .error (.assertion "0 && \"TODO\"")) ∧
    (∀ (q : Nat) (output : Buf) (g1 : CCodeGenerator),
      EmitTypePreName (.mk .FUNC q) output g1 = .error (.assertion "0 && \"TODO\"")) ∧
    (∀ (userType : Expr) (q : Nat) (output : Buf) (g1 : CCodeGenerator),
      EmitTypePreName (.mk (.USER userType) q) output g1 = EmitExpr userType output g1) :=
  ⟨generate_enumValue g h, fun _ _ => rfl, fun _ _ _ => by simp only [EmitTypePreName],
    fun _ _ _ _ => by simp only [EmitTypePreName]⟩

/-- Witness for C27 (amended): a module with a top-level enum value after a
function. -/
theorem C27_unimplemented_paths_witness :
    (∃ entry ∈ (freshGenerator "out" .MULTI_FILE exPkgs exEnumEntries).entries,
      ∃ name, Decl.DECL_ENUMVALUE name ∈ entry.ast.decls) ∧
    completes (generate (freshGenerator "out" .MULTI_FILE exPkgs exEnumEntries)) = false :=
  have h : ∃ entry ∈ (freshGenerator "out" .MULTI_FILE exPkgs exEnumEntries).entries,
      ∃ name, Decl.DECL_ENUMVALUE name ∈ entry.ast.decls :=
    ⟨⟨"util.c2", ⟨"util", [.DECL_FUNC exGet, .DECL_ENUMVALUE "RED"]⟩⟩,
      List.mem_singleton.2 rfl, "RED", List.mem_cons_of_mem _ (List.mem_singleton.2 rfl)⟩
  ⟨h, (C27_unimplemented_paths _ h).1⟩

theorem EmitProtoArgs_join (isVariadic : Bool) (output : Buf) (g0 : CCodeGenerator) :
    ∀ args : List DeclExpr,
      seqOut (outOf (EmitProtoArgs args ((args.length : Int) + (if isVariadic then 1 else 0))
          output) g0)
        (if isVariadic = true then written output "..." else .ok ("", "")) =
      joinOuts (written output ", ") (paramElements args isVariadic output g0)
  | [] => by
      have e : EmitProtoArgs [] (((([] : List DeclExpr).length : Nat) : Int) +
          (if isVariadic then 1 else 0)) output = fun g => .ok g := by
        funext g
        simp only [EmitProtoArgs]
      rw [e]
      cases isVariadic
      · rfl
      · show seqOut (.ok ("", "")) (written output "...") = _
        rw [seqOut_ok_left]
        rfl
  | A :: rest => by
      have ih := EmitProtoArgs_join isVariadic output g0 rest
      have hcount : (((A :: rest).length : Nat) : Int) + (if isVariadic then 1 else 0) - 1 =
          (rest.length : Int) + (if isVariadic then 1 else 0) := by
        simp only [List.length_cons]
        push_cast
        ring
      have e : EmitProtoArgs (A :: rest)
          ((((A :: rest).length : Nat) : Int) + (if isVariadic then 1 else 0)) output =
          fun g => EmitDeclExpr A output 0 g >>= fun g =>
            (fun g => if ((((A :: rest).length : Nat) : Int) +
                (if isVariadic then 1 else 0) != 1) = true
              then put output ", " g else pure g) g >>=
            EmitProtoArgs rest ((rest.length : Int) + (if isVariadic then 1 else 0)) output := by
        funext g
        simp only [EmitProtoArgs, hcount]
      have hk : FramedAt g0 (fun g => (fun g => if ((((A :: rest).length : Nat) : Int) +
                (if isVariadic then 1 else 0) != 1) = true
              then put output ", " g else pure g) g >>=
            EmitProtoArgs rest ((rest.length : Int) + (if isVariadic then 1 else 0)) output) :=
        framedAt_bind (framedAt_ite _ (framedAt_put g0 output _) (framedAt_pure g0))
          (EmitProtoArgs_framed rest _ output g0)
      rw [e, outOf_seq (EmitDeclExpr_framed A output 0 g0) hk,
        outOf_seq (framedAt_ite _ (framedAt_put g0 output _) (framedAt_pure g0))
          (EmitProtoArgs_framed rest _ output g0),
        outOf_ite, outOf_written, outOf_pure, seqOut_assoc, seqOut_assoc, ih]
      cases rest with
      | nil =>
        cases isVariadic
        · simp [paramElements, joinOuts, seqOut_ok_left, seqOut_ok_right]
        · simp [paramElements, joinOuts]
      | cons B more =>
        have hne : ((((A :: B :: more).length : Nat) : Int) +
            (if isVariadic then 1 else 0) != 1) = true := by
          simp only [List.length_cons, bne_iff_ne, ne_eq]
          push_cast
          cases isVariadic <;> simp <;> omega
        simp only [hne, if_true, paramElements, List.map, List.cons_append, joinOuts]
        rfl

/-- C28: the parameter list of a prototype is `(`, the elements joined by
`, ` and `)`, where the elements are the renderings of the parameters in order
followed by `...` exactly when the function is variadic; with no parameters
the list is `()` and, for a variadic function, `(...)`. -/
theorem C28_parameter_list (F : FunctionDecl) (output : Buf) (g : CCodeGenerator) :
    outOf (EmitFunctionProto F output) g =
      seqOuts [written output (protoLinkage g.mode F.name),
        outOf (EmitTypePreName F.returnType output) g,
        outOf (EmitTypePostName F.returnType output) g,
        written output " ",
        outOf (addCurpkgName F.name output) g,
        written output "(",
        joinOuts (written output ", ")
          (F.args.map (fun A => outOf (EmitDeclExpr A output 0) g) ++
            (if F.isVariadic = true then [written output "..."] else [])),
        written output ")"] ∧
    joinOuts (written output ", ") (paramElements [] false output g) = .ok ("", "") ∧
    joinOuts (written output ", ") (paramElements [] true output g) = written output "..." ∧
    (EmitFunctionProto exVariadic .cbuf exMulti).map (fun g1 => g1.cbuf) =
      .ok "int util_log(int level, ...)" ∧
    (EmitFunctionProto exHelper .cbuf exMulti).map (fun g1 => g1.cbuf) =
      .ok "int util_helper()" := by
  refine ⟨?_, rfl, rfl, by decide!, by decide!⟩
  have hjoin := EmitProtoArgs_join F.isVariadic output g F.args
  unfold paramElements at hjoin
  rw [EmitFunctionProto_layout, protoBody_layout]
  simp only [seqOuts]
  rw [← hjoin, seqOut_assoc]

theorem EmitIncrValues_layout : ∀ (vs : List ArrayValueDecl) (g0 : CCodeGenerator),
    outOf (EmitIncrValues vs) g0 = seqOuts (vs.map (incrValueOut g0))
  | [], g0 => by
      have e : EmitIncrValues [] = fun g => .ok g := by
        funext g
        simp only [EmitIncrValues]
      rw [e]
      rfl
  | E :: rest, g0 => by
      have e : EmitIncrValues (E :: rest) = fun g =>
          seqEmit [indent .cbuf INDENT, EmitExpr E.expr .cbuf, put .cbuf ",\n"] g >>=
            EmitIncrValues rest := by
        funext g
        simp only [EmitIncrValues, seqEmit, bind_assoc]
      have hall : allFramed g0 [indent .cbuf INDENT, EmitExpr E.expr .cbuf,
          put .cbuf ",\n"] :=
        ⟨framedAt_indent g0 _ _, EmitExpr_framed E.expr .cbuf g0, framedAt_put g0 _ _, trivial⟩
      rw [e, outOf_seq (seqEmit_framed _ g0 hall) (EmitIncrValues_framed rest g0),
        outOf_seqEmit _ g0 hall, EmitIncrValues_layout rest g0]
      simp only [List.map, outOf_indent, outOf_written, incrValueOut, seqOuts]

/-- C30 (as stated, refuted): a variable that has both an init value and an
incremental value gets both initialisers, one after the other. -/
theorem C30_counterexample :
    (EmitVariable exBoth exMulti).map (fun g => g.cbuf) =
      .ok "static int util_tab[] = 0 = \x7b\n    1,\n\x7d;\n\n" := by
  decide!

/-- C30 (amended): the definition of a variable is the type and the mangled
name, then ` = ` and the init value when there is one, then the braced list of
the incremental values, each on a line of its own at indent `INDENT` closed by
`,`, when there are incremental values, then `;` and two newlines; so a
variable with at most one of the two has at most one initialiser, and when
`EmitVariable` returns, what it appended to the source buffer ends with `;`
and two newlines. -/
theorem C30_variable_initialisers (V : VarDecl) (g g' : CCodeGenerator)
    (hrun : EmitVariable V g = .ok g') :
    outOf (variableDefinition V) g =
      seqOuts [outOf (EmitTypePreName V.type .cbuf) g,
        written .cbuf " ",
        outOf (addCurpkgName V.name .cbuf) g,
        outOf (EmitTypePostName V.type .cbuf) g,
        (match V.initValue with
          | some initValue => seqOut (written .cbuf " = ") (outOf (EmitExpr initValue .cbuf) g)
          | none => .ok ("", "")),
        (if V.incrValues.length ≠ 0 then
          seqOuts [written .cbuf " = \x7b\n",
            seqOuts (V.incrValues.map fun E =>
              seqOuts [written .cbuf (indentText INDENT), outOf (EmitExpr E.expr .cbuf) g,
                written .cbuf ",\n"]),
            written .cbuf "\x7d"]
        else .ok ("", "")),
        written .cbuf ";\n",
        written .cbuf "\n"] ∧
    ∃ stray defn, outOf (variableDefinition V) g = .ok (defn ++ ";\n\n", "") ∧
      g'.cbuf = g.cbuf ++ (stray ++ (defn ++ ";\n\n")) := by
  constructor
  · rw [variableDefinition_layout, EmitIncrValues_layout]
    rfl
  · obtain ⟨d, hd, hc, -⟩ := run_of_outOf (EmitVariable_framed V g) hrun
    rw [EmitVariable_layout] at hd
    obtain ⟨a, b, -, hb, hd1⟩ := seqOut_eq_ok hd
    have hb2 : b.2 = "" := cbufOnly_outOf (variableDefinition_cbufOnly V g) hb
    have hlay := variableDefinition_layout V g
    rw [hb] at hlay
    simp only [seqOuts] at hlay
    obtain ⟨x1, r1, -, hr1, e1⟩ := seqOut_eq_ok hlay.symm
    obtain ⟨x2, r2, -, hr2, e2⟩ := seqOut_eq_ok hr1
    obtain ⟨x3, r3, -, hr3, e3⟩ := seqOut_eq_ok hr2
    obtain ⟨x4, r4, -, hr4, e4⟩ := seqOut_eq_ok hr3
    obtain ⟨x5, r5, -, hr5, e5⟩ := seqOut_eq_ok hr4
    obtain ⟨x6, r6, -, hr6, e6⟩ := seqOut_eq_ok hr5
    have hr6' : r6 = (";\n\n", "") := by
      have : seqOut (written .cbuf ";\n") (seqOut (written .cbuf "\n") (.ok ("", ""))) =
          .ok (";\n\n", "") := by decide
      rw [this] at hr6
      exact (Except.ok.inj hr6).symm
    refine ⟨a.1, x1.1 ++ x2.1 ++ x3.1 ++ x4.1 ++ x5.1 ++ x6.1, ?_, ?_⟩
    · rw [hb]
      have hb1 : b.1 = x1.1 ++ x2.1 ++ x3.1 ++ x4.1 ++ x5.1 ++ x6.1 ++ ";\n\n" := by
        rw [e1, e2, e3, e4, e5, e6, hr6']
        simp only [String.append_assoc]
      rw [← hb1, ← hb2]
    · rw [hc, hd1]
      have hb1 : b.1 = x1.1 ++ x2.1 ++ x3.1 ++ x4.1 ++ x5.1 ++ x6.1 ++ ";\n\n" := by
        rw [e1, e2, e3, e4, e5, e6, hr6']
        simp only [String.append_assoc]
      rw [← hb1]

/-- Witness for C30 (amended): the variable `limit`, which has an init value
only, emitted in multi-file mode. -/
theorem C30_variable_initialisers_witness :
    ∃ g', EmitVariable exLimit exMulti = .ok g' ∧
      ∃ stray defn, outOf (variableDefinition exLimit) exMulti = .ok (defn ++ ";\n\n", "") ∧
        g'.cbuf = exMulti.cbuf ++ (stray ++ (defn ++ ";\n\n")) := by
  have hok : completes (EmitVariable exLimit exMulti) = true := by decide!
  cases h : EmitVariable exLimit exMulti with
  | error e => rw [h] at hok; cases hok
  | ok g' => exact ⟨g', rfl, (C30_variable_initialisers exLimit exMulti g' h).2⟩

theorem endsNewline_put (g0 : CCodeGenerator) (text : String) (h : ∃ t, text = t ++ "\n") :
    EndsNewlineAt g0 (put .cbuf text) := by
  refine ⟨cbufOnly_put g0 text, fun d hd => ?_⟩
  rw [outOf_written] at hd
  simp only [written, Except.ok.injEq] at hd
  obtain ⟨t, ht⟩ := h
  exact ⟨t, by rw [← hd]; exact ht⟩

theorem endsNewline_error (g0 : CCodeGenerator) (e : EmitError) :
    EndsNewlineAt g0 (fun _ => (Except.error e : Emit)) :=
  ⟨cbufOnly_error g0 e, fun d hd => by cases hd⟩

theorem endsNewline_bind {g0 : CCodeGenerator} {f k : CCodeGenerator → Emit}
    (hf : CbufOnly g0 f) (hk : EndsNewlineAt g0 k) :
    EndsNewlineAt g0 (fun g => f g >>= k) := by
  refine ⟨cbufOnly_bind hf hk.1, fun d hd => ?_⟩
  rw [outOf_seq (cbufOnly_framed hf) (cbufOnly_framed hk.1)] at hd
  obtain ⟨a, b, -, hb, hd1⟩ := seqOut_eq_ok hd
  obtain ⟨t, ht⟩ := hk.2 b hb
  refine ⟨a.1 ++ t, ?_⟩
  rw [hd1]
  show a.1 ++ b.1 = a.1 ++ t ++ "\n"
  rw [ht, String.append_assoc]

theorem endsNewline_castExpr {g0 : CCodeGenerator} (S : Stmt)
    {k : Expr → CCodeGenerator → Emit} (hk : ∀ E, EndsNewlineAt g0 (k E)) :
    EndsNewlineAt g0 (fun g => castExpr S >>= fun E => k E g) := by
  cases h : castExpr S with
  | error e => exact endsNewline_error g0 e
  | ok E => exact hk E

set_option maxHeartbeats 4000000 in
theorem EmitCompoundStmt_endsNewline : ∀ (C : CompoundStmt) (ind : Nat)
    (startOnNewLine : Bool) (g0 : CCodeGenerator),
    EndsNewlineAt g0 (EmitCompoundStmt C ind startOnNewLine)
  | .mk ss, ind, b, g0 => by
      simpa only [EmitCompoundStmt] using
        endsNewline_bind (cbufOnly_ite _ (cbufOnly_indent g0 ind) (cbufOnly_pure g0))
          (endsNewline_bind (cbufOnly_put g0 _)
            (endsNewline_bind (EmitStmts_cbufOnly ss (ind + INDENT) g0)
              (endsNewline_bind (cbufOnly_indent g0 ind)
                (endsNewline_put g0 _ ⟨"\x7d", by decide⟩))))

set_option maxHeartbeats 4000000 in
theorem EmitStmt_endsNewline : ∀ (S : Stmt),
    (∀ (ind : Nat) (g0 : CCodeGenerator), EndsNewlineAt g0 (EmitStmt S ind)) ∧
    (∀ (ind : Nat) (g0 : CCodeGenerator), EndsNewlineAt g0 (EmitBody S ind))
  | .STMT_RETURN none => by
      have h : ∀ (ind : Nat) (g0 : CCodeGenerator),
          EndsNewlineAt g0 (EmitStmt (.STMT_RETURN none) ind) := fun ind g0 => by
        simpa only [EmitStmt] using
          endsNewline_bind (cbufOnly_indent g0 ind)
            (endsNewline_bind (cbufOnly_put g0 _) (endsNewline_put g0 _ ⟨";", by decide⟩))
      exact ⟨h, fun ind g0 => h 0 g0⟩
  | .STMT_RETURN (some e) => by
      have h : ∀ (ind : Nat) (g0 : CCodeGenerator),
          EndsNewlineAt g0 (EmitStmt (.STMT_RETURN (some e)) ind) := fun ind g0 => by
        simpa only [EmitStmt] using
          endsNewline_bind (cbufOnly_indent g0 ind)
            (endsNewline_bind (cbufOnly_put g0 _)
              (endsNewline_bind (cbufOnly_put g0 _)
                (endsNewline_bind (EmitExpr_cbufOnly e g0)
                  (endsNewline_put g0 _ ⟨";", by decide⟩))))
      exact ⟨h, fun ind g0 => h 0 g0⟩
  | .STMT_EXPR E => by
      have h : ∀ (ind : Nat) (g0 : CCodeGenerator),
          EndsNewlineAt g0 (EmitStmt (.STMT_EXPR E) ind) := fun ind g0 => by
        simpa only [EmitStmt] using
          endsNewline_bind (cbufOnly_indent g0 ind)
            (endsNewline_bind (EmitExpr_cbufOnly E g0)
              (endsNewline_put g0 _ ⟨";", by decide⟩))
      exact ⟨h, fun ind g0 => h 0 g0⟩
  | .STMT_IF c t none => by
      have h : ∀ (ind : Nat) (g0 : CCodeGenerator),
          EndsNewlineAt g0 (EmitStmt (.STMT_IF c t none) ind) := fun ind g0 => by
        simpa only [EmitStmt] using
          endsNewline_bind (cbufOnly_indent g0 ind)
            (endsNewline_bind (cbufOnly_put g0 _)
              (endsNewline_bind (EmitExpr_cbufOnly c g0)
                (endsNewline_bind (cbufOnly_put g0 _) ((EmitStmt_endsNewline t).1 ind g0))))
      exact ⟨h, fun ind g0 => h 0 g0⟩
  | .STMT_IF c t (some e) => by
      have h : ∀ (ind : Nat) (g0 : CCodeGenerator),
          EndsNewlineAt g0 (EmitStmt (.STMT_IF c t (some e)) ind) := fun ind g0 => by
        simpa only [EmitStmt] using
          endsNewline_bind (cbufOnly_indent g0 ind)
            (endsNewline_bind (cbufOnly_put g0 _)
              (endsNewline_bind (EmitExpr_cbufOnly c g0)
                (endsNewline_bind (cbufOnly_put g0 _)
                  (endsNewline_bind ((EmitStmt_cbufOnly t).1 ind g0)
                    (endsNewline_bind (cbufOnly_indent g0 ind)
                      (endsNewline_bind (cbufOnly_put g0 _)
                        ((EmitStmt_endsNewline e).1 ind g0)))))))
      exact ⟨h, fun ind g0 => h 0 g0⟩
  | .STMT_WHILE c b => by
      have ihb := (EmitStmt_endsNewline b).2
      have h : ∀ (ind : Nat) (g0 : CCodeGenerator),
          EndsNewlineAt g0 (EmitStmt (.STMT_WHILE c b) ind) := fun ind g0 => by
        rw [EmitStmt_while_eq]
        exact endsNewline_bind (cbufOnly_indent g0 ind)
          (endsNewline_bind (cbufOnly_put g0 _)
            (endsNewline_castExpr c (fun E =>
              endsNewline_bind (EmitExpr_cbufOnly E g0)
                (endsNewline_bind (cbufOnly_put g0 _) (ihb ind g0)))))
      exact ⟨h, fun ind g0 => h 0 g0⟩
  | .STMT_DO c b => by
      have h : ∀ (ind : Nat) (g0 : CCodeGenerator),
          EndsNewlineAt g0 (EmitStmt (.STMT_DO c b) ind) := fun ind g0 => by
        rw [EmitStmt_do_eq]
        exact endsNewline_bind (cbufOnly_indent g0 ind)
          (endsNewline_bind (cbufOnly_put g0 _)
            (endsNewline_bind ((EmitStmt_cbufOnly b).2 ind g0)
              (endsNewline_bind (cbufOnly_indent g0 ind)
                (endsNewline_bind (cbufOnly_put g0 _)
                  (endsNewline_castExpr c (fun E =>
                    endsNewline_bind (EmitExpr_cbufOnly E g0)
                      (endsNewline_put g0 _ ⟨");", by decide⟩)))))))
      exact ⟨h, fun ind g0 => h 0 g0⟩
  | .STMT_FOR i c n b => by
      have ihb := (EmitStmt_endsNewline b).2
      have h : ∀ (ind : Nat) (g0 : CCodeGenerator),
          EndsNewlineAt g0 (EmitStmt (.STMT_FOR i c n b) ind) := fun ind g0 => by
        rw [EmitStmt_for_eq]
        exact endsNewline_bind (cbufOnly_indent g0 ind)
          (endsNewline_bind (cbufOnly_put g0 _)
            (endsNewline_bind (cbufOnly_EmitForInit g0 i)
              (endsNewline_bind (cbufOnly_put g0 _)
                (endsNewline_bind (cbufOnly_EmitForPart g0 c)
                  (endsNewline_bind (cbufOnly_put g0 _)
                    (endsNewline_bind (cbufOnly_EmitForPart g0 n)
                      (endsNewline_bind (cbufOnly_put g0 _) (ihb ind g0))))))))
      exact ⟨h, fun ind g0 => h 0 g0⟩
  | .STMT_SWITCH c cs => by
      have h : ∀ (ind : Nat) (g0 : CCodeGenerator),
          EndsNewlineAt g0 (EmitStmt (.STMT_SWITCH c cs) ind) := fun ind g0 => by
        simpa only [EmitStmt] using
          endsNewline_bind (cbufOnly_indent g0 ind)
            (endsNewline_bind (cbufOnly_put g0 _)
              (endsNewline_bind (EmitExpr_cbufOnly c g0)
                (endsNewline_bind (cbufOnly_put g0 _)
                  (endsNewline_bind (EmitSwitchCases_cbufOnly cs ind g0)
                    (endsNewline_bind (cbufOnly_indent g0 ind)
                      (endsNewline_put g0 _ ⟨"\x7d", by decide⟩))))))
      exact ⟨h, fun ind g0 => h 0 g0⟩
  | .STMT_CASE c ss => by
      have h : ∀ (ind : Nat) (g0 : CCodeGenerator),
          EndsNewlineAt g0 (EmitStmt (.STMT_CASE c ss) ind) := fun ind g0 => by
        simpa only [EmitStmt] using endsNewline_error g0 _
      exact ⟨h, fun ind g0 => h 0 g0⟩
  | .STMT_DEFAULT ss => by
      have h : ∀ (ind : Nat) (g0 : CCodeGenerator),
          EndsNewlineAt g0 (EmitStmt (.STMT_DEFAULT ss) ind) := fun ind g0 => by
        simpa only [EmitStmt] using endsNewline_error g0 _
      exact ⟨h, fun ind g0 => h 0 g0⟩
  | .STMT_BREAK => by
      have h : ∀ (ind : Nat) (g0 : CCodeGenerator),
          EndsNewlineAt g0 (EmitStmt .STMT_BREAK ind) := fun ind g0 => by
        simpa only [EmitStmt] using
          endsNewline_bind (cbufOnly_indent g0 ind)
            (endsNewline_put g0 _ ⟨"break;", by decide⟩)
      exact ⟨h, fun ind g0 => h 0 g0⟩
  | .STMT_CONTINUE => by
      have h : ∀ (ind : Nat) (g0 : CCodeGenerator),
          EndsNewlineAt g0 (EmitStmt .STMT_CONTINUE ind) := fun ind g0 => by
        simpa only [EmitStmt] using
          endsNewline_bind (cbufOnly_indent g0 ind)
            (endsNewline_put g0 _ ⟨"continue;", by decide⟩)
      exact ⟨h, fun ind g0 => h 0 g0⟩
  | .STMT_LABEL name sub => by
      have h : ∀ (ind : Nat) (g0 : CCodeGenerator),
          EndsNewlineAt g0 (EmitStmt (.STMT_LABEL name sub) ind) := fun ind g0 => by
        simpa only [EmitStmt] using
          endsNewline_bind (cbufOnly_put g0 _)
            (endsNewline_bind (cbufOnly_put g0 _) ((EmitStmt_endsNewline sub).1 ind g0))
      exact ⟨h, fun ind g0 => h 0 g0⟩
  | .STMT_GOTO name => by
      have h : ∀ (ind : Nat) (g0 : CCodeGenerator),
          EndsNewlineAt g0 (EmitStmt (.STMT_GOTO name) ind) := fun ind g0 => by
        simpa only [EmitStmt] using
          endsNewline_bind (cbufOnly_indent g0 ind)
            (endsNewline_bind (cbufOnly_put g0 _)
              (endsNewline_bind (cbufOnly_put g0 _)
                (endsNewline_put g0 _ ⟨";", by decide⟩)))
      exact ⟨h, fun ind g0 => h 0 g0⟩
  | .STMT_COMPOUND C => by
      refine ⟨fun ind g0 => ?_, fun ind g0 => EmitCompoundStmt_endsNewline C ind false g0⟩
      simpa only [EmitStmt] using EmitCompoundStmt_endsNewline C ind true g0

theorem endsNewline_run {g g' : CCodeGenerator} {f : CCodeGenerator → Emit}
    (hf : EndsNewlineAt g f) (hrun : f g = .ok g') :
    (∃ t, g'.cbuf = g.cbuf ++ (t ++ "\n")) ∧ g'.hbuf = g.hbuf := by
  have h' : f (g.setBufs g.cbuf g.hbuf) = .ok g' := by rw [setBufs_self]; exact hrun
  obtain ⟨c, hc, hg⟩ := cbufOnly_run_ok hf.1 g.cbuf g.hbuf h'
  obtain ⟨t, ht⟩ := hf.2 _ hc
  refine ⟨⟨t, ?_⟩, ?_⟩
  · rw [hg]
    show g.cbuf ++ c = g.cbuf ++ (t ++ "\n")
    rw [← ht]
  · rw [hg]
    rfl

/-- C29: when `EmitStmt` completes, the text it appended to the source buffer
is some text followed by a newline, so it is not empty and ends with a
newline, and the header buffer is unchanged; the same holds when
`EmitCompoundStmt` completes. -/
theorem C29_statement_ends_with_newline (S : Stmt) (C : CompoundStmt) (ind n : Nat)
    (startOnNewLine : Bool) (g g' g1 g1' : CCodeGenerator)
    (hS : EmitStmt S ind g = .ok g')
    (hC : EmitCompoundStmt C n startOnNewLine g1 = .ok g1') :
    ((∃ t, g'.cbuf = g.cbuf ++ (t ++ "\n")) ∧ g'.hbuf = g.hbuf) ∧
    ((∃ t, g1'.cbuf = g1.cbuf ++ (t ++ "\n")) ∧ g1'.hbuf = g1.hbuf) :=
  ⟨endsNewline_run ((EmitStmt_endsNewline S).1 ind g) hS,
    endsNewline_run (EmitCompoundStmt_endsNewline C n startOnNewLine g1) hC⟩

theorem sameOut_put (P : GenPair) (output : Buf) (text : String) :
    SameOut P (put output text) :=
  ⟨framedAt_put _ output text, framedAt_put _ output text, by rw [outOf_put, outOf_put]⟩

theorem sameOut_indent (P : GenPair) (output : Buf) (num : Nat) :
    SameOut P (indent output num) :=
  sameOut_put P output _

theorem sameOut_ok (P : GenPair) : SameOut P (fun g => Except.ok g) :=
  ⟨framedAt_ok _, framedAt_ok _, rfl⟩

theorem sameOut_pure (P : GenPair) : SameOut P (fun g => (pure g : Emit)) :=
  sameOut_ok P

theorem sameOut_error (P : GenPair) (e : EmitError) :
    SameOut P (fun _ => (Except.error e : Emit)) :=
  ⟨framedAt_error _ e, framedAt_error _ e, rfl⟩

theorem sameOut_bind {P : GenPair} {f k : CCodeGenerator → Emit}
    (hf : SameOut P f) (hk : SameOut P k) : SameOut P (fun g => f g >>= k) :=
  ⟨framedAt_bind hf.1 hk.1, framedAt_bind hf.2.1 hk.2.1, by
    rw [outOf_seq hf.1 hk.1, outOf_seq hf.2.1 hk.2.1, hf.2.2, hk.2.2]⟩

theorem sameOut_ite {P : GenPair} (c : Prop) [Decidable c]
    {f k : CCodeGenerator → Emit} (hf : SameOut P f) (hk : SameOut P k) :
    SameOut P (fun g => if c then f g else k g) := by
  by_cases h : c
  · simpa only [h, if_true] using hf
  · simpa only [h, if_false] using hk

theorem sameOut_ite_dep {P : GenPair} (c : CCodeGenerator → Prop)
    [∀ g, Decidable (c g)] (hc : ∀ g cb hb, c (setBufs g cb hb) ↔ c g)
    (hP : c P.left ↔ c P.right)
    {f k : CCodeGenerator → Emit} (hf : SameOut P f) (hk : SameOut P k) :
    SameOut P (fun g => if c g then f g else k g) := by
  refine ⟨framedAt_ite_dep c (hc _) hf.1 hk.1, framedAt_ite_dep c (hc _) hf.2.1 hk.2.1, ?_⟩
  rw [outOf_ite_dep c (hc _), outOf_ite_dep c (hc _), hf.2.2, hk.2.2]
  by_cases h : c P.left
  · rw [if_pos h, if_pos (hP.1 h)]
  · rw [if_neg h, if_neg (fun h' => h (hP.2 h'))]

theorem sameOut_addCurpkgName (P : GenPair) (name : String) (output : Buf) :
    SameOut P (addCurpkgName name output) := by
  refine ⟨framedAt_addCurpkgName _ name output, framedAt_addCurpkgName _ name output, ?_⟩
  have hcur := P.curpkg_eq
  unfold outOf
  cases h : P.right.curpkg with
  | none =>
    rw [h] at hcur
    simp [addCurpkgName, setBufs, h, hcur, Except.map]
  | some p =>
    rw [h] at hcur
    cases output <;> simp [addCurpkgName, setBufs, h, hcur, Except.map, Utils.addName, put]

theorem sameOut_EmitIdentifierExpr (P : GenPair) (I : IdentifierExpr) (output : Buf) :
    SameOut P (EmitIdentifierExpr I output) := by
  obtain ⟨name, pkg⟩ := I
  cases pkg with
  | none => exact sameOut_put P output name
  | some Q => exact sameOut_put P output _

theorem sameOut_castExpr {P : GenPair} (S : Stmt) {k : Expr → CCodeGenerator → Emit}
    (hk : ∀ E, SameOut P (k E)) : SameOut P (fun g => castExpr S >>= fun E => k E g) := by
  cases h : castExpr S with
  | error e => exact sameOut_error P e
  | ok E => exact hk E

mutual
theorem EmitExpr_sameOut : ∀ (E : Expr) (output : Buf) (pr : GenPair),
    SameOut pr (EmitExpr E output)
  | .EXPR_NUMBER v, output, pr => by
      simpa only [EmitExpr] using sameOut_put pr output _
  | .EXPR_STRING v, output, pr => by
      simpa only [EmitExpr] using
        sameOut_bind (sameOut_put pr output _)
          (sameOut_bind (sameOut_put pr output _) (sameOut_put pr output _))
  | .EXPR_BOOL v, output, pr => by
      simpa only [EmitExpr] using sameOut_put pr .cbuf _
  | .EXPR_CHARLITERAL v, output, pr => by
      simpa only [EmitExpr] using
        sameOut_bind (sameOut_put pr output _)
          (sameOut_bind (sameOut_put pr output _) (sameOut_put pr output _))
  | .EXPR_CALL fn args, output, pr => by
      simpa only [EmitExpr] using
        sameOut_bind (EmitExpr_sameOut fn output pr)
          (sameOut_bind (sameOut_put pr output _)
            (sameOut_bind (EmitCallArgs_sameOut args 0 output pr) (sameOut_put pr output _)))
  | .EXPR_IDENTIFIER I, output, pr => by
      simpa only [EmitExpr] using sameOut_EmitIdentifierExpr pr I output
  | .EXPR_INITLIST values, output, pr => by
      simpa only [EmitExpr] using
        sameOut_bind (sameOut_put pr output _)
          (sameOut_bind (EmitInitListValues_sameOut values 0 output pr)
            (sameOut_put pr output _))
  | .EXPR_TYPE t, output, pr => by
      simpa only [EmitExpr] using
        sameOut_bind (EmitTypePreName_sameOut t output pr) (EmitTypePostName_sameOut t output pr)
  | .EXPR_DECL D, output, pr => by
      simpa only [EmitExpr] using EmitDeclExpr_sameOut D output 0 pr
  | .EXPR_BINOP l op r, output, pr => by
      simpa only [EmitExpr] using
        sameOut_bind (EmitExpr_sameOut l output pr)
          (sameOut_bind (sameOut_put pr output _)
            (sameOut_bind (sameOut_put pr output _)
              (sameOut_bind (sameOut_put pr output _) (EmitExpr_sameOut r output pr))))
  | .EXPR_CONDOP c l r, output, pr => by
      simpa only [EmitExpr] using
        sameOut_bind (EmitExpr_sameOut c output pr)
          (sameOut_bind (sameOut_put pr output _)
            (sameOut_bind (EmitExpr_sameOut l output pr)
              (sameOut_bind (sameOut_put pr output _) (EmitExpr_sameOut r output pr))))
  | .EXPR_UNARYOP op e, output, pr => by
      have ih := EmitExpr_sameOut e output pr
      cases op <;>
        first
        | (simpa only [EmitExpr] using sameOut_bind ih (sameOut_put pr output _))
        | (simpa only [EmitExpr] using sameOut_bind (sameOut_put pr output _) ih)
        | (simpa only [EmitExpr] using sameOut_error pr _)
  | .EXPR_SIZEOF e, output, pr => by
      simpa only [EmitExpr] using
        sameOut_bind (sameOut_put pr output _)
          (sameOut_bind (EmitExpr_sameOut e output pr) (sameOut_put pr output _))
  | .EXPR_ARRAYSUBSCRIPT b i, output, pr => by
      simpa only [EmitExpr] using
        sameOut_bind (EmitExpr_sameOut b output pr)
          (sameOut_bind (sameOut_put pr output _)
            (sameOut_bind (EmitExpr_sameOut i output pr) (sameOut_put pr output _)))
  | .EXPR_MEMBER b m arrow, output, pr => by
      have ih := EmitExpr_sameOut b .cbuf pr
      obtain ⟨name, pkg⟩ := m
      cases pkg with
      | none =>
        simpa only [EmitExpr] using
          sameOut_bind ih
            (sameOut_bind
              (sameOut_ite (arrow = true) (sameOut_put pr .cbuf _) (sameOut_put pr .cbuf _))
              (sameOut_put pr .cbuf _))
      | some P =>
        simpa only [EmitExpr] using sameOut_EmitIdentifierExpr pr ⟨name, some P⟩ output
  | .EXPR_PAREN e, output, pr => by
      simpa only [EmitExpr] using
        sameOut_bind (sameOut_put pr .cbuf _)
          (sameOut_bind (EmitExpr_sameOut e .cbuf pr) (sameOut_put pr .cbuf _))
theorem EmitCallArgs_sameOut : ∀ (args : List Expr) (i : Nat) (output : Buf)
    (pr : GenPair), SameOut pr (EmitCallArgs args i output)
  | [], i, output, pr => by simpa only [EmitCallArgs] using sameOut_ok pr
  | a :: rest, i, output, pr => by
      simpa only [EmitCallArgs] using
        sameOut_bind (sameOut_ite _ (sameOut_put pr output _) (sameOut_pure pr))
          (sameOut_bind (EmitExpr_sameOut a output pr)
            (EmitCallArgs_sameOut rest (i + 1) output pr))
theorem EmitInitListValues_sameOut : ∀ (values : List Expr) (i : Nat) (output : Buf)
    (pr : GenPair), SameOut pr (EmitInitListValues values i output)
  | [], i, output, pr => by simpa only [EmitInitListValues] using sameOut_ok pr
  | v :: rest, i, output, pr => by
      simpa only [EmitInitListValues] using
        sameOut_bind (sameOut_ite _ (sameOut_put pr output _) (sameOut_pure pr))
          (sameOut_bind (EmitExpr_sameOut v output pr)
            (sameOut_bind (sameOut_ite _ (sameOut_put pr output _) (sameOut_pure pr))
              (sameOut_bind (sameOut_ite _ (sameOut_put pr output _) (sameOut_pure pr))
                (EmitInitListValues_sameOut rest (i + 1) output pr))))
theorem EmitDeclExpr_sameOut : ∀ (D : DeclExpr) (output : Buf) (ind : Nat)
    (pr : GenPair), SameOut pr (EmitDeclExpr D output ind)
  | .mk name t none loc, output, ind, pr => by
      simpa only [EmitDeclExpr] using
        sameOut_bind (sameOut_indent pr output ind)
          (sameOut_bind (sameOut_ite _ (sameOut_put pr output _) (sameOut_pure pr))
            (sameOut_bind (EmitTypePreName_sameOut t output pr)
              (sameOut_bind (sameOut_put pr output _)
                (sameOut_bind (sameOut_put pr output _)
                  (EmitTypePostName_sameOut t output pr)))))
  | .mk name t (some init) loc, output, ind, pr => by
      simpa only [EmitDeclExpr] using
        sameOut_bind (sameOut_indent pr output ind)
          (sameOut_bind (sameOut_ite _ (sameOut_put pr output _) (sameOut_pure pr))
            (sameOut_bind (EmitTypePreName_sameOut t output pr)
              (sameOut_bind (sameOut_put pr output _)
                (sameOut_bind (sameOut_put pr output _)
                  (sameOut_bind (EmitTypePostName_sameOut t output pr)
                    (sameOut_bind (sameOut_put pr output _)
                      (EmitExpr_sameOut init output pr)))))))
theorem EmitTypePreName_sameOut : ∀ (Q : QualType) (output : Buf) (pr : GenPair),
    SameOut pr (EmitTypePreName Q output)
  | .mk (.BUILTIN _ cname) _, output, pr => by
      simpa only [EmitTypePreName] using sameOut_put pr output cname
  | .mk (.STRUCT none) _, output, pr => by
      simpa only [EmitTypePreName] using
        sameOut_bind (sameOut_put pr output _) (sameOut_put pr output _)
  | .mk (.STRUCT (some ms)) _, output, pr => by
      simpa only [EmitTypePreName] using
        sameOut_bind (sameOut_put pr output _)
          (sameOut_bind (EmitMembers_sameOut ms output pr) (sameOut_put pr output _))
  | .mk (.UNION none) _, output, pr => by
      simpa only [EmitTypePreName] using
        sameOut_bind (sameOut_put pr output _) (sameOut_put pr output _)
  | .mk (.UNION (some ms)) _, output, pr => by
      simpa only [EmitTypePreName] using
        sameOut_bind (sameOut_put pr output _)
          (sameOut_bind (EmitMembers_sameOut ms output pr) (sameOut_put pr output _))
  | .mk (.ENUM none) _, output, pr => by
      simpa only [EmitTypePreName] using
        sameOut_bind (sameOut_put pr output _) (sameOut_put pr output _)
  | .mk (.ENUM (some ms)) _, output, pr => by
      simpa only [EmitTypePreName] using
        sameOut_bind (sameOut_put pr output _)
          (sameOut_bind (EmitEnumConstants_sameOut ms output pr) (sameOut_put pr output _))
  | .mk .FUNC _, output, pr => by
      simpa only [EmitTypePreName] using sameOut_error pr _
  | .mk (.USER u) _, output, pr => by
      simpa only [EmitTypePreName] using EmitExpr_sameOut u output pr
  | .mk (.POINTER r) _, output, pr => by
      simpa only [EmitTypePreName] using
        sameOut_bind (EmitTypePreName_sameOut r output pr) (sameOut_put pr output _)
  | .mk (.ARRAY r _) _, output, pr => by
      simpa only [EmitTypePreName] using EmitTypePreName_sameOut r output pr
theorem EmitMembers_sameOut : ∀ (ms : List DeclExpr) (output : Buf) (pr : GenPair),
    SameOut pr (EmitMembers ms output)
  | [], output, pr => by simpa only [EmitMembers] using sameOut_ok pr
  | m :: rest, output, pr => by
      simpa only [EmitMembers] using
        sameOut_bind (EmitDeclExpr_sameOut m output INDENT pr)
          (sameOut_bind (sameOut_put pr output _) (EmitMembers_sameOut rest output pr))
theorem EmitEnumConstants_sameOut : ∀ (ms : List DeclExpr) (output : Buf)
    (pr : GenPair), SameOut pr (EmitEnumConstants ms output)
  | [], output, pr => by simpa only [EmitEnumConstants] using sameOut_ok pr
  | .mk name _ none _ :: rest, output, pr => by
      simpa only [EmitEnumConstants] using
        sameOut_bind (sameOut_indent pr output INDENT)
          (sameOut_bind (sameOut_addCurpkgName pr name output)
            (sameOut_bind (sameOut_put pr output _) (EmitEnumConstants_sameOut rest output pr)))
  | .mk name _ (some init) _ :: rest, output, pr => by
      simpa only [EmitEnumConstants] using
        sameOut_bind (sameOut_indent pr output INDENT)
          (sameOut_bind (sameOut_addCurpkgName pr name output)
            (sameOut_bind (sameOut_put pr output _)
              (sameOut_bind (EmitExpr_sameOut init output pr)
                (sameOut_bind (sameOut_put pr output _)
                  (EmitEnumConstants_sameOut rest output pr)))))
theorem EmitTypePostName_sameOut : ∀ (Q : QualType) (output : Buf) (pr : GenPair),
    SameOut pr (EmitTypePostName Q output)
  | .mk (.ARRAY r none) _, output, pr => by
      simpa only [EmitTypePostName] using
        sameOut_bind (EmitTypePostName_sameOut r output pr)
          (sameOut_bind (sameOut_put pr output _) (sameOut_put pr output _))
  | .mk (.ARRAY r (some e)) _, output, pr => by
      simpa only [EmitTypePostName] using
        sameOut_bind (EmitTypePostName_sameOut r output pr)
          (sameOut_bind (sameOut_put pr output _)
            (sameOut_bind (EmitExpr_sameOut e output pr) (sameOut_put pr output _)))
  | .mk (.BUILTIN _ _) _, output, pr => by
      simpa only [EmitTypePostName] using sameOut_ok pr
  | .mk (.USER _) _, output, pr => by simpa only [EmitTypePostName] using sameOut_ok pr
  | .mk (.STRUCT _) _, output, pr => by simpa only [EmitTypePostName] using sameOut_ok pr
  | .mk (.UNION _) _, output, pr => by simpa only [EmitTypePostName] using sameOut_ok pr
  | .mk (.ENUM _) _, output, pr => by simpa only [EmitTypePostName] using sameOut_ok pr
  | .mk .FUNC _, output, pr => by simpa only [EmitTypePostName] using sameOut_ok pr
  | .mk (.POINTER _) _, output, pr => by simpa only [EmitTypePostName] using sameOut_ok pr
end

theorem sameOut_EmitForInit (pr : GenPair) (init : Option Stmt) :
    SameOut pr (EmitForInit init) := by
  cases init with
  | none => exact sameOut_pure pr
  | some Init => exact sameOut_castExpr Init (fun E => EmitExpr_sameOut E .cbuf pr)

theorem sameOut_EmitForPart (pr : GenPair) (part : Option Expr) :
    SameOut pr (EmitForPart part) := by
  cases part with
  | none => exact sameOut_pure pr
  | some E => exact sameOut_bind (sameOut_put pr .cbuf _) (EmitExpr_sameOut E .cbuf pr)

set_option maxHeartbeats 4000000 in
mutual
theorem EmitStmt_sameOut : ∀ (S : Stmt),
    (∀ (ind : Nat) (pr : GenPair), SameOut pr (EmitStmt S ind)) ∧
    (∀ (ind : Nat) (pr : GenPair), SameOut pr (EmitBody S ind))
  | .STMT_RETURN none => by
      have h : ∀ (ind : Nat) (pr : GenPair),
          SameOut pr (EmitStmt (.STMT_RETURN none) ind) := fun ind pr => by
        simpa only [EmitStmt] using
          sameOut_bind (sameOut_indent pr .cbuf ind)
            (sameOut_bind (sameOut_put pr .cbuf _) (sameOut_put pr .cbuf _))
      exact ⟨h, fun ind pr => h 0 pr⟩
  | .STMT_RETURN (some e) => by
      have h : ∀ (ind : Nat) (pr : GenPair),
          SameOut pr (EmitStmt (.STMT_RETURN (some e)) ind) := fun ind pr => by
        simpa only [EmitStmt] using
          sameOut_bind (sameOut_indent pr .cbuf ind)
            (sameOut_bind (sameOut_put pr .cbuf _)
              (sameOut_bind (sameOut_put pr .cbuf _)
                (sameOut_bind (EmitExpr_sameOut e .cbuf pr) (sameOut_put pr .cbuf _))))
      exact ⟨h, fun ind pr => h 0 pr⟩
  | .STMT_EXPR E => by
      have h : ∀ (ind : Nat) (pr : GenPair),
          SameOut pr (EmitStmt (.STMT_EXPR E) ind) := fun ind pr => by
        simpa only [EmitStmt] using
          sameOut_bind (sameOut_indent pr .cbuf ind)
            (sameOut_bind (EmitExpr_sameOut E .cbuf pr) (sameOut_put pr .cbuf _))
      exact ⟨h, fun ind pr => h 0 pr⟩
  | .STMT_IF c t none => by
      have h : ∀ (ind : Nat) (pr : GenPair),
          SameOut pr (EmitStmt (.STMT_IF c t none) ind) := fun ind pr => by
        simpa only [EmitStmt] using
          sameOut_bind (sameOut_indent pr .cbuf ind)
            (sameOut_bind (sameOut_put pr .cbuf _)
              (sameOut_bind (EmitExpr_sameOut c .cbuf pr)
                (sameOut_bind (sameOut_put pr .cbuf _) ((EmitStmt_sameOut t).1 ind pr))))
      exact ⟨h, fun ind pr => h 0 pr⟩
  | .STMT_IF c t (some e) => by
      have h : ∀ (ind : Nat) (pr : GenPair),
          SameOut pr (EmitStmt (.STMT_IF c t (some e)) ind) := fun ind pr => by
        simpa only [EmitStmt] using
          sameOut_bind (sameOut_indent pr .cbuf ind)
            (sameOut_bind (sameOut_put pr .cbuf _)
              (sameOut_bind (EmitExpr_sameOut c .cbuf pr)
                (sameOut_bind (sameOut_put pr .cbuf _)
                  (sameOut_bind ((EmitStmt_sameOut t).1 ind pr)
                    (sameOut_bind (sameOut_indent pr .cbuf ind)
                      (sameOut_bind (sameOut_put pr .cbuf _)
                        ((EmitStmt_sameOut e).1 ind pr)))))))
      exact ⟨h, fun ind pr => h 0 pr⟩
  | .STMT_WHILE c b => by
      have ihb := (EmitStmt_sameOut b).2
      have h : ∀ (ind : Nat) (pr : GenPair),
          SameOut pr (EmitStmt (.STMT_WHILE c b) ind) := fun ind pr => by
        rw [EmitStmt_while_eq]
        exact sameOut_bind (sameOut_indent pr .cbuf ind)
          (sameOut_bind (sameOut_put pr .cbuf _)
            (sameOut_castExpr c (fun E =>
              sameOut_bind (EmitExpr_sameOut E .cbuf pr)
                (sameOut_bind (sameOut_put pr .cbuf _) (ihb ind pr)))))
      exact ⟨h, fun ind pr => h 0 pr⟩
  | .STMT_DO c b => by
      have ihb := (EmitStmt_sameOut b).2
      have h : ∀ (ind : Nat) (pr : GenPair),
          SameOut pr (EmitStmt (.STMT_DO c b) ind) := fun ind pr => by
        rw [EmitStmt_do_eq]
        exact sameOut_bind (sameOut_indent pr .cbuf ind)
          (sameOut_bind (sameOut_put pr .cbuf _)
            (sameOut_bind (ihb ind pr)
              (sameOut_bind (sameOut_indent pr .cbuf ind)
                (sameOut_bind (sameOut_put pr .cbuf _)
                  (sameOut_castExpr c (fun E =>
                    sameOut_bind (EmitExpr_sameOut E .cbuf pr) (sameOut_put pr .cbuf _)))))))
      exact ⟨h, fun ind pr => h 0 pr⟩
  | .STMT_FOR i c n b => by
      have ihb := (EmitStmt_sameOut b).2
      have h : ∀ (ind : Nat) (pr : GenPair),
          SameOut pr (EmitStmt (.STMT_FOR i c n b) ind) := fun ind pr => by
        rw [EmitStmt_for_eq]
        exact sameOut_bind (sameOut_indent pr .cbuf ind)
          (sameOut_bind (sameOut_put pr .cbuf _)
            (sameOut_bind (sameOut_EmitForInit pr i)
              (sameOut_bind (sameOut_put pr .cbuf _)
                (sameOut_bind (sameOut_EmitForPart pr c)
                  (sameOut_bind (sameOut_put pr .cbuf _)
                    (sameOut_bind (sameOut_EmitForPart pr n)
                      (sameOut_bind (sameOut_put pr .cbuf _) (ihb ind pr))))))))
      exact ⟨h, fun ind pr => h 0 pr⟩
  | .STMT_SWITCH c cs => by
      have h : ∀ (ind : Nat) (pr : GenPair),
          SameOut pr (EmitStmt (.STMT_SWITCH c cs) ind) := fun ind pr => by
        simpa only [EmitStmt] using
          sameOut_bind (sameOut_indent pr .cbuf ind)
            (sameOut_bind (sameOut_put pr .cbuf _)
              (sameOut_bind (EmitExpr_sameOut c .cbuf pr)
                (sameOut_bind (sameOut_put pr .cbuf _)
                  (sameOut_bind (EmitSwitchCases_sameOut cs ind pr)
                    (sameOut_bind (sameOut_indent pr .cbuf ind) (sameOut_put pr .cbuf _))))))
      exact ⟨h, fun ind pr => h 0 pr⟩
  | .STMT_CASE c ss => by
      have h : ∀ (ind : Nat) (pr : GenPair),
          SameOut pr (EmitStmt (.STMT_CASE c ss) ind) := fun ind pr => by
        simpa only [EmitStmt] using sameOut_error pr _
      exact ⟨h, fun ind pr => h 0 pr⟩
  | .STMT_DEFAULT ss => by
      have h : ∀ (ind : Nat) (pr : GenPair),
          SameOut pr (EmitStmt (.STMT_DEFAULT ss) ind) := fun ind pr => by
        simpa only [EmitStmt] using sameOut_error pr _
      exact ⟨h, fun ind pr => h 0 pr⟩
  | .STMT_BREAK => by
      have h : ∀ (ind : Nat) (pr : GenPair),
          SameOut pr (EmitStmt .STMT_BREAK ind) := fun ind pr => by
        simpa only [EmitStmt] using
          sameOut_bind (sameOut_indent pr .cbuf ind) (sameOut_put pr .cbuf _)
      exact ⟨h, fun ind pr => h 0 pr⟩
  | .STMT_CONTINUE => by
      have h : ∀ (ind : Nat) (pr : GenPair),
          SameOut pr (EmitStmt .STMT_CONTINUE ind) := fun ind pr => by
        simpa only [EmitStmt] using
          sameOut_bind (sameOut_indent pr .cbuf ind) (sameOut_put pr .cbuf _)
      exact ⟨h, fun ind pr => h 0 pr⟩
  | .STMT_LABEL name sub => by
      have h : ∀ (ind : Nat) (pr : GenPair),
          SameOut pr (EmitStmt (.STMT_LABEL name sub) ind) := fun ind pr => by
        simpa only [EmitStmt] using
          sameOut_bind (sameOut_put pr .cbuf _)
            (sameOut_bind (sameOut_put pr .cbuf _) ((EmitStmt_sameOut sub).1 ind pr))
      exact ⟨h, fun ind pr => h 0 pr⟩
  | .STMT_GOTO name => by
      have h : ∀ (ind : Nat) (pr : GenPair),
          SameOut pr (EmitStmt (.STMT_GOTO name) ind) := fun ind pr => by
        simpa only [EmitStmt] using
          sameOut_bind (sameOut_indent pr .cbuf ind)
            (sameOut_bind (sameOut_put pr .cbuf _)
              (sameOut_bind (sameOut_put pr .cbuf _) (sameOut_put pr .cbuf _)))
      exact ⟨h, fun ind pr => h 0 pr⟩
  | .STMT_COMPOUND C => by
      refine ⟨fun ind pr => ?_, fun ind pr => EmitCompoundStmt_sameOut C ind false pr⟩
      simpa only [EmitStmt] using EmitCompoundStmt_sameOut C ind true pr
theorem EmitCompoundStmt_sameOut : ∀ (C : CompoundStmt) (ind : Nat) (startOnNewLine : Bool)
    (pr : GenPair), SameOut pr (EmitCompoundStmt C ind startOnNewLine)
  | .mk ss, ind, b, pr => by
      simpa only [EmitCompoundStmt] using
        sameOut_bind (sameOut_ite _ (sameOut_indent pr .cbuf ind) (sameOut_pure pr))
          (sameOut_bind (sameOut_put pr .cbuf _)
            (sameOut_bind (EmitStmts_sameOut ss (ind + INDENT) pr)
              (sameOut_bind (sameOut_indent pr .cbuf ind) (sameOut_put pr .cbuf _))))
theorem EmitStmts_sameOut : ∀ (ss : List Stmt) (ind : Nat) (pr : GenPair),
    SameOut pr (EmitStmts ss ind)
  | [], ind, pr => by simpa only [EmitStmts] using sameOut_ok pr
  | S :: rest, ind, pr => by
      simpa only [EmitStmts] using
        sameOut_bind ((EmitStmt_sameOut S).1 ind pr) (EmitStmts_sameOut rest ind pr)
theorem EmitSwitchCases_sameOut : ∀ (cs : List Stmt) (ind : Nat) (pr : GenPair),
    SameOut pr (EmitSwitchCases cs ind)
  | [], ind, pr => by simpa only [EmitSwitchCases] using sameOut_ok pr
  | .STMT_CASE c ss :: rest, ind, pr => by
      simpa only [EmitSwitchCases] using
        sameOut_bind (sameOut_indent pr .cbuf (ind + INDENT))
          (sameOut_bind (sameOut_put pr .cbuf _)
            (sameOut_bind (EmitExpr_sameOut c .cbuf pr)
              (sameOut_bind (sameOut_put pr .cbuf _)
                (sameOut_bind (EmitStmts_sameOut ss (ind + INDENT + INDENT) pr)
                  (EmitSwitchCases_sameOut rest ind pr)))))
  | .STMT_DEFAULT ss :: rest, ind, pr => by
      simpa only [EmitSwitchCases] using
        sameOut_bind (sameOut_indent pr .cbuf (ind + INDENT))
          (sameOut_bind (sameOut_put pr .cbuf _)
            (sameOut_bind (EmitStmts_sameOut ss (ind + INDENT + INDENT) pr)
              (EmitSwitchCases_sameOut rest ind pr)))
  | .STMT_RETURN _ :: _, ind, pr => by
      simpa only [EmitSwitchCases] using sameOut_error pr _
  | .STMT_EXPR _ :: _, ind, pr => by
      simpa only [EmitSwitchCases] using sameOut_error pr _
  | .STMT_IF _ _ _ :: _, ind, pr => by
      simpa only [EmitSwitchCases] using sameOut_error pr _
  | .STMT_WHILE _ _ :: _, ind, pr => by
      simpa only [EmitSwitchCases] using sameOut_error pr _
  | .STMT_DO _ _ :: _, ind, pr => by
      simpa only [EmitSwitchCases] using sameOut_error pr _
  | .STMT_FOR _ _ _ _ :: _, ind, pr => by
      simpa only [EmitSwitchCases] using sameOut_error pr _
  | .STMT_SWITCH _ _ :: _, ind, pr => by
      simpa only [EmitSwitchCases] using sameOut_error pr _
  | .STMT_BREAK :: _, ind, pr => by
      simpa only [EmitSwitchCases] using sameOut_error pr _
  | .STMT_CONTINUE :: _, ind, pr => by
      simpa only [EmitSwitchCases] using sameOut_error pr _
  | .STMT_LABEL _ _ :: _, ind, pr => by
      simpa only [EmitSwitchCases] using sameOut_error pr _
  | .STMT_GOTO _ :: _, ind, pr => by
      simpa only [EmitSwitchCases] using sameOut_error pr _
  | .STMT_COMPOUND _ :: _, ind, pr => by
      simpa only [EmitSwitchCases] using sameOut_error pr _
end

theorem EmitProtoArgs_sameOut : ∀ (args : List DeclExpr) (count : Int) (output : Buf)
    (pr : GenPair), SameOut pr (EmitProtoArgs args count output)
  | [], count, output, pr => by simpa only [EmitProtoArgs] using sameOut_ok pr
  | A :: rest, count, output, pr => by
      simpa only [EmitProtoArgs] using
        sameOut_bind (EmitDeclExpr_sameOut A output 0 pr)
          (sameOut_bind (sameOut_ite _ (sameOut_put pr output _) (sameOut_pure pr))
            (EmitProtoArgs_sameOut rest (count - 1) output pr))

theorem EmitFunctionProto_sameOut (F : FunctionDecl) (output : Buf) (pr : GenPair) :
    SameOut pr (EmitFunctionProto F output) :=
  sameOut_bind
    (sameOut_ite_dep (fun g => g.mode = .SINGLE_FILE ∧ F.name ≠ "main") (fun _ _ _ => Iff.rfl)
      (by simp only [pr.mode_eq])
      (sameOut_put pr output _) (sameOut_pure pr))
    (sameOut_bind (EmitTypePreName_sameOut F.returnType output pr)
      (sameOut_bind (EmitTypePostName_sameOut F.returnType output pr)
        (sameOut_bind (sameOut_put pr output _)
          (sameOut_bind (sameOut_addCurpkgName pr F.name output)
            (sameOut_bind (sameOut_put pr output _)
              (sameOut_bind (EmitProtoArgs_sameOut F.args _ output pr)
                (sameOut_bind (sameOut_ite _ (sameOut_put pr output _) (sameOut_pure pr))
                  (sameOut_put pr output _))))))))

theorem EmitFunction_sameOut (F : FunctionDecl) (pr : GenPair) :
    SameOut pr (EmitFunction F) :=
  sameOut_bind
    (sameOut_ite_dep (fun g => g.mode = .SINGLE_FILE) (fun _ _ _ => Iff.rfl)
      (by simp only [pr.mode_eq])
      (sameOut_bind (EmitFunctionProto_sameOut F .hbuf pr) (sameOut_put pr .hbuf _))
      (sameOut_ite _
        (sameOut_bind (EmitFunctionProto_sameOut F .hbuf pr) (sameOut_put pr .hbuf _))
        (sameOut_put pr .cbuf _)))
    (sameOut_bind (EmitFunctionProto_sameOut F .cbuf pr)
      (sameOut_bind (sameOut_put pr .cbuf _)
        (sameOut_bind (EmitCompoundStmt_sameOut F.body 0 false pr) (sameOut_put pr .cbuf _))))

theorem EmitIncrValues_sameOut : ∀ (vs : List ArrayValueDecl) (pr : GenPair),
    SameOut pr (EmitIncrValues vs)
  | [], pr => by simpa only [EmitIncrValues] using sameOut_ok pr
  | E :: rest, pr => by
      simpa only [EmitIncrValues] using
        sameOut_bind (sameOut_indent pr .cbuf INDENT)
          (sameOut_bind (EmitExpr_sameOut E.expr .cbuf pr)
            (sameOut_bind (sameOut_put pr .cbuf _) (EmitIncrValues_sameOut rest pr)))

theorem EmitVariable_sameOut (V : VarDecl) (pr : GenPair) :
    SameOut pr (EmitVariable V) := by
  obtain ⟨name, pub, ty, init, incr⟩ := V
  have hinit : SameOut pr (fun g => (match init with
      | some initValue => do
          let g ← put .cbuf " = " g
          EmitExpr initValue .cbuf g
      | none => pure g : Emit)) := by
    cases init with
    | none => exact sameOut_pure pr
    | some e => exact sameOut_bind (sameOut_put pr .cbuf _) (EmitExpr_sameOut e .cbuf pr)
  cases init <;>
  exact sameOut_bind
    (sameOut_ite_dep (fun g => pub = true ∧ g.mode ≠ .SINGLE_FILE) (fun _ _ _ => Iff.rfl)
      (by simp only [pr.mode_eq])
      (sameOut_bind (sameOut_put pr .hbuf _)
        (sameOut_bind (EmitTypePreName_sameOut ty .hbuf pr)
          (sameOut_bind (sameOut_put pr .hbuf _)
            (sameOut_bind (sameOut_addCurpkgName pr name .hbuf)
              (sameOut_bind (EmitTypePostName_sameOut ty .hbuf pr)
                (sameOut_bind (sameOut_put pr .hbuf _) (sameOut_put pr .hbuf _)))))))
      (sameOut_put pr .cbuf _))
    (sameOut_bind (EmitTypePreName_sameOut ty .cbuf pr)
      (sameOut_bind (sameOut_put pr .cbuf _)
        (sameOut_bind (sameOut_addCurpkgName pr name .cbuf)
          (sameOut_bind (EmitTypePostName_sameOut ty .cbuf pr)
            (sameOut_bind hinit
              (sameOut_bind
                (sameOut_ite _
                  (sameOut_bind (sameOut_put pr .cbuf _)
                    (sameOut_bind (EmitIncrValues_sameOut incr pr) (sameOut_put pr .cbuf _)))
                  (sameOut_pure pr))
                (sameOut_bind (sameOut_put pr .cbuf _) (sameOut_put pr .cbuf _))))))))

theorem EmitType_sameOut (T : TypeDecl) (pr : GenPair) : SameOut pr (EmitType T) :=
  sameOut_bind (sameOut_put pr _ _)
    (sameOut_bind (EmitTypePreName_sameOut T.type _ pr)
      (sameOut_bind (EmitTypePostName_sameOut T.type _ pr)
        (sameOut_bind (sameOut_put pr _ _)
          (sameOut_bind (sameOut_addCurpkgName pr T.name _)
            (sameOut_bind (sameOut_put pr _ _) (sameOut_put pr _ _))))))

theorem outOf_EmitUse (D : Decl) (g : CCodeGenerator) :
    outOf (EmitUse D) g =
      match g.pkgs.lookup D.getName with
      | none => .error (.assertion "iter != pkgs.end()")
      | some Q =>
        if g.mode = .MULTI_FILE ∨ Q.isPlainC = true then
          .ok ("#include " ++ (if Q.isPlainC = true then "<" else "\"") ++ D.getName ++ ".h" ++
            (if Q.isPlainC = true then ">" else "'") ++ "\n", "")
        else .ok ("", "") := by
  unfold outOf
  simp only [EmitUse, setBufs]
  cases h : g.pkgs.lookup D.getName with
  | none => rfl
  | some Q =>
    simp only []
    by_cases hc : g.mode = .MULTI_FILE ∨ Q.isPlainC = true
    · simp only [hc, if_true]
      cases hQ : Q.isPlainC <;>
        simp only [put, emit_ok_bind, Except.map, String.append_assoc, String.empty_append,
          Bool.false_eq_true, if_false, if_true]
    · simp only [hc, if_false]
      rfl

theorem EmitUse_sameOut (D : Decl) (pr : GenPair) : SameOut pr (EmitUse D) := by
  refine ⟨EmitUse_framed D _, EmitUse_framed D _, ?_⟩
  rw [outOf_EmitUse, outOf_EmitUse, pr.lookup_eq, pr.mode_eq]

theorem generateUse_sameOut (D : Decl) (pr : GenPair) : SameOut pr (generateUse D) := by
  cases D <;> first | exact sameOut_pure pr | exact EmitUse_sameOut _ pr

theorem generateDecl_sameOut (D : Decl) (pr : GenPair) : SameOut pr (generateDecl D) := by
  cases D with
  | DECL_FUNC F => exact EmitFunction_sameOut F pr
  | DECL_VAR V => exact EmitVariable_sameOut V pr
  | DECL_ENUMVALUE n => exact sameOut_error pr _
  | DECL_TYPE T => exact EmitType_sameOut T pr
  | DECL_ARRAYVALUE A => exact sameOut_pure pr
  | DECL_USE n => exact sameOut_pure pr

theorem generateUses_sameOut : ∀ (decls : List Decl) (pr : GenPair),
    SameOut pr (generateUses decls)
  | [], pr => by simpa only [generateUses] using sameOut_ok pr
  | D :: rest, pr => by
      simpa only [generateUses] using
        sameOut_bind (generateUse_sameOut D pr) (generateUses_sameOut rest pr)

theorem generateDecls_sameOut : ∀ (decls : List Decl) (pr : GenPair),
    SameOut pr (generateDecls decls)
  | [], pr => by simpa only [generateDecls] using sameOut_ok pr
  | D :: rest, pr => by
      simpa only [generateDecls] using
        sameOut_bind (generateDecl_sameOut D pr) (generateDecls_sameOut rest pr)

theorem agreeResult_ok {a b : CCodeGenerator} (h : Agree a b) :
    AgreeResult (.ok a) (.ok b) := h

theorem agreeResult_bind {x y : Emit} {k m : CCodeGenerator → Emit}
    (hxy : AgreeResult x y) (hk : ∀ a b, Agree a b → AgreeResult (k a) (m b)) :
    AgreeResult (x >>= k) (y >>= m) := by
  cases x with
  | error e =>
    cases y with
    | error e' => exact hxy
    | ok b => exact hxy.elim
  | ok a =>
    cases y with
    | error e' => exact hxy.elim
    | ok b => exact hk a b hxy

theorem agree_setBufs {a b : CCodeGenerator} (h : Agree a b) (cb hb : String) :
    Agree (a.setBufs cb hb) (b.setBufs cb hb) :=
  ⟨h.1, h.2.1, h.2.2.1, h.2.2.2.1, h.2.2.2.2.1, h.2.2.2.2.2.1, rfl, rfl⟩

theorem agree_curpkg {a b : CCodeGenerator} (h : Agree a b) (p : Option String) :
    Agree { a with curpkg := p } { b with curpkg := p } :=
  ⟨h.1, h.2.1, rfl, h.2.2.2.1, h.2.2.2.2.1, h.2.2.2.2.2.1, h.2.2.2.2.2.2.1, h.2.2.2.2.2.2.2⟩

theorem agree_run {a b : CCodeGenerator} (h : Agree a b) {f : CCodeGenerator → Emit}
    (hf : SameOut h.toPair f) : AgreeResult (f a) (f b) := by
  have ha := framedAt_run hf.1 a.cbuf a.hbuf
  have hb := framedAt_run hf.2.1 b.cbuf b.hbuf
  have hout : outOf f a = outOf f b := hf.2.2
  change f (a.setBufs a.cbuf a.hbuf) = (outOf f a).map _ at ha
  change f (b.setBufs b.cbuf b.hbuf) = (outOf f b).map _ at hb
  rw [setBufs_self] at ha hb
  rw [ha, hb, hout]
  cases outOf f b with
  | error e => exact rfl
  | ok d =>
    have h7 : a.cbuf = b.cbuf := h.2.2.2.2.2.2.1
    have h8 : a.hbuf = b.hbuf := h.2.2.2.2.2.2.2
    show Agree (a.setBufs (a.cbuf ++ d.1) (a.hbuf ++ d.2))
      (b.setBufs (b.cbuf ++ d.1) (b.hbuf ++ d.2))
    rw [h7, h8]
    exact agree_setBufs h _ _

theorem agree_put {a b : CCodeGenerator} (h : Agree a b) (output : Buf) (text : String) :
    AgreeResult (put output text a) (put output text b) :=
  agree_run h (sameOut_put _ output text)

theorem generateIncludes_agree : ∀ (es : List Entry) (a b : CCodeGenerator), Agree a b →
    AgreeResult (generateIncludes es a) (generateIncludes es b)
  | [], a, b, h => by
      simpa only [generateIncludes] using agreeResult_ok h
  | e :: rest, a, b, h => by
      simp only [generateIncludes]
      refine agreeResult_bind
        (agree_run (agree_curpkg h (some e.ast.pkgName)) (generateUses_sameOut _ _))
        (fun a1 b1 h1 => ?_)
      exact generateIncludes_agree rest _ _ (agree_curpkg h1 none)

theorem generateEntries_agree : ∀ (es : List Entry) (a b : CCodeGenerator), Agree a b →
    AgreeResult (generateEntries es a) (generateEntries es b)
  | [], a, b, h => by
      simpa only [generateEntries] using agreeResult_ok h
  | e :: rest, a, b, h => by
      simp only [generateEntries]
      refine agreeResult_bind
        (agree_run (agree_curpkg h (some e.ast.pkgName)) (generateDecls_sameOut _ _))
        (fun a1 b1 h1 => ?_)
      exact generateEntries_agree rest _ _ (agree_curpkg h1 none)

theorem generate_agree (a b : CCodeGenerator) (h : Agree a b) :
    AgreeResult (generate a) (generate b) := by
  unfold generate
  refine agreeResult_bind (agree_put h _ _) (fun a1 b1 h1 => ?_)
  have e1 : a1.filename = b1.filename := h1.1
  rw [show Utils.toCapital a1.filename = Utils.toCapital b1.filename from by rw [e1]]
  refine agreeResult_bind (agree_run h1 (sameOut_put _ _ _)) (fun a2 b2 h2 => ?_)
  refine agreeResult_bind (agree_put h2 _ _) (fun a3 b3 h3 => ?_)
  refine agreeResult_bind (agree_put h3 _ _) (fun a4 b4 h4 => ?_)
  have e4 : a4.filename = b4.filename := h4.1
  rw [show Utils.toCapital a4.filename = Utils.toCapital b4.filename from by rw [e4]]
  refine agreeResult_bind (agree_run h4 (sameOut_put _ _ _)) (fun a5 b5 h5 => ?_)
  refine agreeResult_bind (agree_put h5 _ _) (fun a6 b6 h6 => ?_)
  refine agreeResult_bind (agree_put h6 _ _) (fun a7 b7 h7 => ?_)
  have e7 : a7.entries = b7.entries := h7.2.2.2.2.2.1
  rw [e7]
  refine agreeResult_bind (generateIncludes_agree _ _ _ h7) (fun a8 b8 h8 => ?_)
  refine agreeResult_bind (agree_put h8 _ _) (fun a9 b9 h9 => ?_)
  have e9 : a9.hfilename = b9.hfilename := h9.2.1
  rw [e9]
  refine agreeResult_bind (agree_put h9 _ _) (fun a10 b10 h10 => ?_)
  refine agreeResult_bind (agree_put h10 _ _) (fun a11 b11 h11 => ?_)
  refine agreeResult_bind (agree_put h11 _ _) (fun a12 b12 h12 => ?_)
  have e12 : a12.entries = b12.entries := h12.2.2.2.2.2.1
  rw [e12]
  refine agreeResult_bind (generateEntries_agree _ _ _ h12) (fun a13 b13 h13 => ?_)
  exact agree_put h13 _ _

theorem agree_addEntry {a b : CCodeGenerator} (h : Agree a b) (filename : String) (ast : AST) :
    Agree (a.addEntry filename ast) (b.addEntry filename ast) := by
  obtain ⟨h1, h2, h3, h4, h5, h6, h7, h8⟩ := h
  refine ⟨h1, h2, h3, h4, h5, ?_, h7, h8⟩
  show a.entries ++ _ = b.entries ++ _
  rw [h6]

theorem agree_foldl : ∀ (entries : List Entry) (a b : CCodeGenerator), Agree a b →
    Agree (entries.foldl (fun g e => g.addEntry e.filename e.ast) a)
      (entries.foldl (fun g e => g.addEntry e.filename e.ast) b)
  | [], _, _, h => h
  | e :: rest, _, _, h => agree_foldl rest _ _ (agree_addEntry h e.filename e.ast)

theorem agree_fresh (filename : String) (mode : Mode) (pkgs1 pkgs2 : List (String × Package))
    (entries : List Entry) (hpkgs : ∀ name, pkgs1.lookup name = pkgs2.lookup name) :
    Agree (freshGenerator filename mode pkgs1 entries)
      (freshGenerator filename mode pkgs2 entries) :=
  agree_foldl entries _ _ ⟨rfl, rfl, rfl, rfl, hpkgs, rfl, rfl, rfl⟩

/-- C24: two freshly constructed generators that are given the same basename,
mode and sequence of entries, and package maps in which every name is found
with the same result, either both complete `generate` with identical header
buffers and identical source buffers or both stop with the same error. -/
theorem C24_emission_determinism (filename : String) (mode : Mode)
    (pkgs1 pkgs2 : List (String × Package)) (entries : List Entry)
    (hpkgs : ∀ name, pkgs1.lookup name = pkgs2.lookup name) :
    (generate (freshGenerator filename mode pkgs1 entries)).map (fun g => (g.hbuf, g.cbuf)) =
      (generate (freshGenerator filename mode pkgs2 entries)).map
        (fun g => (g.hbuf, g.cbuf)) := by
  have h := generate_agree _ _ (agree_fresh filename mode pkgs1 pkgs2 entries hpkgs)
  cases h1 : generate (freshGenerator filename mode pkgs1 entries) with
  | error e =>
    cases h2 : generate (freshGenerator filename mode pkgs2 entries) with
    | error e' =>
      rw [h1, h2] at h
      have he : e = e' := h
      rw [he]
    | ok b =>
      rw [h1, h2] at h
      exact h.elim
  | ok a =>
    cases h2 : generate (freshGenerator filename mode pkgs2 entries) with
    | error e' =>
      rw [h1, h2] at h
      exact h.elim
    | ok b =>
      rw [h1, h2] at h
      have hab : Agree a b := h
      show Except.ok (a.hbuf, a.cbuf) = Except.ok (b.hbuf, b.cbuf)
      rw [hab.2.2.2.2.2.2.1, hab.2.2.2.2.2.2.2]

theorem exPkgs_lookup (name : String) : exPkgs.lookup name = exPkgsOther.lookup name := by
  unfold exPkgs exPkgsOther
  simp only [List.lookup]
  by_cases h1 : name = "stdio"
  · subst h1
    rfl
  · by_cases h2 : name = "util"
    · subst h2
      rfl
    · have e1 : (name == "stdio") = false := by simpa using h1
      have e2 : (name == "util") = false := by simpa using h2
      simp only [e1, e2]

/-- Witness for C24: the example module generated with the package map of the
examples and with the same map stored in another order. -/
theorem C24_emission_determinism_witness :
    (∀ name, exPkgs.lookup name = exPkgsOther.lookup name) ∧
    (generate (freshGenerator "out" .MULTI_FILE exPkgs exEntries)).map
        (fun g => (g.hbuf, g.cbuf)) =
      (generate (freshGenerator "out" .MULTI_FILE exPkgsOther exEntries)).map
        (fun g => (g.hbuf, g.cbuf)) :=
  ⟨exPkgs_lookup, C24_emission_determinism "out" .MULTI_FILE exPkgs exPkgsOther exEntries
    exPkgs_lookup⟩

/-- Witness for C29: the statement `if (1) break;` at indent 4 and the
compound `{ break; }` at indent 0. -/
theorem C29_statement_ends_with_newline_witness :
    ∃ g' g1', EmitStmt exIfBreak 4 exMulti = .ok g' ∧
      EmitCompoundStmt (.mk [.STMT_BREAK]) 0 false exMulti = .ok g1' ∧
      ((∃ t, g'.cbuf = exMulti.cbuf ++ (t ++ "\n")) ∧ g'.hbuf = exMulti.hbuf) ∧
      ((∃ t, g1'.cbuf = exMulti.cbuf ++ (t ++ "\n")) ∧ g1'.hbuf = exMulti.hbuf) := by
  have hok1 : completes (EmitStmt exIfBreak 4 exMulti) = true := by decide!
  have hok2 : completes (EmitCompoundStmt (.mk [.STMT_BREAK]) 0 false exMulti) = true := by
    decide!
  cases hS : EmitStmt exIfBreak 4 exMulti with
  | error e => rw [hS] at hok1; cases hok1
  | ok g' =>
    cases hC : EmitCompoundStmt (.mk [.STMT_BREAK]) 0 false exMulti with
    | error e => rw [hC] at hok2; cases hok2
    | ok g1' =>
      exact ⟨g', g1', rfl, rfl,
        C29_statement_ends_with_newline exIfBreak (.mk [.STMT_BREAK]) 4 0 false exMulti g'
          exMulti g1' hS hC⟩

end C2.CGen
